import Mathlib

/-!
# Artemia prevalence layer: model and verification

A shallow embedding of `artemia.go` (package `artemia`): the keyed record
store, the secondary indexes, transactions and the snapshot persistence,
followed by the statements proved about them.

Modelling conventions.

* A Go `map` is an association list with unique keys (`GoMap`); `range` over
  a map visits the entries of that list.  Every statement holds for every
  such list, hence for every order in which a loop may visit a map, and the
  statements speak about lookups, membership and multiplicity only.
* A run-time panic is the result `none`: the call does not return, and the
  run it belongs to ends there.
* Values of type `interface{}` are modelled by `Value`: the nil interface,
  values of a non-struct type, struct values, and pointers to those.  Struct
  fields hold comparable scalars (`Scalar`), each with its dynamic type, which
  is what an index uses as bucket keys.  A field is exported when its name
  starts with an upper-case letter; reading an unexported field through
  `Interface` panics.
* `reflect.Type` is modelled by `GoType` and `reflect.Value` by `Value`, the
  zero `reflect.Value` being `Value.nil`.
* Pending operations of a transaction are data (`Op`); they run against the
  layer that commits them.
* The disk is a map from paths to contents; the gob codec (`Codec`) and the
  failures of the operating system (`Faults`) are parameters.
* The mutexes are not modelled: every call runs alone.
-/

namespace Artemia

/-! ## Host-language values and the reflect operations used by the layer -/

/-- Source: `type TypeInfo struct { PkgPath string; Name string }`. -/
structure TypeInfo where
  PkgPath : String
  Name : String
deriving DecidableEq, Repr

/-- Dynamic types (`reflect.Type`).  A struct type is told apart by its
package path, its name and its field names; two struct types declared in
different function bodies of one package, or two unnamed struct types, may
share path and name. -/
inductive GoType where
  | basic (info : TypeInfo)
  | struct (info : TypeInfo) (fields : List String)
  | ptr (elem : GoType)
deriving DecidableEq, Repr

/-- Comparable field values, each with its dynamic type (`string`, `int`,
`int64`, `bool`): what `f.Interface()` yields and what an index uses as bucket
key.  Two scalars are equal when they have the same dynamic type and the
same value, which is Go's `==` on interface values: `int64(1)` and `int(1)`
differ. -/
inductive Scalar where
  | str (s : String)
  | int (n : Int)
  | int64 (n : Int)
  | bool (b : Bool)
deriving DecidableEq, Repr

/-- Values that are neither nil nor a pointer. -/
inductive Plain where
  | basic (info : TypeInfo) (payload : Scalar)
  | struct (info : TypeInfo) (fields : List (String × Scalar))
deriving DecidableEq, Repr

/-- Values of type `interface{}`. -/
inductive Value where
  | nil
  | val (p : Plain)
  | nilPtr (elem : GoType)
  | ptr (p : Plain)
deriving DecidableEq, Repr

/-- Kinds the code distinguishes (`reflect.Kind`). -/
inductive Kind where
  | Invalid
  | Ptr
  | Struct
  | Other
deriving DecidableEq, Repr

/-- Method `PkgPath` of `reflect.Type`: empty for a pointer type. -/
def GoType.PkgPath : GoType → String
  | .basic info => info.PkgPath
  | .struct info _ => info.PkgPath
  | .ptr _ => ""

/-- Method `Name` of `reflect.Type`: empty for a pointer type. -/
def GoType.Name : GoType → String
  | .basic info => info.Name
  | .struct info _ => info.Name
  | .ptr _ => ""

/-- Source: `getTypeInfo` (artemia.go 116-121), on a non-nil type. -/
def getTypeInfo (t : GoType) : TypeInfo :=
  { PkgPath := t.PkgPath, Name := t.Name }

/-- Dynamic type of a plain value. -/
def Plain.Type : Plain → GoType
  | .basic info _ => GoType.basic info
  | .struct info fields => GoType.struct info (fields.map Prod.fst)

/-- Function `reflect.TypeOf`; `none` is the nil `reflect.Type`, on which
every method call panics. -/
def TypeOf : Value → Option GoType
  | .nil => none
  | .val p => some p.Type
  | .nilPtr elem => some (GoType.ptr elem)
  | .ptr p => some (GoType.ptr p.Type)

/-- Function `reflect.ValueOf`. -/
def ValueOf (value : Value) : Value := value

/-- Method `Kind` of `reflect.Value`. -/
def Value.Kind : Value → Kind
  | .nil => Kind.Invalid
  | .val (.basic _ _) => Kind.Other
  | .val (.struct _ _) => Kind.Struct
  | .nilPtr _ => Kind.Ptr
  | .ptr _ => Kind.Ptr

/-- Method `Elem` of `reflect.Value`, called on pointers only: the pointee,
or the zero Value for a nil pointer. -/
def Value.Elem : Value → Value
  | .ptr p => Value.val p
  | _ => Value.nil

/-- Method `Type` of `reflect.Value`; panics (`none`) on the zero Value. -/
def Value.Type (v : Value) : Option GoType := TypeOf v

/-- Whether a field name is exported: its first character is an upper-case
letter (field names are ASCII here). -/
def isExported (name : String) : Bool :=
  match name.data with
  | c :: _ => c.isUpper
  | [] => false

/-- The `reflect.Value` of a struct field: the value it holds and whether the
field is exported. -/
structure FieldValue where
  exported : Bool
  value : Scalar
deriving DecidableEq, Repr

/-- Method `FieldByName` of `reflect.Value`: `none` is the panic raised when
the receiver is not a struct, `some none` the zero Value returned for an
absent field (`IsValid` is false), `some (some f)` the field found. -/
def Value.FieldByName : Value → String → Option (Option FieldValue)
  | .val (.struct _ fields), name =>
    some ((fields.lookup name).map (fun x => { exported := isExported name, value := x }))
  | _, _ => none

/-- Method `Interface` of `reflect.Value`, on a field: panics (`none`) when
the Value was obtained from an unexported field. -/
def FieldValue.Interface (f : FieldValue) : Option Scalar :=
  if f.exported then some f.value else none

/-- Predeclared type of a scalar. -/
def Scalar.typeInfo : Scalar → TypeInfo
  | .str _ => { PkgPath := "", Name := "string" }
  | .int _ => { PkgPath := "", Name := "int" }
  | .int64 _ => { PkgPath := "", Name := "int64" }
  | .bool _ => { PkgPath := "", Name := "bool" }

/-- Dereference step shared by `addToIndex`, `removeFromIndexes` and
`CreateFieldFilter`: `if v.Kind() == reflect.Ptr { v = v.Elem() }`. -/
def derefValue (value : Value) : Value :=
  if (ValueOf value).Kind = Kind.Ptr then (ValueOf value).Elem else ValueOf value

/-! ## Data model -/

/-- Go map with keys `K` and values `V`. -/
abbrev GoMap (K V : Type) := AList (fun _ : K => V)

/-- Source: `type Index struct { FieldName string; Data map[interface{}][]string }`. -/
structure Index where
  FieldName : String
  Data : GoMap Scalar (List String)

/-- Source: `type PrevalenceLayer struct` without its two mutexes. -/
structure PrevalenceLayer where
  data : GoMap String Value
  indexes : GoMap TypeInfo (GoMap String Index)
  filename : String
  indexFile : String

/-- Pointer lookup `pl.indexes[typeInfo][field]`; `none` is the nil pointer. -/
def PrevalenceLayer.indexAt (pl : PrevalenceLayer) (typeInfo : TypeInfo) (field : String) :
    Option Index :=
  (pl.indexes.lookup typeInfo).bind (fun m => m.lookup field)

/-- In-place assignment `index.Data = data` through the pointer
`pl.indexes[typeInfo][field]`. -/
def PrevalenceLayer.setIndexData (pl : PrevalenceLayer) (typeInfo : TypeInfo) (field : String)
    (data : GoMap Scalar (List String)) : PrevalenceLayer :=
  match pl.indexes.lookup typeInfo with
  | none => pl
  | some m =>
    match m.lookup field with
    | none => pl
    | some index =>
      { pl with indexes := pl.indexes.insert typeInfo (m.insert field { index with Data := data }) }

/-! ## Index maintenance -/

/-- Source: `addToIndex` (artemia.go 145-169). -/
def PrevalenceLayer.addToIndex (pl : PrevalenceLayer) (typeInfo : TypeInfo) (field key : String)
    (value : Value) : Option PrevalenceLayer :=
  let v := derefValue value
  match v.Type with
  | none => none
  | some t =>
    if getTypeInfo t ≠ typeInfo then some pl
    else
      match v.FieldByName field with
      | none => none
      | some none => some pl
      | some (some f) =>
        match f.Interface with
        | none => none
        | some fieldValue =>
          match pl.indexAt typeInfo field with
          | none => none
          | some index =>
            match index.Data.lookup fieldValue with
            | some keys =>
              if key ∈ keys then some pl
              else
                some (pl.setIndexData typeInfo field (index.Data.insert fieldValue (keys ++ [key])))
            | none => some (pl.setIndexData typeInfo field (index.Data.insert fieldValue [key]))

/-- One iteration of the loop of `removeFromIndexes` (artemia.go 174-197),
for the index registered under `typeInfo` and `field`.  The slice of the
remaining keys is allocated with capacity `len(keys)-1` (artemia.go 185),
which panics when the bucket is an empty list. -/
def PrevalenceLayer.removeFromIndex (pl : PrevalenceLayer) (typeInfo : TypeInfo) (field key : String)
    (value : Value) : Option PrevalenceLayer :=
  let v := derefValue value
  match v.FieldByName field with
  | none => none
  | some none => some pl
  | some (some f) =>
    match f.Interface with
    | none => none
    | some fieldValue =>
      match pl.indexAt typeInfo field with
      | none => none
      | some index =>
        match index.Data.lookup fieldValue with
        | some keys =>
          -- make([]string, 0, len(keys)-1) panics on a negative capacity
          if (keys.length : Int) - 1 < 0 then none
          else
            let newKeys := keys.filter (fun k => k ≠ key)
            if newKeys.length > 0 then
              some (pl.setIndexData typeInfo field (index.Data.insert fieldValue newKeys))
            else
              some (pl.setIndexData typeInfo field (index.Data.erase fieldValue))
        | none => some pl

/-- Source: `removeFromIndexes` (artemia.go 171-199). -/
def PrevalenceLayer.removeFromIndexes (pl : PrevalenceLayer) (key : String) (value : Value) :
    Option PrevalenceLayer :=
  match TypeOf value with
  | none => none
  | some t =>
    let typeInfo := getTypeInfo t
    match pl.indexes.lookup typeInfo with
    | some indexes =>
      indexes.keys.foldlM (fun acc field => acc.removeFromIndex typeInfo field key value) pl
    | none => some pl

/-- Source: `updateIndexes` (artemia.go 201-208). -/
def PrevalenceLayer.updateIndexes (pl : PrevalenceLayer) (key : String) (value : Value) :
    Option PrevalenceLayer :=
  match TypeOf value with
  | none => none
  | some t =>
    let typeInfo := getTypeInfo t
    match pl.indexes.lookup typeInfo with
    | some indexes =>
      indexes.keys.foldlM (fun acc field => acc.addToIndex typeInfo field key value) pl
    | none => some pl

/-- Source: `CreateIndex` (artemia.go 123-143). -/
def PrevalenceLayer.CreateIndex (pl : PrevalenceLayer) (structType : GoType) (field : String) :
    Option PrevalenceLayer :=
  let typeInfo := getTypeInfo structType
  let pl1 : PrevalenceLayer :=
    match pl.indexes.lookup typeInfo with
    | some _ => pl
    | none => { pl with indexes := pl.indexes.insert typeInfo ∅ }
  match pl1.indexAt typeInfo field with
  | some _ => some pl1
  | none =>
    let pl2 : PrevalenceLayer :=
      match pl1.indexes.lookup typeInfo with
      | some m =>
        { pl1 with indexes :=
            pl1.indexes.insert typeInfo (m.insert field { FieldName := field, Data := ∅ }) }
      | none => pl1
    pl2.data.entries.foldlM
      (fun acc e =>
        if TypeOf e.2 = some structType then acc.addToIndex typeInfo field e.1 e.2 else some acc)
      pl2

/-! ## Reads -/

/-- Source: `Get` (artemia.go 102-108). -/
def PrevalenceLayer.Get (pl : PrevalenceLayer) (key : String) : Value × Bool :=
  match pl.data.lookup key with
  | some value => (value, true)
  | none => (Value.nil, false)

/-- Source: `QueryByIndex` (artemia.go 223-239); the element `pl.data[key]`
of an absent key is the nil interface. -/
def PrevalenceLayer.QueryByIndex (pl : PrevalenceLayer) (structType : GoType) (field : String)
    (value : Scalar) : List Value :=
  let typeInfo := getTypeInfo structType
  match pl.indexes.lookup typeInfo with
  | some typeIndexes =>
    match typeIndexes.lookup field with
    | some index =>
      match index.Data.lookup value with
      | some keys => keys.map (fun key => (pl.data.lookup key).getD Value.nil)
      | none => []
    | none => []
  | none => []

/-- Source: `Query` (artemia.go 210-221). -/
def PrevalenceLayer.Query (pl : PrevalenceLayer) (filter : Value → Bool) : List Value :=
  (pl.data.entries.filter (fun e => filter e.2)).map (fun e => e.2)

/-! ## Persistence -/

/-- Error values returned by the layer, one per failure site of artemia.go. -/
inductive Error where
  | createData
  | encodeData
  | createIndexes
  | encodeIndexes
  | renameData
  | renameIndexes
  | openData
  | decodeData
  | openIndexes
  | decodeIndexes
deriving DecidableEq, Repr

/-- Contents of a file. -/
abbrev Bytes := List Nat

/-- Disk state: the content of every existing file, by path. -/
abbrev Disk := String → Option Bytes

/-- File created or overwritten with the given content. -/
def Disk.write (d : Disk) (path : String) (content : Bytes) : Disk :=
  fun p => if p = path then some content else d p

/-- File removed. -/
def Disk.remove (d : Disk) (path : String) : Disk :=
  fun p => if p = path then none else d p

/-- File moved over another path. -/
def Disk.rename (d : Disk) (oldpath newpath : String) : Disk :=
  fun p => if p = newpath then d oldpath else if p = oldpath then none else d p

/-- The gob codec, an external collaborator: encoding may fail, decoding may
fail. -/
structure Codec where
  encodeData : GoMap String Value → Option Bytes
  decodeData : Bytes → Option (GoMap String Value)
  encodeIndexes : GoMap TypeInfo (GoMap String Index) → Option Bytes
  decodeIndexes : Bytes → Option (GoMap TypeInfo (GoMap String Index))

/-- Failures of the operating system calls, chosen by the environment: which
`os.Create`, `os.Open` (for a reason other than a missing file), `os.Rename`
and `os.Remove` calls fail. -/
structure Faults where
  create : String → Bool
  open_ : String → Bool
  rename : String → String → Bool
  remove : String → Bool

/-- Call `os.Remove`, whose result the layer ignores. -/
def osRemove (os : Faults) (d : Disk) (path : String) : Disk :=
  if os.remove path then d else d.remove path

/-- Source: `saveData` (artemia.go 263-276). -/
def PrevalenceLayer.saveData (gob : Codec) (os : Faults) (pl : PrevalenceLayer) (d : Disk)
    (filename : String) : Disk × Option Error :=
  if os.create filename then (d, some Error.createData)
  else
    match gob.encodeData pl.data with
    | none => (d.write filename [], some Error.encodeData)
    | some bytes => (d.write filename bytes, none)

/-- Source: `saveIndexes` (artemia.go 278-291). -/
def PrevalenceLayer.saveIndexes (gob : Codec) (os : Faults) (pl : PrevalenceLayer) (d : Disk)
    (filename : String) : Disk × Option Error :=
  if os.create filename then (d, some Error.createIndexes)
  else
    match gob.encodeIndexes pl.indexes with
    | none => (d.write filename [], some Error.encodeIndexes)
    | some bytes => (d.write filename bytes, none)

/-- Source: `save` (artemia.go 241-261). -/
def PrevalenceLayer.save (gob : Codec) (os : Faults) (pl : PrevalenceLayer) (d : Disk) :
    Disk × Option Error :=
  let tempDataFile := pl.filename ++ ".tmp"
  let tempIndexFile := pl.indexFile ++ ".tmp"
  match pl.saveData gob os d tempDataFile with
  | (d1, some err) => (d1, some err)
  | (d1, none) =>
    match pl.saveIndexes gob os d1 tempIndexFile with
    | (d2, some err) => (osRemove os d2 tempDataFile, some err)
    | (d2, none) =>
      if os.rename tempDataFile pl.filename ∨ d2 tempDataFile = none then
        (d2, some Error.renameData)
      else
        let d3 := d2.rename tempDataFile pl.filename
        if os.rename tempIndexFile pl.indexFile ∨ d3 tempIndexFile = none then
          (d3, some Error.renameIndexes)
        else
          (d3.rename tempIndexFile pl.indexFile, none)

/-- Source: `rebuildIndexes` (artemia.go 343-349). -/
def PrevalenceLayer.rebuildIndexes (gob : Codec) (os : Faults) (pl : PrevalenceLayer)
    (d : Disk) : Option (PrevalenceLayer × Disk) :=
  let pl0 : PrevalenceLayer := { pl with indexes := ∅ }
  match pl0.data.entries.foldlM (fun acc e => acc.updateIndexes e.1 e.2) pl0 with
  | none => none
  | some pl1 => some (pl1, (pl1.saveIndexes gob os d pl1.indexFile).1)

/-- Source: `loadData` (artemia.go 303-320). -/
def PrevalenceLayer.loadData (gob : Codec) (os : Faults) (pl : PrevalenceLayer) (d : Disk) :
    PrevalenceLayer × Option Error :=
  if os.open_ pl.filename then (pl, some Error.openData)
  else
    match d pl.filename with
    | none => ({ pl with data := ∅ }, none)
    | some bytes =>
      match gob.decodeData bytes with
      | none => (pl, some Error.decodeData)
      | some m => ({ pl with data := m }, none)

/-- Source: `loadIndexes` (artemia.go 322-341). -/
def PrevalenceLayer.loadIndexes (gob : Codec) (os : Faults) (pl : PrevalenceLayer) (d : Disk) :
    Option (PrevalenceLayer × Disk × Option Error) :=
  if os.open_ pl.indexFile then some (pl, d, some Error.openIndexes)
  else
    match d pl.indexFile with
    | none =>
      match pl.rebuildIndexes gob os d with
      | none => none
      | some (pl1, d1) => some (pl1, d1, none)
    | some bytes =>
      match gob.decodeIndexes bytes with
      | none => some (pl, osRemove os d pl.indexFile, some Error.decodeIndexes)
      | some ix => some ({ pl with indexes := ix }, d, none)

/-- Source: `load` (artemia.go 293-301). -/
def PrevalenceLayer.load (gob : Codec) (os : Faults) (pl : PrevalenceLayer) (d : Disk) :
    Option (PrevalenceLayer × Disk × Option Error) :=
  match pl.loadData gob os d with
  | (pl1, some err) => some (pl1, d, some err)
  | (pl1, none) =>
    match pl1.loadIndexes gob os d with
    | none => none
    | some (pl2, d2, some _) =>
      match pl2.rebuildIndexes gob os d2 with
      | none => none
      | some (pl3, d3) => some (pl3, d3, none)
    | some (pl2, d2, none) => some (pl2, d2, none)

/-- Source: `NewPrevalenceLayer` (artemia.go 34-50): the layer or the error,
and the disk left behind. -/
def NewPrevalenceLayer (gob : Codec) (os : Faults) (d : Disk) (filename : String) :
    Option (Except Error PrevalenceLayer × Disk) :=
  let pl : PrevalenceLayer :=
    { data := ∅, indexes := ∅, filename := filename, indexFile := filename ++ ".index" }
  match pl.load gob os d with
  | none => none
  | some (_, d1, some err) => some (Except.error err, d1)
  | some (pl1, d1, none) => some (Except.ok pl1, d1)

/-! ## Transactions -/

/-- Pending operation of a transaction: the closure enqueued by
`Transaction.Set` or by `Transaction.Delete`, as data. -/
inductive Op where
  | set (key : String) (value : Value)
  | delete (key : String)
deriving DecidableEq, Repr

/-- Source: `type Transaction struct { operations []func() error }`. -/
structure Transaction where
  operations : List Op
deriving DecidableEq, Repr

/-- Source: `BeginTransaction` (artemia.go 52-54). -/
def PrevalenceLayer.BeginTransaction (_pl : PrevalenceLayer) : Transaction :=
  { operations := [] }

/-- Source: `Transaction.Set` (artemia.go 56-67): appends the closure. -/
def Transaction.Set (tx : Transaction) (key : String) (value : Value) : Transaction :=
  { operations := tx.operations ++ [Op.set key value] }

/-- Source: `Transaction.Delete` (artemia.go 69-78): appends the closure. -/
def Transaction.Delete (tx : Transaction) (key : String) : Transaction :=
  { operations := tx.operations ++ [Op.delete key] }

/-- Body of the closures of artemia.go 57-65 and 70-76, run on the layer:
the new state and the returned error, or `none` for a panic. -/
def Op.run : Op → PrevalenceLayer → Option (PrevalenceLayer × Option Error)
  | .set key value, pl =>
    let removed : Option PrevalenceLayer :=
      match pl.data.lookup key with
      | some oldValue => pl.removeFromIndexes key oldValue
      | none => some pl
    match removed with
    | none => none
    | some pl1 =>
      let pl2 : PrevalenceLayer := { pl1 with data := pl1.data.insert key value }
      match pl2.updateIndexes key value with
      | none => none
      | some pl3 => some (pl3, none)
  | .delete key, pl =>
    match pl.data.lookup key with
    | some oldValue =>
      match pl.removeFromIndexes key oldValue with
      | none => none
      | some pl1 => some ({ pl1 with data := pl1.data.erase key }, none)
    | none => some (pl, none)

/-- Loop of `Commit` (artemia.go 87-91): runs the operations in order and
stops at the first error. -/
def runOperations : List Op → PrevalenceLayer → Option (PrevalenceLayer × Option Error)
  | [], pl => some (pl, none)
  | op :: rest, pl =>
    match op.run pl with
    | none => none
    | some (pl1, some err) => some (pl1, some err)
    | some (pl1, none) => runOperations rest pl1

/-- Result of a call that mutates the layer and the disk and returns an
error value. -/
structure Outcome where
  pl : PrevalenceLayer
  disk : Disk
  err : Option Error

/-- Source: `Commit` (artemia.go 80-94). -/
def PrevalenceLayer.Commit (gob : Codec) (os : Faults) (pl : PrevalenceLayer) (d : Disk)
    (tx : Transaction) : Option Outcome :=
  match runOperations tx.operations pl with
  | none => none
  | some (pl1, some err) => some { pl := pl1, disk := d, err := some err }
  | some (pl1, none) =>
    some { pl := pl1, disk := (pl1.save gob os d).1, err := (pl1.save gob os d).2 }

/-- Source: `Set` (artemia.go 96-100). -/
def PrevalenceLayer.Set (gob : Codec) (os : Faults) (pl : PrevalenceLayer) (d : Disk)
    (key : String) (value : Value) : Option Outcome :=
  pl.Commit gob os d (pl.BeginTransaction.Set key value)

/-- Source: `Delete` (artemia.go 110-114). -/
def PrevalenceLayer.Delete (gob : Codec) (os : Faults) (pl : PrevalenceLayer) (d : Disk)
    (key : String) : Option Outcome :=
  pl.Commit gob os d (pl.BeginTransaction.Delete key)

/-! ## Vocabulary of the statements

Buckets as lists of keys, the effect of each operation on a bucket, and the
invariants of the indexes. -/

/-- Bucket of value `x` in the index on `(typeInfo, field)`, if the index and
the bucket exist. -/
def PrevalenceLayer.rawBucket (pl : PrevalenceLayer) (typeInfo : TypeInfo) (field : String)
    (x : Scalar) : Option (List String) :=
  (pl.indexAt typeInfo field).bind (fun index => index.Data.lookup x)

/-- Keys listed in the bucket of `x`; empty when the index or the bucket is absent. -/
def PrevalenceLayer.bucket (pl : PrevalenceLayer) (typeInfo : TypeInfo) (field : String)
    (x : Scalar) : List String :=
  (pl.rawBucket typeInfo field x).getD []

/-- Relation between the layer before and after an index update: the store,
the file names and the set of index definitions are the same. -/
structure Frame (pl pl' : PrevalenceLayer) : Prop where
  data : pl'.data = pl.data
  filename : pl'.filename = pl.filename
  indexFile : pl'.indexFile = pl.indexFile
  types : ∀ ti, (pl'.indexes.lookup ti).isSome = (pl.indexes.lookup ti).isSome
  fields : ∀ ti F, (pl'.indexAt ti F).isSome = (pl.indexAt ti F).isSome

/-- Effect of `addToIndex` on one bucket: idempotent append. -/
def addKey (key : String) : Option (List String) → Option (List String)
  | some keys => if key ∈ keys then some keys else some (keys ++ [key])
  | none => some [key]

/-- Effect of `removeFromIndexes` on one bucket: the key is filtered out and
an emptied bucket is deleted. -/
def dropKey (key : String) : Option (List String) → Option (List String)
  | some keys =>
    if (keys.filter (fun k => k ≠ key)).length > 0 then some (keys.filter (fun k => k ≠ key))
    else none
  | none => none

/-- Field value read by `removeFromIndexes`: the field of the dereferenced
value, when it is a struct that has the field and the field is exported. -/
def fieldOf (value : Value) (field : String) : Option Scalar :=
  ((derefValue value).FieldByName field).join.bind FieldValue.Interface

/-- Bucket under which `addToIndex` files a value in the index on
`(typeInfo, field)`: the field of the dereferenced value, provided the type
identity of the dereferenced value is `typeInfo`. -/
def indexedField (typeInfo : TypeInfo) (value : Value) (field : String) : Option Scalar :=
  match (derefValue value).Type with
  | some t => if getTypeInfo t = typeInfo then fieldOf value field else none
  | none => none

/-- An index update at `(ti, f)` that rewrites the bucket of `fv x` by `g`. -/
structure StepSpec (pl pl' : PrevalenceLayer) (ti : TypeInfo) (f : String)
    (fv : Option Scalar) (g : Option (List String) → Option (List String)) : Prop where
  frame : Frame pl pl'
  bucket : ∀ ti' F x, pl'.rawBucket ti' F x =
    if ti' = ti ∧ F = f ∧ fv = some x then g (pl.rawBucket ti' F x) else pl.rawBucket ti' F x

/-- Type identity the layer computes for a stored value:
`getTypeInfo(reflect.TypeOf(value))`; none for the nil interface. -/
def typeInfoOf (value : Value) : Option TypeInfo :=
  (TypeOf value).map getTypeInfo

/-- Effect of a loop over the fields `fs` of the indexes of type `ti`. -/
structure LoopSpec (pl pl' : PrevalenceLayer) (ti : TypeInfo) (fs : List String)
    (fv : String → Option Scalar) (g : Option (List String) → Option (List String)) : Prop where
  frame : Frame pl pl'
  bucket : ∀ ti' F x, pl'.rawBucket ti' F x =
    if ti' = ti ∧ F ∈ fs ∧ fv F = some x then g (pl.rawBucket ti' F x) else pl.rawBucket ti' F x

/-- Bucket after the removal stage of an operation on `key`, whose previous
record is `old`. -/
def dropStage (old : Option Value) (key : String) (ti : TypeInfo) (F : String) (x : Scalar)
    (b : Option (List String)) : Option (List String) :=
  match old with
  | some oldValue =>
    if typeInfoOf oldValue = some ti ∧ fieldOf oldValue F = some x then dropKey key b else b
  | none => b

/-- Bucket after the insertion stage of `Set(key, value)`; `registered` tells
whether the index on `(ti, F)` exists. -/
def addStage (value : Value) (key : String) (registered : Bool) (ti : TypeInfo) (F : String)
    (x : Scalar) (b : Option (List String)) : Option (List String) :=
  if typeInfoOf value = some ti ∧ registered = true ∧ indexedField ti value F = some x
  then addKey key b else b

/-- What the closure of `Transaction.Set` does to the layer. -/
structure SetEffect (pl pl' : PrevalenceLayer) (key : String) (value : Value) : Prop where
  data : pl'.data = pl.data.insert key value
  filename : pl'.filename = pl.filename
  indexFile : pl'.indexFile = pl.indexFile
  types : ∀ ti, (pl'.indexes.lookup ti).isSome = (pl.indexes.lookup ti).isSome
  fields : ∀ ti F, (pl'.indexAt ti F).isSome = (pl.indexAt ti F).isSome
  bucket : ∀ ti F x, pl'.rawBucket ti F x =
    addStage value key (pl.indexAt ti F).isSome ti F x
      (dropStage (pl.data.lookup key) key ti F x (pl.rawBucket ti F x))

/-- What the closure of `Transaction.Delete` does to the layer. -/
structure DeleteEffect (pl pl' : PrevalenceLayer) (key : String) : Prop where
  data : pl'.data = pl.data.erase key
  filename : pl'.filename = pl.filename
  indexFile : pl'.indexFile = pl.indexFile
  types : ∀ ti, (pl'.indexes.lookup ti).isSome = (pl.indexes.lookup ti).isSome
  fields : ∀ ti F, (pl'.indexAt ti F).isSome = (pl.indexAt ti F).isSome
  bucket : ∀ ti F x, pl'.rawBucket ti F x =
    dropStage (pl.data.lookup key) key ti F x (pl.rawBucket ti F x)

/-- Keys of the stored records that the scan of `CreateIndex(structType, field)`
files under `x`, in scan order. -/
def scanKeys (data : GoMap String Value) (structType : GoType) (field : String) (x : Scalar) :
    List String :=
  (data.entries.filter (fun e =>
    decide (TypeOf e.2 = some structType ∧
      indexedField (getTypeInfo structType) e.2 field = some x))).map (fun e => e.1)

/-- Bucket of `x` built by the scan of `CreateIndex`: absent when no record
is filed under `x`. -/
def scanBucket (data : GoMap String Value) (structType : GoType) (field : String) (x : Scalar) :
    Option (List String) :=
  if scanKeys data structType field x = [] then none else some (scanKeys data structType field x)

/-- Successive idempotent appends. -/
def addKeys (ks : List String) (b : Option (List String)) : Option (List String) :=
  ks.foldl (fun acc k => addKey k acc) b

/-- What `CreateIndex(structType, field)` does to the layer. -/
structure CreateIndexEffect (pl pl' : PrevalenceLayer) (structType : GoType) (field : String) :
    Prop where
  data : pl'.data = pl.data
  filename : pl'.filename = pl.filename
  indexFile : pl'.indexFile = pl.indexFile
  types : ∀ ti, (pl'.indexes.lookup ti).isSome =
    ((pl.indexes.lookup ti).isSome || decide (ti = getTypeInfo structType))
  fields : ∀ ti F, (pl'.indexAt ti F).isSome =
    ((pl.indexAt ti F).isSome || decide (ti = getTypeInfo structType ∧ F = field))
  bucket : ∀ ti F x, pl'.rawBucket ti F x =
    if ti = getTypeInfo structType ∧ F = field ∧ (pl.indexAt ti F).isSome = false
    then scanBucket pl.data structType field x else pl.rawBucket ti F x
  noop : (pl.indexAt (getTypeInfo structType) field).isSome = true → pl' = pl

/-- No stale entry: a key listed in a bucket is stored, with a record of the
index's type identity that `addToIndex` files under that bucket. -/
def Sound (pl : PrevalenceLayer) : Prop :=
  ∀ ti F x k, k ∈ pl.bucket ti F x →
    ∃ v, pl.data.lookup k = some v ∧ typeInfoOf v = some ti ∧ indexedField ti v F = some x

/-- No bucket lists a key twice. -/
def NoDuplicates (pl : PrevalenceLayer) : Prop :=
  ∀ ti F x, (pl.bucket ti F x).Nodup

/-- No stale entry, without reference to `addToIndex`: a key listed in a
bucket of the index on `(ti, F)` is stored, with a record of type identity
`ti` whose field `F` has the value of the bucket. -/
def NoStale (pl : PrevalenceLayer) : Prop :=
  ∀ ti F x k, k ∈ pl.bucket ti F x →
    ∃ v, pl.data.lookup k = some v ∧ typeInfoOf v = some ti ∧ fieldOf v F = some x

/-- No missing entry in the index on `(ti, F)`, when it exists, among the
records that are not pointers: the key of a stored record of type identity
`ti` whose field `F` is `x` is listed in the bucket of `x`. -/
def CompleteAt (pl : PrevalenceLayer) (ti : TypeInfo) (F : String) : Prop :=
  (pl.indexAt ti F).isSome = true →
    ∀ k v x, pl.data.lookup k = some v → (ValueOf v).Kind ≠ Kind.Ptr →
      typeInfoOf v = some ti → fieldOf v F = some x → k ∈ pl.bucket ti F x

/-- In-memory effect of one pending operation. -/
def OpEffect : Op → PrevalenceLayer → PrevalenceLayer → Prop
  | .set key value, pl, pl' => SetEffect pl pl' key value
  | .delete key, pl, pl' => DeleteEffect pl pl' key

/-- The stored records that are not pointers, share the type identity of
`structType` and have the field `field` all have type `structType`. -/
def NoClash (pl : PrevalenceLayer) (structType : GoType) (field : String) : Prop :=
  ∀ k v x, pl.data.lookup k = some v → (ValueOf v).Kind ≠ Kind.Ptr →
    typeInfoOf v = some (getTypeInfo structType) → fieldOf v field = some x →
    TypeOf v = some structType

/-- In-memory effect of a list of pending operations run in order. -/
def OpsEffect : List Op → PrevalenceLayer → PrevalenceLayer → Prop
  | [], pl, pl' => pl' = pl
  | op :: rest, pl, pl' => ∃ pl1, OpEffect op pl pl1 ∧ OpsEffect rest pl1 pl'

/-! ## Runs of calls -/

/-- The layer together with the disk it persists to. -/
structure World where
  pl : PrevalenceLayer
  disk : Disk

/-- State-changing calls of the public interface. -/
inductive Call where
  | createIndex (structType : GoType) (field : String)
  | set (key : String) (value : Value)
  | delete (key : String)
  | commit (tx : Transaction)

/-- One call, under the operating-system faults of that call; `none` when
the call panics.  The returned error value is dropped. -/
def Call.run (gob : Codec) (os : Faults) : Call → World → Option World
  | .createIndex structType field, w =>
    (w.pl.CreateIndex structType field).map (fun pl => { pl := pl, disk := w.disk })
  | .set key value, w =>
    (w.pl.Set gob os w.disk key value).map (fun out => { pl := out.pl, disk := out.disk })
  | .delete key, w =>
    (w.pl.Delete gob os w.disk key).map (fun out => { pl := out.pl, disk := out.disk })
  | .commit tx, w =>
    (w.pl.Commit gob os w.disk tx).map (fun out => { pl := out.pl, disk := out.disk })

/-- A finite sequence of calls, each with its faults, run in order. -/
def runCalls (gob : Codec) : List (Call × Faults) → World → Option World
  | [], w => some w
  | (call, os) :: rest, w =>
    match call.run gob os w with
    | none => none
    | some w1 => runCalls gob rest w1

/-- The layer right after creation on a fresh path: no record, no index. -/
def emptyLayer (filename : String) : PrevalenceLayer :=
  { data := ∅, indexes := ∅, filename := filename, indexFile := filename ++ ".index" }

/-- Bare calls `Set`/`Delete` issued one at a time, one per pending
operation, in order. -/
def bareCalls (gob : Codec) (os : Faults) : List Op → World → Option World
  | [], w => some w
  | .set key value :: rest, w =>
    match w.pl.Set gob os w.disk key value with
    | none => none
    | some out => bareCalls gob os rest { pl := out.pl, disk := out.disk }
  | .delete key :: rest, w =>
    match w.pl.Delete gob os w.disk key with
    | none => none
    | some out => bareCalls gob os rest { pl := out.pl, disk := out.disk }

/-! ## Example inputs -/

/-- Codec whose encoders always succeed and whose decoders always fail. -/
def writeOnlyCodec : Codec :=
  { encodeData := fun _ => some [1]
    decodeData := fun _ => none
    encodeIndexes := fun _ => some [2]
    decodeIndexes := fun _ => none }

/-- Codec whose data encoder fails, so that every snapshot save fails. -/
def failingCodec : Codec :=
  { encodeData := fun _ => none
    decodeData := fun _ => none
    encodeIndexes := fun _ => some [2]
    decodeIndexes := fun _ => none }

/-- Operating system on which no call fails. -/
def noFaults : Faults :=
  { create := fun _ => false
    open_ := fun _ => false
    rename := fun _ _ => false
    remove := fun _ => false }

/-- Disk without any file. -/
def noFiles : Disk := fun _ => none

/-- The Go string `s` as an `interface{}` value. -/
def stringValue (s : String) : Value :=
  Value.val (Plain.basic { PkgPath := "", Name := "string" } (Scalar.str s))

/-- Type `TestStruct` of artemia_test.go. -/
def testStructType : GoType :=
  GoType.struct { PkgPath := "artemia", Name := "TestStruct" } ["ID", "Name"]

/-- Value `TestStruct{ID: id, Name: name}`. -/
def testStruct (id : Int) (name : String) : Value :=
  Value.val (Plain.struct { PkgPath := "artemia", Name := "TestStruct" }
    [("ID", Scalar.int id), ("Name", Scalar.str name)])

/-- Layer of `TestQueryByIndex` after `CreateIndex` and the first `Set`. -/
def indexedLayer : PrevalenceLayer :=
  { data := (∅ : GoMap String Value).insert "1" (testStruct 1 "Alice")
    indexes := (∅ : GoMap TypeInfo (GoMap String Index)).insert
      { PkgPath := "artemia", Name := "TestStruct" }
      ((∅ : GoMap String Index).insert "Name"
        { FieldName := "Name"
          Data := (∅ : GoMap Scalar (List String)).insert (Scalar.str "Alice") ["1"] })
    filename := "test_artemia.dat"
    indexFile := "test_artemia.dat.index" }

/-- In-memory effect of one call. -/
def CallEffect : Call → PrevalenceLayer → PrevalenceLayer → Prop
  | .createIndex structType field, pl, pl' => CreateIndexEffect pl pl' structType field
  | .set key value, pl, pl' => SetEffect pl pl' key value
  | .delete key, pl, pl' => DeleteEffect pl pl' key
  | .commit tx, pl, pl' => OpsEffect tx.operations pl pl'

/-- The index invariant: a key listed in a bucket of an index holds a record
of the type identity of the index whose field has the value of the bucket,
no bucket lists a key twice, and the key of every stored record that is not
a pointer is listed in the bucket of its field value in every index on its
type identity and one of its fields. -/
def Consistent (pl : PrevalenceLayer) : Prop :=
  NoStale pl ∧ NoDuplicates pl ∧ ∀ ti F, CompleteAt pl ti F

/-- Invariant of the index on one pair, as the data model words it: every
stored key whose record has the type identity of an index and has its field
occurs exactly once in the bucket of the record's field value and in no
other bucket of that index. -/
def IndexedOnce (pl : PrevalenceLayer) : Prop :=
  ∀ ti F, (pl.indexAt ti F).isSome = true →
    ∀ k v x, pl.data.lookup k = some v → typeInfoOf v = some ti → fieldOf v F = some x →
      (pl.bucket ti F x).count k = 1 ∧ ∀ y, y ≠ x → k ∉ pl.bucket ti F y

/-- The invariant `IndexedOnce` for the records that are not pointers: every
stored key whose record is not a pointer, has the type identity of an index
and has its field occurs exactly once in the bucket of the record's field
value and in no other bucket of that index. -/
def FiledOnce (pl : PrevalenceLayer) : Prop :=
  ∀ ti F, (pl.indexAt ti F).isSome = true →
    ∀ k v x, pl.data.lookup k = some v → (ValueOf v).Kind ≠ Kind.Ptr →
      typeInfoOf v = some ti → fieldOf v F = some x →
      (pl.bucket ti F x).count k = 1 ∧ ∀ y, y ≠ x → k ∉ pl.bucket ti F y

/-- Unnamed struct type `struct { Age int }`. -/
def ageType : GoType := GoType.struct { PkgPath := "", Name := "" } ["Age"]

/-- Unnamed struct type `struct { Age int; Name string }`, of the same type
identity as `ageType`. -/
def ageNameType : GoType := GoType.struct { PkgPath := "", Name := "" } ["Age", "Name"]

/-- Value `struct { Age int }{28}`. -/
def age28 : Value :=
  Value.val (Plain.struct { PkgPath := "", Name := "" } [("Age", Scalar.int 28)])

/-- Layer without index that stores `age28` under key "1". -/
def ageLayer : PrevalenceLayer :=
  { data := (∅ : GoMap String Value).insert "1" age28
    indexes := ∅
    filename := "test_artemia.dat"
    indexFile := "test_artemia.dat.index" }

/-- Layer whose index on `TestStruct.Name` lists key "1" under "Bob" while
the store holds no record, as after loading a stale index artifact. -/
def staleLayer : PrevalenceLayer :=
  { data := ∅
    indexes := (∅ : GoMap TypeInfo (GoMap String Index)).insert
      { PkgPath := "artemia", Name := "TestStruct" }
      ((∅ : GoMap String Index).insert "Name"
        { FieldName := "Name"
          Data := (∅ : GoMap Scalar (List String)).insert (Scalar.str "Bob") ["1"] })
    filename := "test_artemia.dat"
    indexFile := "test_artemia.dat.index" }

/-- Pointer `&TestStruct{ID: 1, Name: "Alice"}`. -/
def alicePointer : Value :=
  Value.ptr (Plain.struct { PkgPath := "artemia", Name := "TestStruct" }
    [("ID", Scalar.int 1), ("Name", Scalar.str "Alice")])

/-- Layer without index that stores `alicePointer` under key "1". -/
def pointerLayer : PrevalenceLayer :=
  { data := (∅ : GoMap String Value).insert "1" alicePointer
    indexes := ∅
    filename := "test_artemia.dat"
    indexFile := "test_artemia.dat.index" }

/-- Layer of `TestSaveAndLoad` before `CreateIndex`: a string under "key1"
and a `TestStruct` under "key2", no index. -/
def unindexedLayer : PrevalenceLayer :=
  { data := ((∅ : GoMap String Value).insert "key1" (stringValue "value1")).insert "key2"
      (testStruct 1 "Alice")
    indexes := ∅
    filename := "test_artemia.dat"
    indexFile := "test_artemia.dat.index" }

/-- Codec that writes fixed bytes and decodes any bytes to the given record
set and index set: it round-trips on exactly these two. -/
def fixedCodec (data : GoMap String Value) (indexes : GoMap TypeInfo (GoMap String Index)) :
    Codec :=
  { encodeData := fun _ => some [1]
    decodeData := fun _ => some data
    encodeIndexes := fun _ => some [2]
    decodeIndexes := fun _ => some indexes }

/-- Layer that `NewPrevalenceLayer` returns when both artifacts decode. -/
def loadedLayer (filename : String) (data : GoMap String Value)
    (indexes : GoMap TypeInfo (GoMap String Index)) : PrevalenceLayer :=
  { data := data, indexes := indexes, filename := filename, indexFile := filename ++ ".index" }

/-! ## Predicate constructor and enqueueing -/

/-- Call `tx.Set(pl, key, value)` (artemia.go 56-67) on the heap that holds
the layer and the transaction: the closure is appended to the transaction,
which is returned; nothing is run. -/
def enqueueSet (pl : PrevalenceLayer) (tx : Transaction) (key : String) (value : Value) :
    PrevalenceLayer × Transaction :=
  (pl, tx.Set key value)

/-- Call `tx.Delete(pl, key)` (artemia.go 69-78) on the heap that holds the
layer and the transaction. -/
def enqueueDelete (pl : PrevalenceLayer) (tx : Transaction) (key : String) :
    PrevalenceLayer × Transaction :=
  (pl, tx.Delete key)

/-- Records loaded from the data artifact when `loadData` returns no error:
none when the artifact is missing, the decoded ones otherwise. -/
def loadedData (gob : Codec) (d : Disk) (filename : String) : GoMap String Value :=
  match d filename with
  | none => ∅
  | some bytes => (gob.decodeData bytes).getD ∅

/-- Codec whose decoders always succeed with the given records and indexes
and whose index encoder fails. -/
def readOnlyCodec (data : GoMap String Value) (indexes : GoMap TypeInfo (GoMap String Index)) :
    Codec :=
  { encodeData := fun _ => some [1]
    decodeData := fun _ => some data
    encodeIndexes := fun _ => none
    decodeIndexes := fun _ => some indexes }

/-- Disk that holds a data artifact and no index artifact. -/
def dataOnlyDisk : Disk :=
  fun p => if p = "test_artemia.dat" then some [1] else none

/-- Disk that holds a data artifact and an index artifact. -/
def bothFilesDisk : Disk :=
  fun p => if p = "test_artemia.dat" then some [1]
    else if p = "test_artemia.dat.index" then some [2] else none

/-- The data artifact cannot be read: `os.Open` fails on it for a reason
other than a missing file, or the file is there and does not decode. -/
def DataUnreadable (gob : Codec) (os : Faults) (d : Disk) (filename : String) : Prop :=
  os.open_ filename = true ∨ ∃ bytes, d filename = some bytes ∧ gob.decodeData bytes = none

/-- The index artifact cannot be used: it is missing, or `os.Open` fails on
it, or it does not decode. -/
def IndexUnusable (gob : Codec) (os : Faults) (d : Disk) (filename : String) : Prop :=
  d (filename ++ ".index") = none ∨ os.open_ (filename ++ ".index") = true ∨
    ∃ bytes, d (filename ++ ".index") = some bytes ∧ gob.decodeIndexes bytes = none

/-- What `load` returns on a layer whose data artifact is readable. -/
structure Loaded (gob : Codec) (os : Faults) (d : Disk) (filename : String)
    (pl' : PrevalenceLayer) : Prop where
  dataEq : pl'.data = loadedData gob d filename
  nameEq : pl'.filename = filename
  indexFileEq : pl'.indexFile = filename ++ ".index"
  noIndex : IndexUnusable gob os d filename → pl'.indexes = ∅
  index : ∀ bytes ix, os.open_ (filename ++ ".index") = false →
    d (filename ++ ".index") = some bytes → gob.decodeIndexes bytes = some ix → pl'.indexes = ix

/-- Codec that decodes any data artifact to the given records and no index
artifact at all; its encoders succeed. -/
def corruptIndexCodec (data : GoMap String Value) : Codec :=
  { encodeData := fun _ => some [1]
    decodeData := fun _ => some data
    encodeIndexes := fun _ => some [2]
    decodeIndexes := fun _ => none }

/-- Type `string`, as `reflect.TypeOf("")`. -/
def stringType : GoType := GoType.basic { PkgPath := "", Name := "string" }

/-- Value `&n` for an `int` variable `n` holding 5. -/
def intPointer : Value :=
  Value.ptr (Plain.basic { PkgPath := "", Name := "int" } (Scalar.int 5))

/-- Every bucket present in an index lists at least one key. -/
def NonEmptyBuckets (pl : PrevalenceLayer) : Prop :=
  ∀ ti F x keys, pl.rawBucket ti F x = some keys → keys ≠ []

/-- Key a pending operation acts on. -/
def Op.key : Op → String
  | .set key _ => key
  | .delete key => key

/-- Last operation of `ops` that acts on key `k`, if any. -/
def lastOp : List Op → String → Option Op
  | [], _ => none
  | op :: rest, k =>
    match lastOp rest k with
    | some o => some o
    | none => if op.key = k then some op else none

/-- What running `ops` from `p` to `p'` settles about key `k`: the record
and the buckets of `k` are those left by the last operation on `k`, and are
those of `p` when no operation acts on `k`. -/
def Settled (ops : List Op) (p p' : PrevalenceLayer) (k : String) : Prop :=
  match lastOp ops k with
  | none =>
    p'.data.lookup k = p.data.lookup k ∧ ∀ ti F x, (k ∈ p'.bucket ti F x ↔ k ∈ p.bucket ti F x)
  | some (.set _ v) =>
    p'.data.lookup k = some v ∧
      ∀ ti F x, (k ∈ p'.bucket ti F x ↔
        (typeInfoOf v = some ti ∧ (p.indexAt ti F).isSome = true ∧ indexedField ti v F = some x))
  | some (.delete _) => p'.data.lookup k = none ∧ ∀ ti F x, k ∉ p'.bucket ti F x

/-- Transaction that holds the single operation `Set("key1", &n)`. -/
def intPointerTx : Transaction := { operations := [Op.set "key1" intPointer] }

/-! ## Lemmas: one index update -/

theorem frame_refl (pl : PrevalenceLayer) : Frame pl pl :=
  ⟨rfl, rfl, rfl, fun _ => rfl, fun _ _ => rfl⟩

theorem frame_trans {a b c : PrevalenceLayer} (h1 : Frame a b) (h2 : Frame b c) : Frame a c :=
  ⟨h2.data.trans h1.data, h2.filename.trans h1.filename, h2.indexFile.trans h1.indexFile,
    fun ti => (h2.types ti).trans (h1.types ti), fun ti F => (h2.fields ti F).trans (h1.fields ti F)⟩

theorem indexAt_setIndexData {pl : PrevalenceLayer} {ti : TypeInfo} {F : String} {index : Index}
    (h : pl.indexAt ti F = some index) (d : GoMap Scalar (List String)) (ti' : TypeInfo)
    (F' : String) :
    (pl.setIndexData ti F d).indexAt ti' F' =
      if ti' = ti ∧ F' = F then some { index with Data := d } else pl.indexAt ti' F' := by
  unfold PrevalenceLayer.indexAt at h
  cases hm : pl.indexes.lookup ti with
  | none => simp [hm] at h
  | some m =>
    simp only [hm, Option.some_bind] at h
    unfold PrevalenceLayer.setIndexData PrevalenceLayer.indexAt
    simp only [hm, h]
    by_cases h1 : ti' = ti
    · subst h1
      by_cases h2 : F' = F
      · subst h2
        simp [AList.lookup_insert]
      · simp [AList.lookup_insert, AList.lookup_insert_ne h2, h2, hm]
    · simp [AList.lookup_insert_ne h1, h1]

theorem types_setIndexData (pl : PrevalenceLayer) (ti : TypeInfo) (F : String)
    (d : GoMap Scalar (List String)) (ti' : TypeInfo) :
    ((pl.setIndexData ti F d).indexes.lookup ti').isSome = (pl.indexes.lookup ti').isSome := by
  unfold PrevalenceLayer.setIndexData
  split
  · rfl
  · rename_i m hm
    split
    · rfl
    · by_cases h1 : ti' = ti
      · subst h1; simp [AList.lookup_insert, hm]
      · simp [AList.lookup_insert_ne h1]

theorem frame_setIndexData {pl : PrevalenceLayer} {ti : TypeInfo} {F : String} {index : Index}
    (h : pl.indexAt ti F = some index) (d : GoMap Scalar (List String)) :
    Frame pl (pl.setIndexData ti F d) := by
  refine ⟨?_, ?_, ?_, types_setIndexData pl ti F d, ?_⟩
  · unfold PrevalenceLayer.setIndexData; split <;> [rfl; (split <;> rfl)]
  · unfold PrevalenceLayer.setIndexData; split <;> [rfl; (split <;> rfl)]
  · unfold PrevalenceLayer.setIndexData; split <;> [rfl; (split <;> rfl)]
  · intro ti' F'
    rw [indexAt_setIndexData h]
    split
    · rename_i hc; rw [hc.1, hc.2, h]; rfl
    · rfl

theorem rawBucket_setIndexData {pl : PrevalenceLayer} {ti : TypeInfo} {F : String} {index : Index}
    (h : pl.indexAt ti F = some index) (d : GoMap Scalar (List String)) (ti' : TypeInfo)
    (F' : String) (x : Scalar) :
    (pl.setIndexData ti F d).rawBucket ti' F' x =
      if ti' = ti ∧ F' = F then d.lookup x else pl.rawBucket ti' F' x := by
  unfold PrevalenceLayer.rawBucket
  rw [indexAt_setIndexData h]
  split <;> rfl

theorem lookup_insert_eq_ite {V : Type} (m : GoMap Scalar V) (a x : Scalar) (b : V) :
    (m.insert a b).lookup x = if x = a then some b else m.lookup x := by
  by_cases h : x = a
  · subst h; simp [AList.lookup_insert]
  · simp [AList.lookup_insert_ne h, h]

theorem lookup_erase_eq_ite {V : Type} (m : GoMap Scalar V) (a x : Scalar) :
    (m.erase a).lookup x = if x = a then none else m.lookup x := by
  by_cases h : x = a
  · subst h; simp [AList.lookup_erase]
  · simp [AList.lookup_erase_ne h, h]

theorem stepSpec_skip (pl : PrevalenceLayer) (ti : TypeInfo) (f : String)
    (g : Option (List String) → Option (List String)) : StepSpec pl pl ti f none g :=
  ⟨frame_refl pl, fun _ _ _ => by simp⟩

theorem stepSpec_setIndexData {pl : PrevalenceLayer} {ti : TypeInfo} {f : String} {index : Index}
    (h : pl.indexAt ti f = some index) (fv : Scalar) (d : GoMap Scalar (List String))
    (g : Option (List String) → Option (List String))
    (hd : ∀ x, d.lookup x = if x = fv then g (index.Data.lookup fv) else index.Data.lookup x) :
    StepSpec pl (pl.setIndexData ti f d) ti f (some fv) g := by
  refine ⟨frame_setIndexData h d, ?_⟩
  intro ti' F x
  rw [rawBucket_setIndexData h]
  by_cases hc : ti' = ti ∧ F = f
  · obtain ⟨rfl, rfl⟩ := hc
    have hr : ∀ y, pl.rawBucket ti' F y = index.Data.lookup y := by
      intro y; unfold PrevalenceLayer.rawBucket; rw [h]; rfl
    rw [hd x, hr x]
    by_cases hx : x = fv
    · subst hx; simp
    · have : ¬ (fv = x) := fun e => hx e.symm
      simp [hx, this]
  · have : ¬ (ti' = ti ∧ F = f ∧ some fv = some x) := fun e => hc ⟨e.1, e.2.1⟩
    simp only [hc, this, if_false]

theorem addToIndex_spec {pl pl' : PrevalenceLayer} {ti : TypeInfo} {f key : String} {value : Value}
    (h : pl.addToIndex ti f key value = some pl') :
    StepSpec pl pl' ti f (indexedField ti value f) (addKey key) := by
  unfold PrevalenceLayer.addToIndex at h
  unfold indexedField fieldOf
  cases ht : (derefValue value).Type with
  | none => simp [ht] at h
  | some t =>
    simp only [ht] at h ⊢
    by_cases hg : getTypeInfo t = ti
    · simp only [hg, ne_eq, not_true_eq_false, if_false, if_true] at h ⊢
      cases hf : (derefValue value).FieldByName f with
      | none => simp [hf] at h
      | some o =>
        cases o with
        | none =>
          simp only [hf] at h
          cases h
          exact stepSpec_skip pl ti f _
        | some fld =>
          simp only [hf] at h
          change StepSpec pl pl' ti f fld.Interface (addKey key)
          cases hI : fld.Interface with
          | none => simp [hI] at h
          | some fv =>
          simp only [hI] at h
          cases hi : pl.indexAt ti f with
          | none => simp [hi] at h
          | some index =>
            simp only [hi] at h
            have hr : pl.rawBucket ti f fv = index.Data.lookup fv := by
              unfold PrevalenceLayer.rawBucket; rw [hi]; rfl
            cases hk : index.Data.lookup fv with
            | none =>
              simp only [hk] at h
              cases h
              exact stepSpec_setIndexData hi fv _ _ (fun x => by
                rw [lookup_insert_eq_ite, hk]; rfl)
            | some keys =>
              simp only [hk] at h
              by_cases hmem : key ∈ keys
              · simp only [hmem, if_true] at h
                cases h
                refine ⟨frame_refl pl, ?_⟩
                intro ti' F x
                by_cases hc : ti' = ti ∧ F = f ∧ some fv = some x
                · obtain ⟨rfl, rfl, hx⟩ := hc
                  cases hx
                  simp [hr, hk, addKey, hmem]
                · simp only [hc, if_false]
              · simp only [hmem, if_false] at h
                cases h
                exact stepSpec_setIndexData hi fv _ _ (fun x => by
                  rw [lookup_insert_eq_ite, hk]; simp [addKey, hmem])
    · simp only [ne_eq, hg, not_false_eq_true, if_true, if_false] at h ⊢
      cases h
      exact stepSpec_skip pl ti f _

theorem removeFromIndex_spec {pl pl' : PrevalenceLayer} {ti : TypeInfo} {f key : String}
    {value : Value} (h : pl.removeFromIndex ti f key value = some pl') :
    StepSpec pl pl' ti f (fieldOf value f) (dropKey key) := by
  unfold PrevalenceLayer.removeFromIndex at h
  unfold fieldOf
  cases hf : (derefValue value).FieldByName f with
  | none => simp [hf] at h
  | some o =>
    cases o with
    | none =>
      simp only [hf] at h
      cases h
      exact stepSpec_skip pl ti f _
    | some fld =>
      simp only [hf] at h
      change StepSpec pl pl' ti f fld.Interface (dropKey key)
      cases hI : fld.Interface with
      | none => simp [hI] at h
      | some fv =>
      simp only [hI] at h
      cases hi : pl.indexAt ti f with
      | none => simp [hi] at h
      | some index =>
        simp only [hi] at h
        have hr : pl.rawBucket ti f fv = index.Data.lookup fv := by
          unfold PrevalenceLayer.rawBucket; rw [hi]; rfl
        cases hk : index.Data.lookup fv with
        | none =>
          simp only [hk] at h
          cases h
          refine ⟨frame_refl pl, ?_⟩
          intro ti' F x
          by_cases hc : ti' = ti ∧ F = f ∧ some fv = some x
          · obtain ⟨rfl, rfl, hx⟩ := hc
            cases hx
            simp [hr, hk, dropKey]
          · simp only [hc, if_false]
        | some keys =>
          simp only [hk] at h
          by_cases hcap : (keys.length : Int) - 1 < 0
          · simp [hcap] at h
          simp only [hcap, if_false] at h
          by_cases hlen : (keys.filter (fun k => k ≠ key)).length > 0
          · simp only [hlen, if_true] at h
            cases h
            exact stepSpec_setIndexData hi fv _ _ (fun x => by
              rw [lookup_insert_eq_ite, hk]; simp only [dropKey, hlen, if_true])
          · simp only [hlen, if_false] at h
            cases h
            exact stepSpec_setIndexData hi fv _ _ (fun x => by
              rw [lookup_erase_eq_ite, hk]; simp only [dropKey, hlen, if_false])

/-! ## Lemmas: the loops over the indexes of a type -/

theorem foldlM_fields_spec (step : PrevalenceLayer → String → Option PrevalenceLayer)
    (ti : TypeInfo) (fv : String → Option Scalar)
    (g : Option (List String) → Option (List String))
    (hstep : ∀ pl f pl', step pl f = some pl' → StepSpec pl pl' ti f (fv f) g) :
    ∀ (fs : List String), fs.Nodup → ∀ pl pl', fs.foldlM step pl = some pl' →
      LoopSpec pl pl' ti fs fv g := by
  intro fs
  induction fs with
  | nil =>
    intro _ pl pl' h
    simp only [List.foldlM_nil] at h
    cases h
    exact ⟨frame_refl pl, fun _ _ _ => by simp⟩
  | cons f rest ih =>
    intro hnd pl pl' h
    rw [List.foldlM_cons] at h
    obtain ⟨pl1, h1, h2⟩ := Option.bind_eq_some.mp h
    have hnd2 := List.nodup_cons.mp hnd
    have s1 := hstep pl f pl1 h1
    have s2 := ih hnd2.2 pl1 pl' h2
    refine ⟨frame_trans s1.frame s2.frame, ?_⟩
    intro ti' F x
    rw [s2.bucket, s1.bucket]
    by_cases ht : ti' = ti
    · by_cases hF : F = f
      · subst hF
        have : F ∉ rest := hnd2.1
        simp [ht, this]
      · simp [ht, hF]
    · simp [ht]

theorem mem_keys_iff_lookup {V : Type} (m : GoMap String V) (F : String) :
    F ∈ m.keys ↔ (m.lookup F).isSome = true := by
  rw [AList.lookup_isSome, AList.mem_keys]

theorem removeFromIndexes_spec {pl pl' : PrevalenceLayer} {key : String} {value : Value}
    (h : pl.removeFromIndexes key value = some pl') :
    Frame pl pl' ∧ ∀ ti F x, pl'.rawBucket ti F x =
      if typeInfoOf value = some ti ∧ fieldOf value F = some x
      then dropKey key (pl.rawBucket ti F x) else pl.rawBucket ti F x := by
  unfold PrevalenceLayer.removeFromIndexes at h
  unfold typeInfoOf
  cases ht : TypeOf value with
  | none => simp [ht] at h
  | some t =>
    simp only [ht] at h
    cases hm : pl.indexes.lookup (getTypeInfo t) with
    | none =>
      simp only [hm] at h
      cases h
      refine ⟨frame_refl pl, ?_⟩
      intro ti F x
      by_cases hc : ti = getTypeInfo t
      · subst hc
        have : pl.rawBucket (getTypeInfo t) F x = none := by
          unfold PrevalenceLayer.rawBucket PrevalenceLayer.indexAt; rw [hm]; rfl
        simp [this, dropKey]
      · have : ¬ (getTypeInfo t = ti) := fun e => hc e.symm
        simp [this]
    | some indexes =>
      simp only [hm] at h
      have s := foldlM_fields_spec
        (fun acc field => acc.removeFromIndex (getTypeInfo t) field key value) (getTypeInfo t)
        (fieldOf value) (dropKey key) (fun _ _ _ hs => removeFromIndex_spec hs)
        indexes.keys indexes.keys_nodup pl pl' h
      refine ⟨s.frame, ?_⟩
      intro ti F x
      rw [s.bucket]
      by_cases hc : ti = getTypeInfo t
      · subst hc
        by_cases hF : F ∈ indexes.keys
        · simp [hF]
        · have : pl.rawBucket (getTypeInfo t) F x = none := by
            unfold PrevalenceLayer.rawBucket PrevalenceLayer.indexAt
            rw [hm]
            have : indexes.lookup F = none := AList.lookup_eq_none.mpr hF
            simp [this]
          simp [hF, this, dropKey]
      · have : ¬ (getTypeInfo t = ti) := fun e => hc e.symm
        simp [hc, this]

theorem updateIndexes_spec {pl pl' : PrevalenceLayer} {key : String} {value : Value}
    (h : pl.updateIndexes key value = some pl') :
    Frame pl pl' ∧ ∀ ti F x, pl'.rawBucket ti F x =
      if typeInfoOf value = some ti ∧ (pl.indexAt ti F).isSome = true ∧
          indexedField ti value F = some x
      then addKey key (pl.rawBucket ti F x) else pl.rawBucket ti F x := by
  unfold PrevalenceLayer.updateIndexes at h
  unfold typeInfoOf
  cases ht : TypeOf value with
  | none => simp [ht] at h
  | some t =>
    simp only [ht] at h
    cases hm : pl.indexes.lookup (getTypeInfo t) with
    | none =>
      simp only [hm] at h
      cases h
      refine ⟨frame_refl pl, ?_⟩
      intro ti F x
      by_cases hc : ti = getTypeInfo t
      · subst hc
        have : pl.indexAt (getTypeInfo t) F = none := by
          unfold PrevalenceLayer.indexAt; rw [hm]; rfl
        simp [this]
      · have : ¬ (getTypeInfo t = ti) := fun e => hc e.symm
        simp [this]
    | some indexes =>
      simp only [hm] at h
      have s := foldlM_fields_spec
        (fun acc field => acc.addToIndex (getTypeInfo t) field key value) (getTypeInfo t)
        (indexedField (getTypeInfo t) value) (addKey key) (fun _ _ _ hs => addToIndex_spec hs)
        indexes.keys indexes.keys_nodup pl pl' h
      refine ⟨s.frame, ?_⟩
      intro ti F x
      rw [s.bucket]
      by_cases hc : ti = getTypeInfo t
      · subst hc
        have hi : pl.indexAt (getTypeInfo t) F = indexes.lookup F := by
          unfold PrevalenceLayer.indexAt; rw [hm]; rfl
        have hk : F ∈ indexes.keys ↔ (indexes.lookup F).isSome = true := mem_keys_iff_lookup indexes F
        rw [hi]
        simp only [hk, Option.map_some', true_and]
      · have : ¬ (getTypeInfo t = ti) := fun e => hc e.symm
        simp [hc, this]

/-! ## Lemmas: the closures of Set and Delete -/

theorem erase_eq_self_of_lookup_none {V : Type} (m : GoMap String V) (k : String)
    (h : m.lookup k = none) : m.erase k = m := by
  apply AList.ext
  have : k ∉ m.entries.keys := AList.lookup_eq_none.mp h
  simp [AList.erase, List.kerase_of_not_mem_keys this]

theorem run_set_spec {pl pl' : PrevalenceLayer} {key : String} {value : Value}
    {e : Option Error} (h : (Op.set key value).run pl = some (pl', e)) :
    e = none ∧ SetEffect pl pl' key value := by
  unfold Op.run at h
  simp only [] at h
  have key1 : ∀ pl1 : PrevalenceLayer, Frame pl pl1 →
      (∀ ti F x, pl1.rawBucket ti F x = dropStage (pl.data.lookup key) key ti F x (pl.rawBucket ti F x)) →
      (match ({ pl1 with data := pl1.data.insert key value } : PrevalenceLayer).updateIndexes key value with
        | none => none
        | some pl3 => some (pl3, (none : Option Error))) = some (pl', e) →
      e = none ∧ SetEffect pl pl' key value := by
    intro pl1 hf hb h
    cases hu : ({ pl1 with data := pl1.data.insert key value } : PrevalenceLayer).updateIndexes key value with
    | none => simp [hu] at h
    | some pl3 =>
      simp only [hu, Option.some.injEq, Prod.mk.injEq] at h
      obtain ⟨rfl, rfl⟩ := h
      obtain ⟨f2, b2⟩ := updateIndexes_spec hu
      refine ⟨rfl, ?_, ?_, ?_, ?_, ?_, ?_⟩
      · rw [f2.data]; simp [hf.data]
      · rw [f2.filename]; exact hf.filename
      · rw [f2.indexFile]; exact hf.indexFile
      · intro ti; rw [f2.types]; exact hf.types ti
      · intro ti F; rw [f2.fields]; exact hf.fields ti F
      · intro ti F x
        rw [b2]
        have e1 : ({ pl1 with data := pl1.data.insert key value } : PrevalenceLayer).indexAt ti F
            = pl1.indexAt ti F := rfl
        have e2 : ({ pl1 with data := pl1.data.insert key value } : PrevalenceLayer).rawBucket ti F x
            = pl1.rawBucket ti F x := rfl
        rw [e1, e2, hb, hf.fields]
        rfl
  cases ho : pl.data.lookup key with
  | none =>
    simp only [ho] at h
    exact key1 pl (frame_refl pl) (fun ti F x => by simp [ho, dropStage]) h
  | some oldValue =>
    simp only [ho] at h
    cases hr : pl.removeFromIndexes key oldValue with
    | none => simp [hr] at h
    | some pl1 =>
      simp only [hr] at h
      obtain ⟨f1, b1⟩ := removeFromIndexes_spec hr
      exact key1 pl1 f1 (fun ti F x => by rw [b1, ho]; rfl) h

theorem run_delete_spec {pl pl' : PrevalenceLayer} {key : String} {e : Option Error}
    (h : (Op.delete key).run pl = some (pl', e)) :
    e = none ∧ DeleteEffect pl pl' key := by
  unfold Op.run at h
  cases ho : pl.data.lookup key with
  | none =>
    simp only [ho, Option.some.injEq, Prod.mk.injEq] at h
    obtain ⟨rfl, rfl⟩ := h
    exact ⟨rfl, (erase_eq_self_of_lookup_none _ _ ho).symm, rfl, rfl, fun _ => rfl,
      fun _ _ => rfl, fun ti F x => by simp [dropStage, ho]⟩
  | some oldValue =>
    simp only [ho] at h
    cases hr : pl.removeFromIndexes key oldValue with
    | none => simp [hr] at h
    | some pl1 =>
      simp only [hr, Option.some.injEq, Prod.mk.injEq] at h
      obtain ⟨rfl, rfl⟩ := h
      obtain ⟨f1, b1⟩ := removeFromIndexes_spec hr
      refine ⟨rfl, ?_, f1.filename, f1.indexFile, f1.types, f1.fields, ?_⟩
      · simp [f1.data]
      · intro ti F x
        have e2 : ({ pl1 with data := pl1.data.erase key } : PrevalenceLayer).rawBucket ti F x
            = pl1.rawBucket ti F x := rfl
        rw [e2, b1, ho]; rfl

/-! ## Lemmas: CreateIndex -/

theorem addKeys_some (ks : List String) : ∀ l : List String, (l ++ ks).Nodup →
    addKeys ks (some l) = some (l ++ ks) := by
  induction ks with
  | nil => intro l _; simp [addKeys]
  | cons k rest ih =>
    intro l hnd
    have hk : k ∉ l := by
      intro hmem
      have := List.nodup_append.mp hnd
      exact this.2.2 hmem (List.mem_cons_self k rest)
    have h2 : ((l ++ [k]) ++ rest).Nodup := by simpa using hnd
    have := ih (l ++ [k]) h2
    simp only [addKeys, List.foldl_cons, addKey, hk, if_false] at this ⊢
    simpa using this

theorem addKeys_none (ks : List String) (hnd : ks.Nodup) :
    addKeys ks none = if ks = [] then none else some ks := by
  cases ks with
  | nil => simp [addKeys]
  | cons k rest =>
    have := addKeys_some rest [k] (by simpa using hnd)
    simp only [addKeys, List.foldl_cons, addKey] at this ⊢
    simpa using this

theorem scanKeys_nodup (data : GoMap String Value) (structType : GoType) (field : String)
    (x : Scalar) : (scanKeys data structType field x).Nodup := by
  unfold scanKeys
  have h : data.entries.keys.Nodup := data.nodupKeys
  exact List.Nodup.sublist (List.Sublist.map _ (List.filter_sublist _)) h

theorem scan_spec (structType : GoType) (field : String) :
    ∀ (es : List (Σ _ : String, Value)) (acc acc' : PrevalenceLayer),
      es.foldlM (fun a e =>
        if TypeOf e.2 = some structType then a.addToIndex (getTypeInfo structType) field e.1 e.2
        else some a) acc = some acc' →
      Frame acc acc' ∧ ∀ ti F x, acc'.rawBucket ti F x =
        if ti = getTypeInfo structType ∧ F = field then
          addKeys ((es.filter (fun e => decide (TypeOf e.2 = some structType ∧
            indexedField (getTypeInfo structType) e.2 field = some x))).map (fun e => e.1))
            (acc.rawBucket ti F x)
        else acc.rawBucket ti F x := by
  intro es
  induction es with
  | nil =>
    intro acc acc' h
    simp only [List.foldlM_nil] at h
    cases h
    exact ⟨frame_refl acc, fun _ _ _ => by simp [addKeys]⟩
  | cons e rest ih =>
    intro acc acc' h
    rw [List.foldlM_cons] at h
    obtain ⟨a1, h1, h2⟩ := Option.bind_eq_some.mp h
    obtain ⟨f2, b2⟩ := ih a1 acc' h2
    by_cases ht : TypeOf e.2 = some structType
    · simp only [ht, if_true] at h1
      have s1 := addToIndex_spec h1
      refine ⟨frame_trans s1.frame f2, ?_⟩
      intro ti F x
      rw [b2, s1.bucket]
      by_cases hc : ti = getTypeInfo structType ∧ F = field
      · obtain ⟨rfl, rfl⟩ := hc
        by_cases hx : indexedField (getTypeInfo structType) e.2 F = some x
        · simp [ht, hx, addKeys, List.filter_cons]
        · simp [ht, hx, addKeys, List.filter_cons]
      · have : ¬ (ti = getTypeInfo structType ∧ F = field ∧
            indexedField (getTypeInfo structType) e.2 field = some x) := fun c => hc ⟨c.1, c.2.1⟩
        simp only [hc, this, if_false]
    · simp only [ht, if_false, Option.some.injEq] at h1
      subst h1
      refine ⟨f2, ?_⟩
      intro ti F x
      rw [b2]
      simp [ht, List.filter_cons]

theorem indexAt_insert_insert (pl : PrevalenceLayer) (ixs : GoMap TypeInfo (GoMap String Index))
    (m : GoMap String Index) (ti : TypeInfo) (F : String) (idx : Index) (ti' : TypeInfo)
    (F' : String) :
    ({ pl with indexes := ixs.insert ti (m.insert F idx) } : PrevalenceLayer).indexAt ti' F' =
      if ti' = ti then (if F' = F then some idx else m.lookup F')
      else (ixs.lookup ti').bind (fun m' => m'.lookup F') := by
  unfold PrevalenceLayer.indexAt
  by_cases h1 : ti' = ti
  · subst h1
    by_cases h2 : F' = F
    · subst h2; simp [AList.lookup_insert]
    · simp [AList.lookup_insert, AList.lookup_insert_ne h2, h2]
  · simp [AList.lookup_insert_ne h1, h1]

theorem createIndex_fresh (pl pl2 : PrevalenceLayer) {pl' : PrevalenceLayer} {structType : GoType} {field : String}
    (hscan : pl2.data.entries.foldlM (fun a e =>
        if TypeOf e.2 = some structType then a.addToIndex (getTypeInfo structType) field e.1 e.2
        else some a) pl2 = some pl')
    (hd : pl2.data = pl.data) (hfn : pl2.filename = pl.filename)
    (hif : pl2.indexFile = pl.indexFile)
    (hty : ∀ ti, (pl2.indexes.lookup ti).isSome =
      ((pl.indexes.lookup ti).isSome || decide (ti = getTypeInfo structType)))
    (hix : ∀ ti F, pl2.indexAt ti F =
      if ti = getTypeInfo structType ∧ F = field then some { FieldName := field, Data := ∅ }
      else pl.indexAt ti F)
    (hnone : pl.indexAt (getTypeInfo structType) field = none) :
    CreateIndexEffect pl pl' structType field := by
  obtain ⟨f, b⟩ := scan_spec structType field _ _ _ hscan
  refine ⟨f.data.trans hd, f.filename.trans hfn, f.indexFile.trans hif, ?_, ?_, ?_, ?_⟩
  · intro ti; rw [f.types, hty]
  · intro ti F
    rw [f.fields, hix]
    by_cases hc : ti = getTypeInfo structType ∧ F = field
    · simp [hc]
    · simp [hc]
  · intro ti F x
    rw [b]
    have hr : pl2.rawBucket ti F x =
        if ti = getTypeInfo structType ∧ F = field then none else pl.rawBucket ti F x := by
      unfold PrevalenceLayer.rawBucket
      rw [hix]
      by_cases hc : ti = getTypeInfo structType ∧ F = field
      · simp [hc]
      · simp [hc]
    rw [hr]
    by_cases hc : ti = getTypeInfo structType ∧ F = field
    · obtain ⟨rfl, rfl⟩ := hc
      have hk := addKeys_none _ (scanKeys_nodup pl.data structType F x)
      simp only [scanKeys] at hk
      simp only [and_self, if_true, hnone, Option.isSome_none, scanBucket, scanKeys, hd]
      exact hk
    · have : ¬ (ti = getTypeInfo structType ∧ F = field ∧ (pl.indexAt ti F).isSome = false) :=
        fun c => hc ⟨c.1, c.2.1⟩
      simp only [hc, this, if_false]
  · intro hsome
    rw [hnone] at hsome
    cases hsome

theorem CreateIndex_spec {pl pl' : PrevalenceLayer} {structType : GoType} {field : String}
    (h : pl.CreateIndex structType field = some pl') :
    CreateIndexEffect pl pl' structType field := by
  unfold PrevalenceLayer.CreateIndex at h
  simp only [] at h
  cases hm : pl.indexes.lookup (getTypeInfo structType) with
  | some m =>
    simp only [hm] at h
    have hi : pl.indexAt (getTypeInfo structType) field = m.lookup field := by
      unfold PrevalenceLayer.indexAt; rw [hm]; rfl
    cases hf : m.lookup field with
    | some idx =>
      rw [hi, hf] at h
      simp only [Option.some.injEq] at h
      subst h
      refine ⟨rfl, rfl, rfl, ?_, ?_, ?_, fun _ => rfl⟩
      · intro ti
        by_cases hc : ti = getTypeInfo structType
        · subst hc; simp [hm]
        · simp [hc]
      · intro ti F
        by_cases hc : ti = getTypeInfo structType ∧ F = field
        · obtain ⟨rfl, rfl⟩ := hc; simp [hi, hf]
        · simp [hc]
      · intro ti F x
        by_cases hc : ti = getTypeInfo structType ∧ F = field
        · obtain ⟨rfl, rfl⟩ := hc; simp [hi, hf]
        · have : ¬ (ti = getTypeInfo structType ∧ F = field ∧ (pl.indexAt ti F).isSome = false) :=
            fun c => hc ⟨c.1, c.2.1⟩
          simp only [this, if_false]
    | none =>
      rw [hi, hf] at h
      simp only [] at h
      refine createIndex_fresh pl _ h rfl rfl rfl ?_ ?_ (hi.trans hf)
      · intro ti
        by_cases hc : ti = getTypeInfo structType
        · subst hc; simp [AList.lookup_insert]
        · simp [AList.lookup_insert_ne hc, hc]
      · intro ti F
        rw [indexAt_insert_insert]
        by_cases h1 : ti = getTypeInfo structType
        · subst h1
          by_cases h2 : F = field
          · simp [h2]
          · simp [h2, PrevalenceLayer.indexAt, hm]
        · simp [h1, PrevalenceLayer.indexAt]
  | none =>
    simp only [hm] at h
    have hi : pl.indexAt (getTypeInfo structType) field = none := by
      unfold PrevalenceLayer.indexAt; rw [hm]; rfl
    have hi1 : ({ pl with indexes := pl.indexes.insert (getTypeInfo structType) ∅ } :
        PrevalenceLayer).indexAt (getTypeInfo structType) field = none := by
      unfold PrevalenceLayer.indexAt; simp [AList.lookup_insert]
    rw [hi1] at h
    simp only [AList.lookup_insert] at h
    refine createIndex_fresh pl _ h rfl rfl rfl ?_ ?_ hi
    · intro ti
      by_cases hc : ti = getTypeInfo structType
      · subst hc; simp [AList.lookup_insert]
      · simp [AList.lookup_insert_ne hc, hc]
    · intro ti F
      rw [indexAt_insert_insert]
      by_cases h1 : ti = getTypeInfo structType
      · subst h1
        by_cases h2 : F = field
        · simp [h2]
        · simp [h2, PrevalenceLayer.indexAt, hm]
      · simp [h1, PrevalenceLayer.indexAt, AList.lookup_insert_ne h1]

/-! ## Lemmas: invariants under Set and Delete -/

theorem mem_addKey (k k' : String) (b : Option (List String)) :
    k' ∈ (addKey k b).getD [] ↔ k' = k ∨ k' ∈ b.getD [] := by
  cases b with
  | none => simp [addKey]
  | some keys =>
    by_cases h : k ∈ keys
    · simp only [addKey, h, if_true, Option.getD_some]
      constructor
      · intro hm; exact Or.inr hm
      · rintro (rfl | hm)
        · exact h
        · exact hm
    · simp only [addKey, h, if_false, Option.getD_some, List.mem_append, List.mem_singleton]
      tauto

theorem nodup_addKey (k : String) (b : Option (List String)) (h : (b.getD []).Nodup) :
    ((addKey k b).getD []).Nodup := by
  cases b with
  | none => simp [addKey]
  | some keys =>
    by_cases hk : k ∈ keys
    · simpa [addKey, hk] using h
    · simp only [addKey, hk, if_false, Option.getD_some]
      simp only [Option.getD_some] at h
      exact List.Nodup.append h (List.nodup_singleton k) (by
        intro a ha hb
        rw [List.mem_singleton] at hb
        subst hb
        exact hk ha)

theorem getD_dropKey (k : String) (b : Option (List String)) :
    (dropKey k b).getD [] = (b.getD []).filter (fun k' => k' ≠ k) := by
  cases b with
  | none => simp [dropKey]
  | some keys =>
    by_cases h : (keys.filter (fun k' => k' ≠ k)).length > 0
    · simp only [dropKey, h, if_true, Option.getD_some]
    · simp only [dropKey, h, if_false, Option.getD_none, Option.getD_some]
      have : (keys.filter (fun k' => decide (k' ≠ k))).length = 0 := by omega
      exact (List.length_eq_zero.mp this).symm

theorem mem_dropKey (k k' : String) (b : Option (List String)) :
    k' ∈ (dropKey k b).getD [] ↔ k' ≠ k ∧ k' ∈ b.getD [] := by
  rw [getD_dropKey]
  simp [List.mem_filter, and_comm]

theorem nodup_dropKey (k : String) (b : Option (List String)) (h : (b.getD []).Nodup) :
    ((dropKey k b).getD []).Nodup := by
  rw [getD_dropKey]
  exact h.filter _

theorem mem_dropStage (old : Option Value) (k : String) (ti : TypeInfo) (F : String) (x : Scalar)
    (b : Option (List String)) (k' : String) :
    k' ∈ (dropStage old k ti F x b).getD [] ↔
      k' ∈ b.getD [] ∧
        ¬ (k' = k ∧ ∃ o, old = some o ∧ typeInfoOf o = some ti ∧ fieldOf o F = some x) := by
  unfold dropStage
  cases old with
  | none => simp
  | some o =>
    by_cases hc : typeInfoOf o = some ti ∧ fieldOf o F = some x
    · simp only [hc, and_self, if_true, mem_dropKey]
      constructor
      · rintro ⟨h1, h2⟩
        exact ⟨h2, fun c => h1 c.1⟩
      · rintro ⟨h1, h2⟩
        exact ⟨fun c => h2 ⟨c, o, rfl, hc.1, hc.2⟩, h1⟩
    · simp only [hc, if_false]
      constructor
      · intro h1
        refine ⟨h1, ?_⟩
        rintro ⟨_, o', ho, h3, h4⟩
        cases ho
        exact hc ⟨h3, h4⟩
      · exact fun h => h.1

theorem nodup_dropStage (old : Option Value) (k : String) (ti : TypeInfo) (F : String)
    (x : Scalar) (b : Option (List String)) (h : (b.getD []).Nodup) :
    ((dropStage old k ti F x b).getD []).Nodup := by
  unfold dropStage
  cases old with
  | none => exact h
  | some o =>
    simp only []
    split
    · exact nodup_dropKey k b h
    · exact h

theorem mem_addStage (v : Value) (k : String) (r : Bool) (ti : TypeInfo) (F : String)
    (x : Scalar) (b : Option (List String)) (k' : String) :
    k' ∈ (addStage v k r ti F x b).getD [] ↔
      k' ∈ b.getD [] ∨
        (k' = k ∧ typeInfoOf v = some ti ∧ r = true ∧ indexedField ti v F = some x) := by
  unfold addStage
  split
  · rename_i hc
    rw [mem_addKey]
    constructor
    · rintro (h | h)
      · exact Or.inr ⟨h, hc⟩
      · exact Or.inl h
    · rintro (h | h)
      · exact Or.inr h
      · exact Or.inl h.1
  · rename_i hc
    constructor
    · exact fun h => Or.inl h
    · rintro (h | h)
      · exact h
      · exact absurd h.2 hc

theorem nodup_addStage (v : Value) (k : String) (r : Bool) (ti : TypeInfo) (F : String)
    (x : Scalar) (b : Option (List String)) (h : (b.getD []).Nodup) :
    ((addStage v k r ti F x b).getD []).Nodup := by
  unfold addStage
  split
  · exact nodup_addKey k b h
  · exact h

theorem fieldOf_of_indexedField {ti : TypeInfo} {v : Value} {F : String} {x : Scalar}
    (h : indexedField ti v F = some x) : fieldOf v F = some x := by
  unfold indexedField at h
  split at h
  · split at h
    · exact h
    · cases h
  · cases h

theorem lookup_insert_string {V : Type} (m : GoMap String V) (k k' : String) (v : V) :
    (m.insert k v).lookup k' = if k' = k then some v else m.lookup k' := by
  by_cases h : k' = k
  · subst h; simp [AList.lookup_insert]
  · simp [AList.lookup_insert_ne h, h]

theorem lookup_erase_string {V : Type} (m : GoMap String V) (k k' : String) :
    (m.erase k).lookup k' = if k' = k then none else m.lookup k' := by
  by_cases h : k' = k
  · subst h; simp [AList.lookup_erase]
  · simp [AList.lookup_erase_ne h, h]

theorem SetEffect_sound {pl pl' : PrevalenceLayer} {key : String} {value : Value}
    (e : SetEffect pl pl' key value) (h : Sound pl) : Sound pl' := by
  intro ti F x k hk
  unfold PrevalenceLayer.bucket at hk
  rw [e.bucket, mem_addStage, mem_dropStage] at hk
  rw [e.data, lookup_insert_string]
  rcases hk with ⟨hb, hnot⟩ | ⟨rfl, h1, _, h3⟩
  · obtain ⟨v0, hv0, ht0, hf0⟩ := h ti F x k hb
    have hne : k ≠ key := by
      intro hkk
      apply hnot
      refine ⟨hkk, v0, ?_, ht0, fieldOf_of_indexedField hf0⟩
      rw [← hkk]; exact hv0
    simp only [hne, if_false]
    exact ⟨v0, hv0, ht0, hf0⟩
  · simp only [if_true]
    exact ⟨value, rfl, h1, h3⟩

theorem SetEffect_noDuplicates {pl pl' : PrevalenceLayer} {key : String} {value : Value}
    (e : SetEffect pl pl' key value) (h : NoDuplicates pl) : NoDuplicates pl' := by
  intro ti F x
  unfold PrevalenceLayer.bucket
  rw [e.bucket]
  exact nodup_addStage _ _ _ _ _ _ _ (nodup_dropStage _ _ _ _ _ _ (h ti F x))

theorem indexedField_of_plain {v : Value} {ti : TypeInfo} (F : String)
    (hp : (ValueOf v).Kind ≠ Kind.Ptr) (ht : typeInfoOf v = some ti) :
    indexedField ti v F = fieldOf v F := by
  cases v with
  | nil => cases ht
  | val p =>
    have hd : derefValue (Value.val p) = Value.val p := by
      cases p <;> rfl
    simp only [typeInfoOf, TypeOf, Option.map_some', Option.some.injEq] at ht
    unfold indexedField
    rw [hd]
    simp only [Value.Type, TypeOf, ht, if_true]
  | nilPtr elem => exact absurd rfl hp
  | ptr p => exact absurd rfl hp

theorem SetEffect_noStale {pl pl' : PrevalenceLayer} {key : String} {value : Value}
    (e : SetEffect pl pl' key value) (h : NoStale pl) : NoStale pl' := by
  intro ti F x k hk
  unfold PrevalenceLayer.bucket at hk
  rw [e.bucket, mem_addStage, mem_dropStage] at hk
  rw [e.data, lookup_insert_string]
  rcases hk with ⟨hb, hnot⟩ | ⟨rfl, h1, _, h3⟩
  · obtain ⟨v0, hv0, ht0, hf0⟩ := h ti F x k hb
    have hne : k ≠ key := by
      intro hkk
      apply hnot
      refine ⟨hkk, v0, ?_, ht0, hf0⟩
      rw [← hkk]; exact hv0
    simp only [hne, if_false]
    exact ⟨v0, hv0, ht0, hf0⟩
  · simp only [if_true]
    exact ⟨value, rfl, h1, fieldOf_of_indexedField h3⟩

theorem DeleteEffect_noStale {pl pl' : PrevalenceLayer} {key : String}
    (e : DeleteEffect pl pl' key) (h : NoStale pl) : NoStale pl' := by
  intro ti F x k hk
  unfold PrevalenceLayer.bucket at hk
  rw [e.bucket, mem_dropStage] at hk
  rw [e.data, lookup_erase_string]
  obtain ⟨hb, hnot⟩ := hk
  obtain ⟨v0, hv0, ht0, hf0⟩ := h ti F x k hb
  have hne : k ≠ key := by
    intro hkk
    apply hnot
    refine ⟨hkk, v0, ?_, ht0, hf0⟩
    rw [← hkk]; exact hv0
  simp only [hne, if_false]
  exact ⟨v0, hv0, ht0, hf0⟩

theorem SetEffect_completeAt {pl pl' : PrevalenceLayer} {key : String} {value : Value}
    (e : SetEffect pl pl' key value) {ti : TypeInfo} {F : String} (h : CompleteAt pl ti F) :
    CompleteAt pl' ti F := by
  intro hreg k v x hv hp ht hf
  rw [e.fields] at hreg
  unfold PrevalenceLayer.bucket
  rw [e.bucket, mem_addStage, mem_dropStage]
  rw [e.data, lookup_insert_string] at hv
  by_cases hk : k = key
  · subst hk
    simp only [if_true, Option.some.injEq] at hv
    subst hv
    exact Or.inr ⟨rfl, ht, hreg, by rw [indexedField_of_plain F hp ht]; exact hf⟩
  · simp only [hk, if_false] at hv
    exact Or.inl ⟨h hreg k v x hv hp ht hf, fun c => hk c.1⟩

theorem DeleteEffect_sound {pl pl' : PrevalenceLayer} {key : String}
    (e : DeleteEffect pl pl' key) (h : Sound pl) : Sound pl' := by
  intro ti F x k hk
  unfold PrevalenceLayer.bucket at hk
  rw [e.bucket, mem_dropStage] at hk
  rw [e.data, lookup_erase_string]
  obtain ⟨hb, hnot⟩ := hk
  obtain ⟨v0, hv0, ht0, hf0⟩ := h ti F x k hb
  have hne : k ≠ key := by
    intro hkk
    apply hnot
    refine ⟨hkk, v0, ?_, ht0, fieldOf_of_indexedField hf0⟩
    rw [← hkk]; exact hv0
  simp only [hne, if_false]
  exact ⟨v0, hv0, ht0, hf0⟩

theorem DeleteEffect_noDuplicates {pl pl' : PrevalenceLayer} {key : String}
    (e : DeleteEffect pl pl' key) (h : NoDuplicates pl) : NoDuplicates pl' := by
  intro ti F x
  unfold PrevalenceLayer.bucket
  rw [e.bucket]
  exact nodup_dropStage _ _ _ _ _ _ (h ti F x)

theorem DeleteEffect_completeAt {pl pl' : PrevalenceLayer} {key : String}
    (e : DeleteEffect pl pl' key) {ti : TypeInfo} {F : String} (h : CompleteAt pl ti F) :
    CompleteAt pl' ti F := by
  intro hreg k v x hv hp ht hf
  rw [e.fields] at hreg
  unfold PrevalenceLayer.bucket
  rw [e.bucket, mem_dropStage]
  rw [e.data, lookup_erase_string] at hv
  by_cases hk : k = key
  · simp [hk] at hv
  · simp only [hk, if_false] at hv
    exact ⟨h hreg k v x hv hp ht hf, fun c => hk c.1⟩

/-! ## Lemmas: invariants under CreateIndex and Commit -/

theorem mem_scanKeys (data : GoMap String Value) (structType : GoType) (field : String)
    (x : Scalar) (k : String) :
    k ∈ scanKeys data structType field x ↔
      ∃ v, data.lookup k = some v ∧ TypeOf v = some structType ∧
        indexedField (getTypeInfo structType) v field = some x := by
  unfold scanKeys
  simp only [List.mem_map, List.mem_filter, decide_eq_true_eq]
  constructor
  · rintro ⟨⟨k0, v⟩, ⟨hmem, h1, h2⟩, rfl⟩
    exact ⟨v, AList.mem_lookup_iff.mpr hmem, h1, h2⟩
  · rintro ⟨v, hv, h1, h2⟩
    exact ⟨⟨k, v⟩, ⟨AList.mem_lookup_iff.mp hv, h1, h2⟩, rfl⟩

theorem getD_scanBucket (data : GoMap String Value) (structType : GoType) (field : String)
    (x : Scalar) : (scanBucket data structType field x).getD [] = scanKeys data structType field x := by
  unfold scanBucket
  split
  · rename_i h; simp [h]
  · simp

theorem bucket_createIndex {pl pl' : PrevalenceLayer} {structType : GoType} {field : String}
    (e : CreateIndexEffect pl pl' structType field) (ti : TypeInfo) (F : String) (x : Scalar) :
    pl'.bucket ti F x =
      if ti = getTypeInfo structType ∧ F = field ∧ (pl.indexAt ti F).isSome = false
      then scanKeys pl.data structType field x else pl.bucket ti F x := by
  unfold PrevalenceLayer.bucket
  rw [e.bucket]
  split
  · exact getD_scanBucket _ _ _ _
  · rfl

theorem CreateIndexEffect_sound {pl pl' : PrevalenceLayer} {structType : GoType} {field : String}
    (e : CreateIndexEffect pl pl' structType field) (h : Sound pl) : Sound pl' := by
  intro ti F x k hk
  rw [bucket_createIndex e] at hk
  rw [e.data]
  split at hk
  · rename_i hc
    obtain ⟨rfl, rfl, _⟩ := hc
    obtain ⟨v, hv, h1, h2⟩ := (mem_scanKeys _ _ _ _ _).mp hk
    exact ⟨v, hv, by simp [typeInfoOf, h1], h2⟩
  · exact h ti F x k hk

theorem CreateIndexEffect_noStale {pl pl' : PrevalenceLayer} {structType : GoType}
    {field : String} (e : CreateIndexEffect pl pl' structType field) (h : NoStale pl) :
    NoStale pl' := by
  intro ti F x k hk
  rw [bucket_createIndex e] at hk
  rw [e.data]
  split at hk
  · rename_i hc
    obtain ⟨rfl, rfl, _⟩ := hc
    obtain ⟨v, hv, h1, h2⟩ := (mem_scanKeys _ _ _ _ _).mp hk
    exact ⟨v, hv, by simp [typeInfoOf, h1], fieldOf_of_indexedField h2⟩
  · exact h ti F x k hk

theorem CreateIndexEffect_noDuplicates {pl pl' : PrevalenceLayer} {structType : GoType}
    {field : String} (e : CreateIndexEffect pl pl' structType field) (h : NoDuplicates pl) :
    NoDuplicates pl' := by
  intro ti F x
  rw [bucket_createIndex e]
  split
  · exact scanKeys_nodup _ _ _ _
  · exact h ti F x

theorem CreateIndexEffect_completeAt {pl pl' : PrevalenceLayer} {structType : GoType}
    {field : String} (e : CreateIndexEffect pl pl' structType field) {ti : TypeInfo} {F : String}
    (h : CompleteAt pl ti F)
    (hc : ti = getTypeInfo structType → F = field → (pl.indexAt ti F).isSome = false →
      NoClash pl structType field) :
    CompleteAt pl' ti F := by
  intro hreg k v x hv hp ht hf
  rw [bucket_createIndex e]
  rw [e.data] at hv
  split
  · rename_i hnew
    obtain ⟨rfl, rfl, hno⟩ := hnew
    exact (mem_scanKeys _ _ _ _ _).mpr ⟨v, hv, hc rfl rfl hno k v x hv hp ht hf,
      by rw [indexedField_of_plain _ hp ht]; exact hf⟩
  · rename_i hnew
    rw [e.fields] at hreg
    have hreg0 : (pl.indexAt ti F).isSome = true := by
      by_contra hn
      have hn' : (pl.indexAt ti F).isSome = false := by simpa using hn
      rw [hn'] at hreg
      simp only [Bool.false_or, decide_eq_true_eq] at hreg
      exact hnew ⟨hreg.1, hreg.2, hn'⟩
    exact h hreg0 k v x hv hp ht hf

theorem run_op_spec {op : Op} {pl pl' : PrevalenceLayer} {e : Option Error}
    (h : op.run pl = some (pl', e)) : e = none ∧ OpEffect op pl pl' := by
  cases op with
  | set key value => exact run_set_spec h
  | delete key => exact run_delete_spec h

theorem runOperations_spec : ∀ (ops : List Op) (pl pl' : PrevalenceLayer) (e : Option Error),
    runOperations ops pl = some (pl', e) → e = none ∧ OpsEffect ops pl pl' := by
  intro ops
  induction ops with
  | nil =>
    intro pl pl' e h
    simp only [runOperations, Option.some.injEq, Prod.mk.injEq] at h
    exact ⟨h.2.symm, h.1.symm⟩
  | cons op rest ih =>
    intro pl pl' e h
    unfold runOperations at h
    cases hr : op.run pl with
    | none => simp [hr] at h
    | some r =>
      obtain ⟨pl1, e1⟩ := r
      obtain ⟨he1, hop⟩ := run_op_spec hr
      subst he1
      simp only [hr] at h
      obtain ⟨he, hrest⟩ := ih pl1 pl' e h
      exact ⟨he, pl1, hop, hrest⟩

theorem Commit_spec {gob : Codec} {os : Faults} {pl : PrevalenceLayer} {d : Disk}
    {tx : Transaction} {out : Outcome} (h : pl.Commit gob os d tx = some out) :
    runOperations tx.operations pl = some (out.pl, none) ∧
      out.disk = (out.pl.save gob os d).1 ∧ out.err = (out.pl.save gob os d).2 := by
  unfold PrevalenceLayer.Commit at h
  cases hr : runOperations tx.operations pl with
  | none => simp [hr] at h
  | some r =>
    obtain ⟨pl1, e1⟩ := r
    obtain ⟨he1, _⟩ := runOperations_spec _ _ _ _ hr
    subst he1
    simp only [hr, Option.some.injEq] at h
    subst h
    exact ⟨rfl, rfl, rfl⟩

theorem OpsEffect_sound : ∀ {ops : List Op} {pl pl' : PrevalenceLayer},
    OpsEffect ops pl pl' → Sound pl → Sound pl' := by
  intro ops
  induction ops with
  | nil => intro pl pl' h hs; cases h; exact hs
  | cons op rest ih =>
    intro pl pl' h hs
    obtain ⟨pl1, h1, h2⟩ := h
    refine ih h2 ?_
    cases op with
    | set key value => exact SetEffect_sound h1 hs
    | delete key => exact DeleteEffect_sound h1 hs

theorem OpsEffect_noStale : ∀ {ops : List Op} {pl pl' : PrevalenceLayer},
    OpsEffect ops pl pl' → NoStale pl → NoStale pl' := by
  intro ops
  induction ops with
  | nil => intro pl pl' h hs; cases h; exact hs
  | cons op rest ih =>
    intro pl pl' h hs
    obtain ⟨pl1, h1, h2⟩ := h
    refine ih h2 ?_
    cases op with
    | set key value => exact SetEffect_noStale h1 hs
    | delete key => exact DeleteEffect_noStale h1 hs

theorem OpsEffect_noDuplicates : ∀ {ops : List Op} {pl pl' : PrevalenceLayer},
    OpsEffect ops pl pl' → NoDuplicates pl → NoDuplicates pl' := by
  intro ops
  induction ops with
  | nil => intro pl pl' h hs; cases h; exact hs
  | cons op rest ih =>
    intro pl pl' h hs
    obtain ⟨pl1, h1, h2⟩ := h
    refine ih h2 ?_
    cases op with
    | set key value => exact SetEffect_noDuplicates h1 hs
    | delete key => exact DeleteEffect_noDuplicates h1 hs

theorem OpsEffect_completeAt : ∀ {ops : List Op} {pl pl' : PrevalenceLayer} {ti : TypeInfo}
    {F : String}, OpsEffect ops pl pl' → CompleteAt pl ti F → CompleteAt pl' ti F := by
  intro ops
  induction ops with
  | nil => intro pl pl' ti F h hs; cases h; exact hs
  | cons op rest ih =>
    intro pl pl' ti F h hs
    obtain ⟨pl1, h1, h2⟩ := h
    refine ih h2 ?_
    cases op with
    | set key value => exact SetEffect_completeAt h1 hs
    | delete key => exact DeleteEffect_completeAt h1 hs

theorem OpsEffect_fields : ∀ {ops : List Op} {pl pl' : PrevalenceLayer},
    OpsEffect ops pl pl' → ∀ ti F, (pl'.indexAt ti F).isSome = (pl.indexAt ti F).isSome := by
  intro ops
  induction ops with
  | nil => intro pl pl' h ti F; cases h; rfl
  | cons op rest ih =>
    intro pl pl' h ti F
    obtain ⟨pl1, h1, h2⟩ := h
    rw [ih h2]
    cases op with
    | set key value => exact h1.fields ti F
    | delete key => exact h1.fields ti F

/-! ## Lemmas: Commit, Set and Delete in memory -/

theorem Commit_pl (gob : Codec) (os : Faults) (pl : PrevalenceLayer) (d : Disk)
    (tx : Transaction) :
    (pl.Commit gob os d tx).map Outcome.pl = (runOperations tx.operations pl).map Prod.fst := by
  unfold PrevalenceLayer.Commit
  cases hr : runOperations tx.operations pl with
  | none => rfl
  | some r =>
    obtain ⟨pl1, e1⟩ := r
    cases e1 <;> rfl

theorem runOperations_cons (op : Op) (rest : List Op) (pl : PrevalenceLayer) :
    (runOperations (op :: rest) pl).map Prod.fst =
      ((op.run pl).map Prod.fst).bind (fun p => (runOperations rest p).map Prod.fst) := by
  rw [show runOperations (op :: rest) pl =
    (match op.run pl with
      | none => none
      | some (pl1, some err) => some (pl1, some err)
      | some (pl1, none) => runOperations rest pl1) from rfl]
  cases hr : op.run pl with
  | none => rfl
  | some r =>
    obtain ⟨pl1, e1⟩ := r
    obtain ⟨he1, _⟩ := run_op_spec hr
    subst he1
    simp only [Option.map_some', Option.some_bind]

theorem Set_pl (gob : Codec) (os : Faults) (pl : PrevalenceLayer) (d : Disk) (key : String)
    (value : Value) :
    (pl.Set gob os d key value).map Outcome.pl = ((Op.set key value).run pl).map Prod.fst := by
  unfold PrevalenceLayer.Set
  rw [Commit_pl]
  have : (pl.BeginTransaction.Set key value).operations = [Op.set key value] := rfl
  rw [this, runOperations_cons]
  cases (Op.set key value).run pl <;> rfl

theorem Delete_pl (gob : Codec) (os : Faults) (pl : PrevalenceLayer) (d : Disk) (key : String) :
    (pl.Delete gob os d key).map Outcome.pl = ((Op.delete key).run pl).map Prod.fst := by
  unfold PrevalenceLayer.Delete
  rw [Commit_pl]
  have : (pl.BeginTransaction.Delete key).operations = [Op.delete key] := rfl
  rw [this, runOperations_cons]
  cases (Op.delete key).run pl <;> rfl

theorem Set_effect {gob : Codec} {os : Faults} {pl : PrevalenceLayer} {d : Disk} {key : String}
    {value : Value} {out : Outcome} (h : pl.Set gob os d key value = some out) :
    SetEffect pl out.pl key value := by
  have h1 := Set_pl gob os pl d key value
  rw [h] at h1
  cases hr : (Op.set key value).run pl with
  | none => rw [hr] at h1; cases h1
  | some r =>
    obtain ⟨pl1, e1⟩ := r
    rw [hr] at h1
    simp only [Option.map_some', Option.some.injEq] at h1
    rw [h1]
    exact (run_set_spec hr).2

theorem Delete_effect {gob : Codec} {os : Faults} {pl : PrevalenceLayer} {d : Disk}
    {key : String} {out : Outcome} (h : pl.Delete gob os d key = some out) :
    DeleteEffect pl out.pl key := by
  have h1 := Delete_pl gob os pl d key
  rw [h] at h1
  cases hr : (Op.delete key).run pl with
  | none => rw [hr] at h1; cases h1
  | some r =>
    obtain ⟨pl1, e1⟩ := r
    rw [hr] at h1
    simp only [Option.map_some', Option.some.injEq] at h1
    rw [h1]
    exact (run_delete_spec hr).2

theorem Commit_effect {gob : Codec} {os : Faults} {pl : PrevalenceLayer} {d : Disk}
    {tx : Transaction} {out : Outcome} (h : pl.Commit gob os d tx = some out) :
    OpsEffect tx.operations pl out.pl :=
  (runOperations_spec _ _ _ _ (Commit_spec h).1).2

theorem bareCalls_pl (gob : Codec) (os : Faults) : ∀ (ops : List Op) (w : World),
    (bareCalls gob os ops w).map World.pl = (runOperations ops w.pl).map Prod.fst := by
  intro ops
  induction ops with
  | nil => intro w; rfl
  | cons op rest ih =>
    intro w
    rw [runOperations_cons]
    cases op with
    | set key value =>
      have h1 := Set_pl gob os w.pl w.disk key value
      unfold bareCalls
      cases hs : w.pl.Set gob os w.disk key value with
      | none =>
        rw [hs] at h1
        rw [← h1]; rfl
      | some out =>
        rw [hs] at h1
        rw [← h1]
        simp only [Option.map_some', Option.some_bind]
        exact ih _
    | delete key =>
      have h1 := Delete_pl gob os w.pl w.disk key
      unfold bareCalls
      cases hs : w.pl.Delete gob os w.disk key with
      | none =>
        rw [hs] at h1
        rw [← h1]; rfl
      | some out =>
        rw [hs] at h1
        rw [← h1]
        simp only [Option.map_some', Option.some_bind]
        exact ih _

theorem QueryByIndex_eq (pl : PrevalenceLayer) (structType : GoType) (field : String)
    (x : Scalar) :
    pl.QueryByIndex structType field x =
      (pl.bucket (getTypeInfo structType) field x).map
        (fun key => (pl.data.lookup key).getD Value.nil) := by
  unfold PrevalenceLayer.QueryByIndex PrevalenceLayer.bucket PrevalenceLayer.rawBucket
    PrevalenceLayer.indexAt
  simp only []
  cases hm : pl.indexes.lookup (getTypeInfo structType) with
  | none => simp
  | some m =>
    simp only [Option.some_bind]
    cases hf : m.lookup field with
    | none => simp
    | some index =>
      simp only [Option.some_bind]
      cases hx : index.Data.lookup x <;> simp

theorem CreateIndex_of_registered (pl : PrevalenceLayer) (structType : GoType) (field : String)
    (h : (pl.indexAt (getTypeInfo structType) field).isSome = true) :
    pl.CreateIndex structType field = some pl := by
  unfold PrevalenceLayer.CreateIndex
  cases hm : pl.indexes.lookup (getTypeInfo structType) with
  | none =>
    unfold PrevalenceLayer.indexAt at h
    rw [hm] at h
    cases h
  | some m =>
    cases hi : pl.indexAt (getTypeInfo structType) field with
    | none => rw [hi] at h; cases h
    | some idx =>
      simp only [hm, hi]

/-! ## Store contract (C1, C2), idempotence (C6), commit order and errors (C8, C9) -/

/-- C1: for every store state, key and value, when `Set(key, value)` returns,
`Get(key)` returns `(value, true)`. -/
theorem set_then_get (gob : Codec) (os : Faults) (pl : PrevalenceLayer) (d : Disk)
    (key : String) (value : Value) (out : Outcome)
    (h : pl.Set gob os d key value = some out) :
    out.pl.Get key = (value, true) := by
  unfold PrevalenceLayer.Get
  rw [(Set_effect h).data, AList.lookup_insert]

theorem set_then_get_witness :
    ∃ out, (emptyLayer "test_artemia.dat").Set writeOnlyCodec noFaults noFiles "key1"
        (stringValue "value1") = some out ∧
      out.pl.Get "key1" = (stringValue "value1", true) :=
  have hs : ((emptyLayer "test_artemia.dat").Set writeOnlyCodec noFaults noFiles "key1"
      (stringValue "value1")).isSome = true := by decide
  ⟨Option.get _ hs, (Option.some_get hs).symm,
    set_then_get _ _ _ _ _ _ _ (Option.some_get hs).symm⟩

/-- C2: for every store state and key, present or absent, when `Delete(key)`
returns, `Get(key)` reports not found. -/
theorem delete_then_get (gob : Codec) (os : Faults) (pl : PrevalenceLayer) (d : Disk)
    (key : String) (out : Outcome) (h : pl.Delete gob os d key = some out) :
    out.pl.Get key = (Value.nil, false) := by
  unfold PrevalenceLayer.Get
  rw [(Delete_effect h).data, AList.lookup_erase]

theorem delete_then_get_witness :
    ∃ out, indexedLayer.Delete writeOnlyCodec noFaults noFiles "1" = some out ∧
      out.pl.Get "1" = (Value.nil, false) :=
  have hs : (indexedLayer.Delete writeOnlyCodec noFaults noFiles "1").isSome = true := by decide
  ⟨Option.get _ hs, (Option.some_get hs).symm,
    delete_then_get _ _ _ _ _ _ (Option.some_get hs).symm⟩

/-- C6: `CreateIndex` is idempotent: calling it twice with the same type and
field gives the same layer (store and indexes) as calling it once, and on a
layer where the index exists the call returns the layer unchanged. -/
theorem createIndex_idempotent (pl : PrevalenceLayer) (structType : GoType) (field : String) :
    (pl.CreateIndex structType field).bind (fun p => p.CreateIndex structType field) =
        pl.CreateIndex structType field ∧
      ((pl.indexAt (getTypeInfo structType) field).isSome = true →
        pl.CreateIndex structType field = some pl) := by
  refine ⟨?_, CreateIndex_of_registered pl structType field⟩
  cases h : pl.CreateIndex structType field with
  | none => rfl
  | some p =>
    simp only [Option.some_bind]
    apply CreateIndex_of_registered
    rw [(CreateIndex_spec h).fields]
    simp

theorem createIndex_idempotent_witness :
    (indexedLayer.CreateIndex testStructType "Name").bind
        (fun p => p.CreateIndex testStructType "Name") =
        indexedLayer.CreateIndex testStructType "Name" ∧
      indexedLayer.CreateIndex testStructType "Name" = some indexedLayer :=
  ⟨(createIndex_idempotent indexedLayer testStructType "Name").1,
    (createIndex_idempotent indexedLayer testStructType "Name").2 (by decide)⟩

/-- C8: `Commit` applies the pending operations in enqueue order: the layer
it leaves in memory is the one left by the bare calls `Set`/`Delete`
issued one at a time in that order, whatever the faults and disks of the
two runs; if one of the two runs panics, so does the other. -/
theorem commit_eq_bareCalls (gob : Codec) (os os' : Faults) (pl : PrevalenceLayer)
    (d d' : Disk) (tx : Transaction) :
    (pl.Commit gob os d tx).map Outcome.pl =
      (bareCalls gob os' tx.operations { pl := pl, disk := d' }).map World.pl := by
  rw [Commit_pl, bareCalls_pl]

/-- C9: when `Commit` returns, its error is exactly the error of the snapshot
save (the pending operations themselves never return an error), and the
layer in memory is the one obtained by running all pending operations, also
when the save failed. -/
theorem commit_error_is_save_error (gob : Codec) (os : Faults) (pl : PrevalenceLayer)
    (d : Disk) (tx : Transaction) (out : Outcome) (h : pl.Commit gob os d tx = some out) :
    out.err = (out.pl.save gob os d).2 ∧
      runOperations tx.operations pl = some (out.pl, none) ∧
      ∀ (op : Op) (p p' : PrevalenceLayer) (e : Option Error),
        op.run p = some (p', e) → e = none :=
  ⟨(Commit_spec h).2.2, (Commit_spec h).1, fun _ _ _ _ hr => (run_op_spec hr).1⟩

theorem commit_error_is_save_error_witness :
    ∃ out, (emptyLayer "test_artemia.dat").Commit failingCodec noFaults noFiles
        { operations := [Op.set "key1" (stringValue "value1"), Op.set "key2" (stringValue "value2")] }
        = some out ∧
      out.err = some Error.encodeData ∧
      out.pl.Get "key1" = (stringValue "value1", true) ∧
      out.pl.Get "key2" = (stringValue "value2", true) :=
  have hs : ((emptyLayer "test_artemia.dat").Commit failingCodec noFaults noFiles
      { operations := [Op.set "key1" (stringValue "value1"),
          Op.set "key2" (stringValue "value2")] }).isSome = true := by decide
  have h := (Option.some_get hs).symm
  ⟨Option.get _ hs, h,
    (commit_error_is_save_error _ _ _ _ _ _ h).1.trans rfl, rfl, rfl⟩

/-! ## Lemmas: invariants along runs -/

theorem call_effect {gob : Codec} {os : Faults} {call : Call} {w w' : World}
    (h : call.run gob os w = some w') : CallEffect call w.pl w'.pl := by
  cases call with
  | createIndex structType field =>
    simp only [Call.run, Option.map_eq_some'] at h
    obtain ⟨pl', h1, rfl⟩ := h
    exact CreateIndex_spec h1
  | set key value =>
    simp only [Call.run, Option.map_eq_some'] at h
    obtain ⟨out, h1, rfl⟩ := h
    exact Set_effect h1
  | delete key =>
    simp only [Call.run, Option.map_eq_some'] at h
    obtain ⟨out, h1, rfl⟩ := h
    exact Delete_effect h1
  | commit tx =>
    simp only [Call.run, Option.map_eq_some'] at h
    obtain ⟨out, h1, rfl⟩ := h
    exact Commit_effect h1

theorem callEffect_sound {call : Call} {pl pl' : PrevalenceLayer} (e : CallEffect call pl pl')
    (h : Sound pl) : Sound pl' := by
  cases call with
  | createIndex structType field => exact CreateIndexEffect_sound e h
  | set key value => exact SetEffect_sound e h
  | delete key => exact DeleteEffect_sound e h
  | commit tx => exact OpsEffect_sound e h

theorem callEffect_noStale {call : Call} {pl pl' : PrevalenceLayer} (e : CallEffect call pl pl')
    (h : NoStale pl) : NoStale pl' := by
  cases call with
  | createIndex structType field => exact CreateIndexEffect_noStale e h
  | set key value => exact SetEffect_noStale e h
  | delete key => exact DeleteEffect_noStale e h
  | commit tx => exact OpsEffect_noStale e h

theorem callEffect_noDuplicates {call : Call} {pl pl' : PrevalenceLayer}
    (e : CallEffect call pl pl') (h : NoDuplicates pl) : NoDuplicates pl' := by
  cases call with
  | createIndex structType field => exact CreateIndexEffect_noDuplicates e h
  | set key value => exact SetEffect_noDuplicates e h
  | delete key => exact DeleteEffect_noDuplicates e h
  | commit tx => exact OpsEffect_noDuplicates e h

theorem callEffect_completeAt {call : Call} {pl pl' : PrevalenceLayer}
    (e : CallEffect call pl pl') {ti : TypeInfo} {F : String} (h : CompleteAt pl ti F)
    (hc : ∀ structType field, call = Call.createIndex structType field →
      ti = getTypeInfo structType → F = field → (pl.indexAt ti F).isSome = false →
      NoClash pl structType field) :
    CompleteAt pl' ti F := by
  cases call with
  | createIndex structType field =>
    exact CreateIndexEffect_completeAt e h (hc structType field rfl)
  | set key value => exact SetEffect_completeAt e h
  | delete key => exact DeleteEffect_completeAt e h
  | commit tx => exact OpsEffect_completeAt e h

theorem bucket_emptyLayer (filename : String) (ti : TypeInfo) (F : String) (x : Scalar) :
    (emptyLayer filename).bucket ti F x = [] := rfl

theorem sound_emptyLayer (filename : String) : Sound (emptyLayer filename) := by
  intro ti F x k hk
  rw [bucket_emptyLayer] at hk
  cases hk

theorem noStale_emptyLayer (filename : String) : NoStale (emptyLayer filename) := by
  intro ti F x k hk
  rw [bucket_emptyLayer] at hk
  cases hk

theorem noDuplicates_emptyLayer (filename : String) : NoDuplicates (emptyLayer filename) := by
  intro ti F x
  rw [bucket_emptyLayer]
  exact List.nodup_nil

theorem completeAt_emptyLayer (filename : String) (ti : TypeInfo) (F : String) :
    CompleteAt (emptyLayer filename) ti F := by
  intro hreg
  cases hreg

theorem runCalls_cons {gob : Codec} {call : Call} {os : Faults} {rest : List (Call × Faults)}
    {w w' : World} (h : runCalls gob ((call, os) :: rest) w = some w') :
    ∃ w1, call.run gob os w = some w1 ∧ runCalls gob rest w1 = some w' := by
  unfold runCalls at h
  cases hr : call.run gob os w with
  | none => simp [hr] at h
  | some w1 =>
    simp only [hr] at h
    exact ⟨w1, rfl, h⟩

theorem runCalls_sound (gob : Codec) : ∀ (steps : List (Call × Faults)) (w w' : World),
    runCalls gob steps w = some w' → Sound w.pl ∧ NoDuplicates w.pl →
      Sound w'.pl ∧ NoDuplicates w'.pl := by
  intro steps
  induction steps with
  | nil =>
    intro w w' h hs
    simp only [runCalls, Option.some.injEq] at h
    subst h
    exact hs
  | cons s rest ih =>
    intro w w' h hs
    obtain ⟨call, os⟩ := s
    obtain ⟨w1, h1, h2⟩ := runCalls_cons h
    have e := call_effect h1
    exact ih w1 w' h2 ⟨callEffect_sound e hs.1, callEffect_noDuplicates e hs.2⟩

theorem not_mem_bucket_of_absent {pl : PrevalenceLayer} (h : Sound pl) {k : String}
    (hk : pl.data.lookup k = none) (ti : TypeInfo) (F : String) (x : Scalar) :
    k ∉ pl.bucket ti F x := by
  intro hmem
  obtain ⟨v, hv, _⟩ := h ti F x k hmem
  rw [hk] at hv
  cases hv

theorem indexedField_of_typeOf {structType : GoType} {v : Value} (F : String)
    (ht : TypeOf v = some structType) (hT : ∀ elem, structType ≠ GoType.ptr elem) :
    indexedField (getTypeInfo structType) v F = fieldOf v F := by
  cases v with
  | nil => cases ht
  | val p =>
    have hd : derefValue (Value.val p) = Value.val p := by
      cases p <;> rfl
    unfold indexedField
    rw [hd]
    simp only [Value.Type, ht, if_true]
  | nilPtr elem =>
    simp only [TypeOf, Option.some.injEq] at ht
    exact absurd ht.symm (hT elem)
  | ptr p =>
    simp only [TypeOf, Option.some.injEq] at ht
    exact absurd ht.symm (hT p.Type)

theorem typeInfoOf_of_typeOf {structType : GoType} {v : Value}
    (ht : TypeOf v = some structType) : typeInfoOf v = some (getTypeInfo structType) := by
  simp [typeInfoOf, ht]

theorem consistent_filedOnce {pl : PrevalenceLayer} (h : Consistent pl) : FiledOnce pl := by
  intro ti F hreg k v x hv hp ht hf
  obtain ⟨hs, hn, hc⟩ := h
  refine ⟨List.count_eq_one_of_mem (hn ti F x) (hc ti F hreg k v x hv hp ht hf), ?_⟩
  intro y hy hmem
  obtain ⟨v', hv', _, hf'⟩ := hs ti F y k hmem
  rw [hv] at hv'
  cases hv'
  rw [hf] at hf'
  exact hy (Option.some.inj hf').symm

/-- C7: in every state reached from the empty store by calls of
`CreateIndex`, `Set`, `Delete` and `Commit` that return, once `Delete(key)`
has returned no bucket of any index, of any type identity and field, lists
`key`; as `QueryByIndex` returns the records read at the keys of one
bucket, it returns no record for `key`, whatever the field value. -/
theorem delete_clears_indexes (gob : Codec) (steps : List (Call × Faults)) (filename : String)
    (d0 d : Disk) (w : World) (os : Faults) (key : String) (out : Outcome)
    (hrun : runCalls gob steps { pl := emptyLayer filename, disk := d0 } = some w)
    (hdel : w.pl.Delete gob os d key = some out) :
    (∀ ti F x, key ∉ out.pl.bucket ti F x) ∧
      ∀ structType F x, out.pl.QueryByIndex structType F x =
        (out.pl.bucket (getTypeInfo structType) F x).map
          (fun k => (out.pl.data.lookup k).getD Value.nil) := by
  have hs := (runCalls_sound gob steps _ w hrun
    ⟨sound_emptyLayer filename, noDuplicates_emptyLayer filename⟩).1
  have e := Delete_effect hdel
  have hs' : Sound out.pl := DeleteEffect_sound e hs
  have hk : out.pl.data.lookup key = none := by
    rw [e.data, AList.lookup_erase]
  exact ⟨not_mem_bucket_of_absent hs' hk, fun structType F x => QueryByIndex_eq _ _ _ _⟩

theorem delete_clears_indexes_witness :
    ∃ w out,
      runCalls writeOnlyCodec
        [(Call.createIndex testStructType "Name", noFaults),
          (Call.set "3" (testStruct 3 "Charlie"), noFaults)]
        { pl := emptyLayer "test_artemia.dat", disk := noFiles } = some w ∧
      w.pl.QueryByIndex testStructType "Name" (Scalar.str "Charlie") = [testStruct 3 "Charlie"] ∧
      w.pl.Delete writeOnlyCodec noFaults noFiles "3" = some out ∧
      (∀ ti F x, "3" ∉ out.pl.bucket ti F x) ∧
      out.pl.QueryByIndex testStructType "Name" (Scalar.str "Charlie") = [] :=
  have h1 : (runCalls writeOnlyCodec
      [(Call.createIndex testStructType "Name", noFaults),
        (Call.set "3" (testStruct 3 "Charlie"), noFaults)]
      { pl := emptyLayer "test_artemia.dat", disk := noFiles }).isSome = true := by decide
  have hrun := (Option.some_get h1).symm
  have h2 : ((Option.get _ h1).pl.Delete writeOnlyCodec noFaults noFiles "3").isSome = true := rfl
  have hdel := (Option.some_get h2).symm
  ⟨Option.get _ h1, Option.get _ h2, hrun, rfl, hdel,
    (delete_clears_indexes _ _ _ _ _ _ _ _ _ hrun hdel).1, rfl⟩

/-- C4 fails as stated, in two ways.  The layer `staleLayer` satisfies the
invariant as worded (it stores no record), yet after
`Set("1", TestStruct{1, "Alice"})` key "1" is listed both in the bucket of
"Alice" and in the bucket of "Bob" of the index on `Name`, so the invariant
is lost.  The layer `ageLayer`, which has no index and stores
`struct { Age int }{28}` under "1", satisfies the invariant, yet after
`CreateIndex` on the type `struct { Age int; Name string }`, of the same type
identity, and field `Age`, key "1" is in no bucket of the new index. -/
theorem indexedOnce_not_preserved :
    (IndexedOnce staleLayer ∧
      (staleLayer.Set writeOnlyCodec noFaults noFiles "1" (testStruct 1 "Alice")).map
        (fun out =>
          (out.pl.bucket (getTypeInfo testStructType) "Name" (Scalar.str "Alice"),
            out.pl.bucket (getTypeInfo testStructType) "Name" (Scalar.str "Bob"),
            out.pl.Get "1")) = some (["1"], ["1"], (testStruct 1 "Alice", true)) ∧
      ∃ out, staleLayer.Set writeOnlyCodec noFaults noFiles "1" (testStruct 1 "Alice") = some out ∧
        ¬ IndexedOnce out.pl) ∧
    (IndexedOnce ageLayer ∧
      (ageLayer.CreateIndex ageNameType "Age").map
        (fun p => (p.bucket (getTypeInfo ageNameType) "Age" (Scalar.int 28), p.Get "1")) =
          some ([], (age28, true)) ∧
      ∃ p, ageLayer.CreateIndex ageNameType "Age" = some p ∧ ¬ IndexedOnce p) := by
  refine ⟨⟨?_, by decide, ?_⟩, ⟨?_, by decide, ?_⟩⟩
  · intro ti F _ k v x hv
    cases hv
  · have hs : (staleLayer.Set writeOnlyCodec noFaults noFiles "1"
        (testStruct 1 "Alice")).isSome = true := by decide
    refine ⟨Option.get _ hs, (Option.some_get hs).symm, ?_⟩
    intro h
    have h1 := h (getTypeInfo testStructType) "Name" rfl "1" (testStruct 1 "Alice")
      (Scalar.str "Alice") rfl rfl rfl
    exact h1.2 (Scalar.str "Bob") (by decide) (List.mem_singleton.mpr rfl)
  · intro ti F hreg
    cases hreg
  · have hs : (ageLayer.CreateIndex ageNameType "Age").isSome = true := by decide
    refine ⟨Option.get _ hs, (Option.some_get hs).symm, ?_⟩
    intro h
    have h1 := (h (getTypeInfo ageNameType) "Age" rfl "1" age28 (Scalar.int 28) rfl rfl rfl).1
    have h0 : List.count "1" ((Option.get _ hs).bucket (getTypeInfo ageNameType) "Age"
        (Scalar.int 28)) = 0 := rfl
    rw [h0] at h1
    cases h1

/-- C4, amended: the invariant `Consistent` (every key listed in a bucket of
an index holds a record of the type identity of the index whose field has
the value of the bucket, no bucket lists a key twice, and the key of every
stored record that is not a pointer is listed in the bucket of its field
value in every index on its type identity and one of its fields) is
preserved by every call of `Set`, `Delete` and `Commit` that returns, and by
every call of `CreateIndex(T, F)` that returns provided that, when no index
on the type identity of `T` and `F` exists yet, each stored record that is not
a pointer, has the type identity of `T` and has field `F` is of type `T`;
under it every stored key whose record is not a pointer, has the type
identity of an index and has its field occurs exactly once in the bucket of
the record's field value and in no other bucket of that index. -/
theorem consistent_preserved (gob : Codec) (os : Faults) (call : Call) (w w' : World)
    (hrun : call.run gob os w = some w') (hc : Consistent w.pl)
    (hclash : ∀ structType field, call = Call.createIndex structType field →
      (w.pl.indexAt (getTypeInfo structType) field).isSome = false →
      NoClash w.pl structType field) :
    Consistent w'.pl ∧ FiledOnce w'.pl := by
  have e := call_effect hrun
  have hc' : Consistent w'.pl :=
    ⟨callEffect_noStale e hc.1, callEffect_noDuplicates e hc.2.1, fun ti F =>
      callEffect_completeAt e (hc.2.2 ti F) (fun T f hcall hti hF hno =>
        hclash T f hcall (by rw [← hti, ← hF]; exact hno))⟩
  exact ⟨hc', consistent_filedOnce hc'⟩

theorem consistent_preserved_witness :
    ∃ w1 w2 a b c d : World,
      (Call.createIndex testStructType "Name").run writeOnlyCodec noFaults
        { pl := emptyLayer "test_artemia.dat", disk := noFiles } = some w1 ∧
      (Call.set "1" (testStruct 1 "Alice")).run writeOnlyCodec noFaults w1 = some w2 ∧
      w2.pl.bucket (getTypeInfo testStructType) "Name" (Scalar.str "Alice") = ["1"] ∧
      Consistent w2.pl ∧
      (w2.pl.indexAt (getTypeInfo testStructType) "ID").isSome = false ∧
      NoClash w2.pl testStructType "ID" ∧
      (Call.createIndex testStructType "ID").run writeOnlyCodec noFaults w2 = some a ∧
      a.pl.bucket (getTypeInfo testStructType) "ID" (Scalar.int 1) = ["1"] ∧
      (Consistent a.pl ∧ FiledOnce a.pl) ∧
      (Call.set "1" (testStruct 1 "Bob")).run writeOnlyCodec noFaults w2 = some b ∧
      b.pl.bucket (getTypeInfo testStructType) "Name" (Scalar.str "Alice") = [] ∧
      b.pl.bucket (getTypeInfo testStructType) "Name" (Scalar.str "Bob") = ["1"] ∧
      (Consistent b.pl ∧ FiledOnce b.pl) ∧
      (Call.delete "1").run writeOnlyCodec noFaults w2 = some c ∧
      c.pl.bucket (getTypeInfo testStructType) "Name" (Scalar.str "Alice") = [] ∧
      (Consistent c.pl ∧ FiledOnce c.pl) ∧
      (Call.commit { operations := [Op.set "2" (testStruct 2 "Alice"), Op.delete "1"] }).run
        writeOnlyCodec noFaults w2 = some d ∧
      d.pl.bucket (getTypeInfo testStructType) "Name" (Scalar.str "Alice") = ["2"] ∧
      (Consistent d.pl ∧ FiledOnce d.pl) := by
  have hc0 : Consistent (emptyLayer "test_artemia.dat") :=
    ⟨noStale_emptyLayer _, noDuplicates_emptyLayer _, completeAt_emptyLayer _⟩
  have h1 : ((Call.createIndex testStructType "Name").run writeOnlyCodec noFaults
      { pl := emptyLayer "test_artemia.dat", disk := noFiles }).isSome = true := by decide
  have e1 := (Option.some_get h1).symm
  have h2 : ((Call.set "1" (testStruct 1 "Alice")).run writeOnlyCodec noFaults
      (Option.get _ h1)).isSome = true := rfl
  have e2 := (Option.some_get h2).symm
  have ha : ((Call.createIndex testStructType "ID").run writeOnlyCodec noFaults
      (Option.get _ h2)).isSome = true := rfl
  have ea := (Option.some_get ha).symm
  have hb : ((Call.set "1" (testStruct 1 "Bob")).run writeOnlyCodec noFaults
      (Option.get _ h2)).isSome = true := rfl
  have eb := (Option.some_get hb).symm
  have hd : ((Call.delete "1").run writeOnlyCodec noFaults (Option.get _ h2)).isSome = true :=
    rfl
  have ed := (Option.some_get hd).symm
  have ht : ((Call.commit { operations := [Op.set "2" (testStruct 2 "Alice"), Op.delete "1"] }).run
      writeOnlyCodec noFaults (Option.get _ h2)).isSome = true := rfl
  have et := (Option.some_get ht).symm
  have hclash : NoClash (Option.get _ h2).pl testStructType "ID" := by
    intro k v x hv _ _ _
    have hmem : (⟨k, v⟩ : Sigma (fun _ : String => Value)) ∈
        [(⟨"1", testStruct 1 "Alice"⟩ : Sigma (fun _ : String => Value))] :=
      AList.mem_lookup_iff.mp hv
    simp only [List.mem_singleton, Sigma.mk.inj_iff, heq_eq_eq] at hmem
    obtain ⟨_, rfl⟩ := hmem
    rfl
  have c1 := consistent_preserved _ _ _ _ _ e1 hc0 (fun T f _ _ k v x hv => (by cases hv))
  have c2 := consistent_preserved _ _ _ _ _ e2 c1.1 (fun T f hcall => (by cases hcall))
  have ca := consistent_preserved _ _ _ _ _ ea c2.1 (fun T f hcall _ => by
    cases hcall
    exact hclash)
  have cb := consistent_preserved _ _ _ _ _ eb c2.1 (fun T f hcall => (by cases hcall))
  have cd := consistent_preserved _ _ _ _ _ ed c2.1 (fun T f hcall => (by cases hcall))
  have ct := consistent_preserved _ _ _ _ _ et c2.1 (fun T f hcall => (by cases hcall))
  exact ⟨_, _, _, _, _, _, e1, e2, rfl, c2.1, rfl, hclash, ea, rfl, ca, eb, rfl, rfl, cb,
    ed, rfl, cd, et, rfl, ct⟩

/-- C5, the code at the failing input: on a store that holds the pointer
`&TestStruct{1, "Alice"}` under "1" and has no index, `CreateIndex` on the
pointer type `*TestStruct` and field `Name` returns, but the new index is
empty and the query for "Alice" returns nothing, although the record has
type `*TestStruct` and its field `Name` is "Alice". -/
theorem createIndex_skips_pointer_records :
    (pointerLayer.indexAt (getTypeInfo (GoType.ptr testStructType)) "Name").isSome = false ∧
      pointerLayer.Get "1" = (alicePointer, true) ∧
      TypeOf alicePointer = some (GoType.ptr testStructType) ∧
      fieldOf alicePointer "Name" = some (Scalar.str "Alice") ∧
      (pointerLayer.CreateIndex (GoType.ptr testStructType) "Name").map
        (fun p =>
          (p.bucket (getTypeInfo (GoType.ptr testStructType)) "Name" (Scalar.str "Alice"),
            p.QueryByIndex (GoType.ptr testStructType) "Name" (Scalar.str "Alice")))
        = some ([], []) := by
  decide

/-- For every store state with no index on `(T, F)`, `T` not a pointer type:
when `CreateIndex(T, F)` returns, the store is unchanged and, for every `x`,
the bucket of `x` in the new index is a duplicate-free list of exactly the
keys already stored whose record has type `T` and field `F` equal to `x`;
`QueryByIndex(T, F, x)` returns the records stored at these keys. -/
theorem createIndex_populates (pl pl' : PrevalenceLayer) (structType : GoType) (F : String)
    (hT : ∀ elem, structType ≠ GoType.ptr elem)
    (hnew : (pl.indexAt (getTypeInfo structType) F).isSome = false)
    (h : pl.CreateIndex structType F = some pl') (x : Scalar) :
    pl'.data = pl.data ∧
      ∃ keys : List String, keys.Nodup ∧
        (∀ k, k ∈ keys ↔
          ∃ v, pl.data.lookup k = some v ∧ TypeOf v = some structType ∧ fieldOf v F = some x) ∧
        pl'.bucket (getTypeInfo structType) F x = keys ∧
        pl'.QueryByIndex structType F x =
          keys.map (fun k => (pl.data.lookup k).getD Value.nil) := by
  have e := CreateIndex_spec h
  have hb : pl'.bucket (getTypeInfo structType) F x = scanKeys pl.data structType F x := by
    rw [bucket_createIndex e]
    simp [hnew]
  refine ⟨e.data, scanKeys pl.data structType F x, scanKeys_nodup _ _ _ _, ?_, hb, ?_⟩
  · intro k
    rw [mem_scanKeys]
    constructor
    · rintro ⟨v, hv, ht, hf⟩
      exact ⟨v, hv, ht, fieldOf_of_indexedField hf⟩
    · rintro ⟨v, hv, ht, hf⟩
      refine ⟨v, hv, ht, ?_⟩
      rw [indexedField_of_typeOf F ht hT]
      exact hf
  · rw [QueryByIndex_eq, hb, e.data]

theorem createIndex_populates_witness :
    ∃ pl', unindexedLayer.CreateIndex testStructType "Name" = some pl' ∧
      pl'.QueryByIndex testStructType "Name" (Scalar.str "Alice") = [testStruct 1 "Alice"] ∧
      pl'.data = unindexedLayer.data ∧
      ∃ keys : List String, keys.Nodup ∧
        (∀ k, k ∈ keys ↔ ∃ v, unindexedLayer.data.lookup k = some v ∧
          TypeOf v = some testStructType ∧ fieldOf v "Name" = some (Scalar.str "Alice")) ∧
        pl'.bucket (getTypeInfo testStructType) "Name" (Scalar.str "Alice") = keys ∧
        pl'.QueryByIndex testStructType "Name" (Scalar.str "Alice") =
          keys.map (fun k => (unindexedLayer.data.lookup k).getD Value.nil) :=
  have hs : (unindexedLayer.CreateIndex testStructType "Name").isSome = true := by decide
  have h := (Option.some_get hs).symm
  ⟨Option.get _ hs, h, rfl,
    createIndex_populates unindexedLayer _ testStructType "Name"
      (fun elem he => by cases he) (by decide) h (Scalar.str "Alice")⟩

/-! ## Persistence round trip (C10) -/

theorem append_ne_self (s t : String) (h : 0 < t.length) : s ++ t ≠ s := by
  intro e
  have := congrArg String.length e
  rw [String.length_append] at this
  omega

theorem append_ne_append (s t u : String) (h : t.length ≠ u.length) : s ++ t ≠ s ++ u := by
  intro e
  have := congrArg String.length e
  rw [String.length_append, String.length_append] at this
  omega

theorem save_ok (gob : Codec) (os : Faults) (pl : PrevalenceLayer) (d : Disk) (bd bi : Bytes)
    (hfile : pl.indexFile = pl.filename ++ ".index")
    (hed : gob.encodeData pl.data = some bd) (hei : gob.encodeIndexes pl.indexes = some bi)
    (hcreate : ∀ p, os.create p = false) (hrename : ∀ p q, os.rename p q = false) :
    (pl.save gob os d).2 = none ∧ (pl.save gob os d).1 pl.filename = some bd ∧
      (pl.save gob os d).1 (pl.filename ++ ".index") = some bi := by
  have n1 : pl.filename ++ ".index" ++ ".tmp" ≠ pl.filename ++ ".tmp" := by
    rw [String.append_assoc]
    exact append_ne_append _ _ _ (by decide)
  have n2 : pl.filename ++ ".index" ++ ".tmp" ≠ pl.filename := by
    rw [String.append_assoc]
    exact append_ne_self _ _ (by decide)
  have n3 : pl.filename ≠ pl.filename ++ ".index" := fun e =>
    append_ne_self _ _ (by decide) e.symm
  have n4 : pl.filename ++ ".index" ≠ pl.filename := append_ne_self _ _ (by decide)
  have n5 : pl.filename ≠ pl.filename ++ ".index" ++ ".tmp" := fun e => n2 e.symm
  have n6 : pl.filename ++ ".tmp" ≠ pl.filename ++ ".index" ++ ".tmp" := fun e => n1 e.symm
  unfold PrevalenceLayer.save PrevalenceLayer.saveData PrevalenceLayer.saveIndexes
  simp only [hfile, hcreate, hed, hei, hrename, Disk.write, Disk.rename, Bool.false_eq_true,
    if_false, if_true, false_or, n1, n2, n3, n4, n5, n6, reduceCtorEq]
  simp

theorem open_ok (gob : Codec) (os : Faults) (d : Disk) (filename : String) (bd bi : Bytes)
    (data : GoMap String Value) (indexes : GoMap TypeInfo (GoMap String Index))
    (hd : d filename = some bd) (hi : d (filename ++ ".index") = some bi)
    (hdd : gob.decodeData bd = some data) (hdi : gob.decodeIndexes bi = some indexes)
    (hopen : ∀ p, os.open_ p = false) :
    NewPrevalenceLayer gob os d filename =
      some (Except.ok (loadedLayer filename data indexes), d) := by
  unfold NewPrevalenceLayer loadedLayer PrevalenceLayer.load PrevalenceLayer.loadData
    PrevalenceLayer.loadIndexes
  simp only [hopen, hd, hi, hdd, hdi, Bool.false_eq_true, if_false]

/-- C10: persistence round trip.  Let the codec round-trip on the records and
on the indexes of a layer whose index file is the one derived from its file
name (as for every layer built by `NewPrevalenceLayer`), and let no file
operation fail.  Then `save` returns no error, and a new layer opened on the
same path afterwards returns the same `Get` result for every key and the
same `QueryByIndex` result for every type, field and value. -/
theorem save_then_open (gob : Codec) (os os' : Faults) (pl : PrevalenceLayer) (d : Disk)
    (bd bi : Bytes) (hfile : pl.indexFile = pl.filename ++ ".index")
    (hed : gob.encodeData pl.data = some bd) (hdd : gob.decodeData bd = some pl.data)
    (hei : gob.encodeIndexes pl.indexes = some bi)
    (hdi : gob.decodeIndexes bi = some pl.indexes)
    (hcreate : ∀ p, os.create p = false) (hrename : ∀ p q, os.rename p q = false)
    (hopen : ∀ p, os'.open_ p = false) :
    (pl.save gob os d).2 = none ∧
      ∃ pl2 d2, NewPrevalenceLayer gob os' (pl.save gob os d).1 pl.filename =
          some (Except.ok pl2, d2) ∧
        (∀ k, pl2.Get k = pl.Get k) ∧
        ∀ structType F x, pl2.QueryByIndex structType F x = pl.QueryByIndex structType F x := by
  obtain ⟨h1, h2, h3⟩ := save_ok gob os pl d bd bi hfile hed hei hcreate hrename
  refine ⟨h1, _, _, open_ok gob os' _ pl.filename bd bi pl.data pl.indexes h2 h3 hdd hdi hopen,
    fun _ => rfl, fun _ _ _ => rfl⟩

theorem save_then_open_witness :
    (indexedLayer.save (fixedCodec indexedLayer.data indexedLayer.indexes) noFaults noFiles).2
        = none ∧
      ∃ pl2 d2, NewPrevalenceLayer (fixedCodec indexedLayer.data indexedLayer.indexes) noFaults
          (indexedLayer.save (fixedCodec indexedLayer.data indexedLayer.indexes) noFaults
            noFiles).1 indexedLayer.filename = some (Except.ok pl2, d2) ∧
        (∀ k, pl2.Get k = indexedLayer.Get k) ∧
        ∀ structType F x,
          pl2.QueryByIndex structType F x = indexedLayer.QueryByIndex structType F x :=
  save_then_open (fixedCodec indexedLayer.data indexedLayer.indexes) noFaults noFaults
    indexedLayer noFiles [1] [2] (by decide) rfl rfl rfl rfl (fun _ => rfl) (fun _ _ => rfl)
    (fun _ => rfl)

/-! ## Queries (C15, C16, C17, C19) and enqueueing (C18) -/

/-- C15 fails as stated: in `staleLayer` the bucket of "Bob" lists key "1",
which is absent from the store; `QueryByIndex` does not skip it but returns
one entry, the nil value, so the result has length 1 while no bucket key is
present in the store. -/
theorem queryByIndex_returns_nil_for_absent_key :
    staleLayer.bucket (getTypeInfo testStructType) "Name" (Scalar.str "Bob") = ["1"] ∧
      staleLayer.Get "1" = (Value.nil, false) ∧
      staleLayer.QueryByIndex testStructType "Name" (Scalar.str "Bob") = [Value.nil] := by
  decide

/-- C15, amended: for every layer state, including states where a bucket
lists a key that is absent from the store, `QueryByIndex` returns one entry
per key of the bucket, in bucket order: the stored value for a key that is
present and the nil value for a key that is absent; the result length
equals the number of keys of the bucket, and no error is raised. -/
theorem queryByIndex_entries (pl : PrevalenceLayer) (structType : GoType) (F : String)
    (x : Scalar) :
    pl.QueryByIndex structType F x =
        (pl.bucket (getTypeInfo structType) F x).map
          (fun k => match pl.data.lookup k with
            | some v => v
            | none => Value.nil) ∧
      (pl.QueryByIndex structType F x).length = (pl.bucket (getTypeInfo structType) F x).length := by
  have h : pl.QueryByIndex structType F x =
      (pl.bucket (getTypeInfo structType) F x).map
        (fun k => match pl.data.lookup k with
          | some v => v
          | none => Value.nil) := by
    rw [QueryByIndex_eq]
    apply List.map_congr_left
    intro k _
    cases pl.data.lookup k <;> rfl
  exact ⟨h, by rw [h, List.length_map]⟩

/-- C16: for every store state and predicate, `Query` returns the values
stored at a duplicate-free list of keys, which are exactly the keys whose
value satisfies the predicate: one result per such key, so the result
length is the number of such keys, and a value is returned exactly when it
is stored and satisfies the predicate.  `Query` only reads the layer. -/
theorem query_exact (pl : PrevalenceLayer) (p : Value → Bool) :
    ∃ keys : List String, keys.Nodup ∧
      (∀ k, k ∈ keys ↔ ∃ v, pl.data.lookup k = some v ∧ p v = true) ∧
      pl.Query p = keys.map (fun k => (pl.data.lookup k).getD Value.nil) ∧
      (pl.Query p).length = keys.length ∧
      ∀ v, v ∈ pl.Query p ↔ ∃ k, pl.data.lookup k = some v ∧ p v = true := by
  have hq : pl.Query p =
      ((pl.data.entries.filter (fun e => p e.2)).map (fun e => e.1)).map
        (fun k => (pl.data.lookup k).getD Value.nil) := by
    unfold PrevalenceLayer.Query
    rw [List.map_map]
    apply List.map_congr_left
    intro e he
    have hmem : e ∈ pl.data.entries := (List.mem_filter.mp he).1
    have hl : pl.data.lookup e.1 = some e.2 := AList.mem_lookup_iff.mpr hmem
    simp [hl]
  refine ⟨(pl.data.entries.filter (fun e => p e.2)).map (fun e => e.1), ?_, ?_, hq, ?_, ?_⟩
  · exact List.Nodup.sublist (List.Sublist.map _ (List.filter_sublist _)) pl.data.nodupKeys
  · intro k
    simp only [List.mem_map, List.mem_filter]
    constructor
    · rintro ⟨⟨k0, v⟩, ⟨hmem, hp⟩, rfl⟩
      exact ⟨v, AList.mem_lookup_iff.mpr hmem, hp⟩
    · rintro ⟨v, hv, hp⟩
      exact ⟨⟨k, v⟩, ⟨AList.mem_lookup_iff.mp hv, hp⟩, rfl⟩
  · rw [hq, List.length_map]
  · intro v
    unfold PrevalenceLayer.Query
    simp only [List.mem_map, List.mem_filter]
    constructor
    · rintro ⟨⟨k0, v0⟩, ⟨hmem, hp⟩, rfl⟩
      exact ⟨k0, AList.mem_lookup_iff.mpr hmem, hp⟩
    · rintro ⟨k, hv, hp⟩
      exact ⟨⟨k, v⟩, ⟨AList.mem_lookup_iff.mp hv, hp⟩, rfl⟩

/-- C17: for every layer state, `QueryByIndex(T, F, x)` returns the empty
result whenever no index is registered for the type identity of `T`, or
none for field `F` under it, or the index on `(T, F)` has no bucket for
`x`. -/
theorem queryByIndex_absent (pl : PrevalenceLayer) (structType : GoType) (F : String)
    (x : Scalar)
    (h : (pl.indexes.lookup (getTypeInfo structType)).isSome = false ∨
      (pl.indexAt (getTypeInfo structType) F).isSome = false ∨
      pl.rawBucket (getTypeInfo structType) F x = none) :
    pl.QueryByIndex structType F x = [] := by
  have hr : pl.rawBucket (getTypeInfo structType) F x = none := by
    rcases h with h | h | h
    · unfold PrevalenceLayer.rawBucket PrevalenceLayer.indexAt
      cases hm : pl.indexes.lookup (getTypeInfo structType) with
      | none => rfl
      | some m => rw [hm] at h; cases h
    · unfold PrevalenceLayer.rawBucket
      cases hi : pl.indexAt (getTypeInfo structType) F with
      | none => rfl
      | some i => rw [hi] at h; cases h
    · exact h
  rw [QueryByIndex_eq]
  unfold PrevalenceLayer.bucket
  rw [hr]
  rfl

theorem queryByIndex_absent_witness :
    (emptyLayer "test_artemia.dat").QueryByIndex testStructType "Name" (Scalar.str "Alice") = [] ∧
      indexedLayer.QueryByIndex testStructType "ID" (Scalar.int 1) = [] ∧
      indexedLayer.QueryByIndex testStructType "Name" (Scalar.str "Zoe") = [] :=
  ⟨queryByIndex_absent _ testStructType "Name" (Scalar.str "Alice") (Or.inl rfl),
    queryByIndex_absent indexedLayer testStructType "ID" (Scalar.int 1) (Or.inr (Or.inl rfl)),
    queryByIndex_absent indexedLayer testStructType "Name" (Scalar.str "Zoe")
      (Or.inr (Or.inr rfl))⟩

theorem runOperations_single (op : Op) (pl : PrevalenceLayer) :
    (runOperations [op] pl).map Prod.fst = (op.run pl).map Prod.fst := by
  rw [runOperations_cons]
  cases (op.run pl).map Prod.fst <;> rfl

theorem runOperations_append (ops2 : List Op) : ∀ (ops1 : List Op) (pl : PrevalenceLayer),
    (runOperations (ops1 ++ ops2) pl).map Prod.fst =
      ((runOperations ops1 pl).map Prod.fst).bind
        (fun p => (runOperations ops2 p).map Prod.fst) := by
  intro ops1
  induction ops1 with
  | nil => intro pl; rfl
  | cons op rest ih =>
    intro pl
    rw [List.cons_append, runOperations_cons, runOperations_cons]
    cases (op.run pl).map Prod.fst with
    | none => rfl
    | some p =>
      simp only [Option.some_bind]
      exact ih p

/-- C18: enqueuing is invisible until commit.  `tx.Set(pl, key, value)` and
`tx.Delete(pl, key)` append exactly one pending operation after the earlier
ones, which stay in order, and return the transaction; the layer is the
same, so `Get`, `Query` and `QueryByIndex` return what they returned
before.  The operation takes effect at commit, after the earlier ones: the
layer left by running the extended list is the one left by running the
earlier operations and then the new one. -/
theorem enqueue_is_invisible (pl : PrevalenceLayer) (tx : Transaction) (key : String)
    (value : Value) :
    (enqueueSet pl tx key value).1 = pl ∧
      (enqueueSet pl tx key value).2.operations = tx.operations ++ [Op.set key value] ∧
      (enqueueDelete pl tx key).1 = pl ∧
      (enqueueDelete pl tx key).2.operations = tx.operations ++ [Op.delete key] ∧
      (∀ k, (enqueueSet pl tx key value).1.Get k = pl.Get k ∧
        (enqueueDelete pl tx key).1.Get k = pl.Get k) ∧
      (∀ p, (enqueueSet pl tx key value).1.Query p = pl.Query p ∧
        (enqueueDelete pl tx key).1.Query p = pl.Query p) ∧
      (∀ structType F x,
        (enqueueSet pl tx key value).1.QueryByIndex structType F x =
          pl.QueryByIndex structType F x ∧
        (enqueueDelete pl tx key).1.QueryByIndex structType F x =
          pl.QueryByIndex structType F x) ∧
      (∀ p : PrevalenceLayer,
        (runOperations (enqueueSet pl tx key value).2.operations p).map Prod.fst =
          ((runOperations tx.operations p).map Prod.fst).bind
            (fun q => ((Op.set key value).run q).map Prod.fst)) ∧
      ∀ p : PrevalenceLayer,
        (runOperations (enqueueDelete pl tx key).2.operations p).map Prod.fst =
          ((runOperations tx.operations p).map Prod.fst).bind
            (fun q => ((Op.delete key).run q).map Prod.fst) := by
  refine ⟨rfl, rfl, rfl, rfl, fun _ => ⟨rfl, rfl⟩, fun _ => ⟨rfl, rfl⟩,
    fun _ _ _ => ⟨rfl, rfl⟩, ?_, ?_⟩
  · intro p
    show (runOperations (tx.operations ++ [Op.set key value]) p).map Prod.fst = _
    rw [runOperations_append]
    congr 1
    funext q
    exact runOperations_single _ q
  · intro p
    show (runOperations (tx.operations ++ [Op.delete key]) p).map Prod.fst = _
    rw [runOperations_append]
    congr 1
    funext q
    exact runOperations_single _ q

/-! ## Opening a layer (C12, C13, C14) -/

theorem updateIndexes_no_index (pl : PrevalenceLayer) (key : String) (value : Value)
    (h : pl.indexes = ∅) :
    pl.updateIndexes key value = (TypeOf value).map (fun _ => pl) := by
  unfold PrevalenceLayer.updateIndexes
  cases TypeOf value with
  | none => rfl
  | some t => simp [h]

theorem rebuild_fold (es : List (Σ _ : String, Value)) (pl : PrevalenceLayer)
    (h : pl.indexes = ∅) :
    es.foldlM (fun acc e => acc.updateIndexes e.1 e.2) pl =
      if ∀ e ∈ es, TypeOf e.2 ≠ none then some pl else none := by
  induction es with
  | nil => simp
  | cons e rest ih =>
    rw [List.foldlM_cons, updateIndexes_no_index pl e.1 e.2 h]
    cases ht : TypeOf e.2 with
    | none => simp [ht]
    | some t =>
      simp only [Option.map_some', Option.bind_eq_bind, Option.some_bind]
      rw [ih]
      simp [ht]

theorem rebuildIndexes_spec {gob : Codec} {os : Faults} {pl pl' : PrevalenceLayer} {d d' : Disk}
    (h : pl.rebuildIndexes gob os d = some (pl', d')) :
    pl'.indexes = ∅ ∧ pl'.data = pl.data ∧ pl'.filename = pl.filename ∧
      pl'.indexFile = pl.indexFile := by
  unfold PrevalenceLayer.rebuildIndexes at h
  simp only [] at h
  rw [rebuild_fold _ _ rfl] at h
  by_cases hall : ∀ e ∈ pl.data.entries, TypeOf e.2 ≠ none
  · rw [if_pos hall] at h
    simp only [Option.some.injEq, Prod.mk.injEq] at h
    obtain ⟨rfl, _⟩ := h
    exact ⟨rfl, rfl, rfl, rfl⟩
  · rw [if_neg hall] at h
    cases h

theorem rebuildIndexes_isSome (gob : Codec) (os : Faults) (pl : PrevalenceLayer) (d : Disk)
    (h : ∀ k v, pl.data.lookup k = some v → v ≠ Value.nil) :
    (pl.rebuildIndexes gob os d).isSome = true := by
  unfold PrevalenceLayer.rebuildIndexes
  simp only []
  rw [rebuild_fold _ _ rfl]
  have hall : ∀ e ∈ pl.data.entries, TypeOf e.2 ≠ none := by
    intro e he
    have hl : pl.data.lookup e.1 = some e.2 := AList.mem_lookup_iff.mpr he
    have hv := h e.1 e.2 hl
    cases hv2 : e.2 with
    | nil => exact absurd hv2 hv
    | val p => simp [TypeOf]
    | nilPtr elem => simp [TypeOf]
    | ptr p => simp [TypeOf]
  rw [if_pos hall]
  rfl

theorem load_spec {gob : Codec} {os : Faults} {d : Disk} {filename : String}
    {r : PrevalenceLayer × Disk × Option Error}
    (h : (emptyLayer filename).load gob os d = some r)
    (hdata : ¬ DataUnreadable gob os d filename) :
    r.2.2 = none ∧ Loaded gob os d filename r.1 := by
  have hopen : os.open_ filename = false := by
    cases ho : os.open_ filename with
    | false => rfl
    | true => exact absurd (Or.inl ho) hdata
  unfold PrevalenceLayer.load PrevalenceLayer.loadData emptyLayer at h
  simp only [hopen, Bool.false_eq_true, if_false] at h
  -- the layer after loadData
  have key : ∀ (pl1 : PrevalenceLayer), pl1.data = loadedData gob d filename →
      pl1.filename = filename → pl1.indexFile = filename ++ ".index" →
      (match pl1.loadIndexes gob os d with
        | none => none
        | some (pl2, d2, some _) =>
          match pl2.rebuildIndexes gob os d2 with
          | none => none
          | some (pl3, d3) => some (pl3, d3, none)
        | some (pl2, d2, none) => some (pl2, d2, none)) = some r →
      r.2.2 = none ∧ Loaded gob os d filename r.1 := by
    intro pl1 h1 h2 h3 hr
    unfold PrevalenceLayer.loadIndexes at hr
    rw [h3] at hr
    by_cases ho : os.open_ (filename ++ ".index") = true
    · simp only [ho, if_true] at hr
      cases hb : pl1.rebuildIndexes gob os d with
      | none => simp [hb] at hr
      | some q =>
        obtain ⟨pl3, d3⟩ := q
        simp only [hb, Option.some.injEq] at hr
        subst hr
        obtain ⟨e1, e2, e3, e4⟩ := rebuildIndexes_spec hb
        exact ⟨rfl, e2.trans h1, e3.trans h2, e4.trans h3, fun _ => e1,
          fun _ _ hf => by rw [hf] at ho; cases ho⟩
    · have ho' : os.open_ (filename ++ ".index") = false := by simpa using ho
      simp only [ho', Bool.false_eq_true, if_false] at hr
      cases hf : d (filename ++ ".index") with
      | none =>
        simp only [hf] at hr
        cases hb : pl1.rebuildIndexes gob os d with
        | none => simp [hb] at hr
        | some q =>
          obtain ⟨pl3, d3⟩ := q
          simp only [hb, Option.some.injEq] at hr
          subst hr
          obtain ⟨e1, e2, e3, e4⟩ := rebuildIndexes_spec hb
          exact ⟨rfl, e2.trans h1, e3.trans h2, e4.trans h3, fun _ => e1,
            fun _ _ _ hb2 => by rw [hf] at hb2; cases hb2⟩
      | some bytes =>
        simp only [hf] at hr
        cases hdec : gob.decodeIndexes bytes with
        | none =>
          simp only [hdec] at hr
          cases hb : pl1.rebuildIndexes gob os (osRemove os d (filename ++ ".index")) with
          | none => simp [hb] at hr
          | some q =>
            obtain ⟨pl3, d3⟩ := q
            simp only [hb, Option.some.injEq] at hr
            subst hr
            obtain ⟨e1, e2, e3, e4⟩ := rebuildIndexes_spec hb
            exact ⟨rfl, e2.trans h1, e3.trans h2, e4.trans h3, fun _ => e1,
              fun b ix _ hb2 hd2 => by
                rw [hf] at hb2
                cases hb2
                rw [hdec] at hd2
                cases hd2⟩
        | some ix =>
          simp only [hdec, Option.some.injEq] at hr
          subst hr
          refine ⟨rfl, h1, h2, rfl, ?_, ?_⟩
          · rintro (hu | hu | ⟨b, hb2, hd2⟩)
            · rw [hf] at hu; cases hu
            · rw [ho'] at hu; cases hu
            · rw [hf] at hb2
              cases hb2
              rw [hdec] at hd2
              cases hd2
          · intro b ix2 _ hb2 hd2
            rw [hf] at hb2
            cases hb2
            rw [hdec] at hd2
            cases hd2
            rfl
  cases hfile : d filename with
  | none =>
    simp only [hfile] at h
    exact key _ (by simp [loadedData, hfile]) rfl rfl h
  | some bytes =>
    simp only [hfile] at h
    cases hdec : gob.decodeData bytes with
    | none => exact absurd (Or.inr ⟨bytes, hfile, hdec⟩) hdata
    | some m =>
      simp only [hdec] at h
      exact key _ (by simp [loadedData, hfile, hdec]) rfl rfl h

theorem NewPrevalenceLayer_eq (gob : Codec) (os : Faults) (d : Disk) (filename : String) :
    NewPrevalenceLayer gob os d filename =
      match (emptyLayer filename).load gob os d with
      | none => none
      | some (_, d1, some err) => some (Except.error err, d1)
      | some (pl1, d1, none) => some (Except.ok pl1, d1) := rfl

theorem load_error {gob : Codec} {os : Faults} {d : Disk} {filename : String}
    (h : DataUnreadable gob os d filename) :
    ∃ pl e, (emptyLayer filename).load gob os d = some (pl, d, some e) := by
  unfold PrevalenceLayer.load PrevalenceLayer.loadData emptyLayer
  by_cases ho : os.open_ filename = true
  · simp only [ho, if_true]
    exact ⟨_, _, rfl⟩
  · have ho' : os.open_ filename = false := by simpa using ho
    rcases h with h | ⟨bytes, hb, hdec⟩
    · exact absurd h ho
    · simp only [ho', Bool.false_eq_true, if_false, hb, hdec]
      exact ⟨_, _, rfl⟩

theorem load_isSome {gob : Codec} {os : Faults} {d : Disk} {filename : String}
    (hdata : ¬ DataUnreadable gob os d filename)
    (hnil : ∀ k v, (loadedData gob d filename).lookup k = some v → v ≠ Value.nil) :
    ((emptyLayer filename).load gob os d).isSome = true := by
  have hopen : os.open_ filename = false := by
    cases ho : os.open_ filename with
    | false => rfl
    | true => exact absurd (Or.inl ho) hdata
  unfold PrevalenceLayer.load PrevalenceLayer.loadData emptyLayer
  simp only [hopen, Bool.false_eq_true, if_false]
  have key : ∀ (pl1 : PrevalenceLayer), pl1.data = loadedData gob d filename →
      (match pl1.loadIndexes gob os d with
        | none => none
        | some (pl2, d2, some _) =>
          match pl2.rebuildIndexes gob os d2 with
          | none => none
          | some (pl3, d3) => some (pl3, d3, (none : Option Error))
        | some (pl2, d2, none) => some (pl2, d2, none)).isSome = true := by
    intro pl1 h1
    have hr : ∀ d2, (pl1.rebuildIndexes gob os d2).isSome = true := fun d2 =>
      rebuildIndexes_isSome gob os pl1 d2 (by rw [h1]; exact hnil)
    unfold PrevalenceLayer.loadIndexes
    by_cases ho : os.open_ pl1.indexFile = true
    · simp only [ho, if_true]
      cases hb : pl1.rebuildIndexes gob os d with
      | none => have := hr d; rw [hb] at this; cases this
      | some q => rfl
    · have ho' : os.open_ pl1.indexFile = false := by simpa using ho
      simp only [ho', Bool.false_eq_true, if_false]
      cases hf : d pl1.indexFile with
      | none =>
        simp only []
        cases hb : pl1.rebuildIndexes gob os d with
        | none => have := hr d; rw [hb] at this; cases this
        | some q => rfl
      | some bytes =>
        simp only []
        cases hdec : gob.decodeIndexes bytes with
        | none =>
          simp only []
          cases hb : pl1.rebuildIndexes gob os (osRemove os d pl1.indexFile) with
          | none => have := hr (osRemove os d pl1.indexFile); rw [hb] at this; cases this
          | some q => rfl
        | some ix => rfl
  cases hfile : d filename with
  | none =>
    simp only []
    exact key _ (by simp [loadedData, hfile])
  | some bytes =>
    simp only []
    cases hdec : gob.decodeData bytes with
    | none => exact absurd (Or.inr ⟨bytes, hfile, hdec⟩) hdata
    | some m =>
      simp only []
      exact key _ (by simp [loadedData, hfile, hdec])

theorem open_spec {gob : Codec} {os : Faults} {d d' : Disk} {filename : String}
    {r : Except Error PrevalenceLayer}
    (h : NewPrevalenceLayer gob os d filename = some (r, d')) :
    (DataUnreadable gob os d filename → ∃ e, r = Except.error e) ∧
      (¬ DataUnreadable gob os d filename → ∃ pl, r = Except.ok pl ∧ Loaded gob os d filename pl) := by
  rw [NewPrevalenceLayer_eq] at h
  constructor
  · intro hu
    obtain ⟨pl, e, hl⟩ := load_error hu
    rw [hl] at h
    simp only [Option.some.injEq, Prod.mk.injEq] at h
    exact ⟨e, h.1.symm⟩
  · intro hn
    cases hl : (emptyLayer filename).load gob os d with
    | none => rw [hl] at h; cases h
    | some q =>
      obtain ⟨he, hloaded⟩ := load_spec hl hn
      obtain ⟨pl1, d1, e1⟩ := q
      simp only at he
      subst he
      rw [hl] at h
      simp only [Option.some.injEq, Prod.mk.injEq] at h
      exact ⟨pl1, h.1.symm, hloaded⟩

theorem open_isSome {gob : Codec} {os : Faults} {d : Disk} {filename : String}
    (hnil : ∀ k v, (loadedData gob d filename).lookup k = some v → v ≠ Value.nil) :
    (NewPrevalenceLayer gob os d filename).isSome = true := by
  rw [NewPrevalenceLayer_eq]
  by_cases hu : DataUnreadable gob os d filename
  · obtain ⟨pl, e, hl⟩ := load_error hu
    rw [hl]
    rfl
  · have hs := load_isSome hu hnil
    cases hl : (emptyLayer filename).load gob os d with
    | none => rw [hl] at hs; cases hs
    | some q =>
      obtain ⟨pl1, d1, e1⟩ := q
      cases e1 <;> rfl

/-- C12: `NewPrevalenceLayer` returns an error if and only if the data
artifact cannot be read, that is `os.Open` fails on it for a reason other
than a missing file, or the file is there and does not decode.  No condition
of the index artifact is involved: whenever the data artifact is readable
the call returns a layer, and that layer holds the records loaded from the
data artifact.  The call returns (it does not panic) whenever no loaded
record is the nil value. -/
theorem open_error_iff (gob : Codec) (os : Faults) (d : Disk) (filename : String) :
    (∀ r d', NewPrevalenceLayer gob os d filename = some (r, d') →
        ((∃ e, r = Except.error e) ↔ DataUnreadable gob os d filename) ∧
        ∀ pl, r = Except.ok pl → pl.data = loadedData gob d filename) ∧
      ((∀ k v, (loadedData gob d filename).lookup k = some v → v ≠ Value.nil) →
        (NewPrevalenceLayer gob os d filename).isSome = true) := by
  refine ⟨?_, open_isSome⟩
  intro r d' h
  obtain ⟨h1, h2⟩ := open_spec h
  refine ⟨⟨?_, h1⟩, ?_⟩
  · rintro ⟨e, rfl⟩
    by_contra hn
    obtain ⟨pl, hpl, _⟩ := h2 hn
    cases hpl
  · intro pl hpl
    by_cases hu : DataUnreadable gob os d filename
    · obtain ⟨e, he⟩ := h1 hu
      rw [hpl] at he
      cases he
    · obtain ⟨pl', hpl', hl⟩ := h2 hu
      rw [hpl] at hpl'
      cases hpl'
      exact hl.dataEq

theorem open_error_iff_witness :
    ∃ r d', NewPrevalenceLayer (corruptIndexCodec unindexedLayer.data) noFaults bothFilesDisk
        "test_artemia.dat" = some (r, d') ∧
      (¬ ∃ e, r = Except.error e) ∧
      ∀ pl, r = Except.ok pl → pl.data = unindexedLayer.data :=
  have hs : (NewPrevalenceLayer (corruptIndexCodec unindexedLayer.data) noFaults bothFilesDisk
      "test_artemia.dat").isSome = true :=
    (open_error_iff (corruptIndexCodec unindexedLayer.data) noFaults bothFilesDisk
      "test_artemia.dat").2 (fun k v hv hnil => by
        have hall : ∀ e ∈ (loadedData (corruptIndexCodec unindexedLayer.data) bothFilesDisk
            "test_artemia.dat").entries, e.2 ≠ Value.nil := by decide
        exact hall ⟨k, v⟩ (AList.mem_lookup_iff.mp hv) hnil)
  have h := (Option.some_get hs).symm
  have hu : ¬ DataUnreadable (corruptIndexCodec unindexedLayer.data) noFaults bothFilesDisk
      "test_artemia.dat" := by
    rintro (h1 | ⟨bytes, _, h2⟩)
    · cases h1
    · cases h2
  ⟨(Option.get _ hs).1, (Option.get _ hs).2, h,
    fun he => hu (((open_error_iff _ _ _ _).1 _ _ h).1.mp he),
    ((open_error_iff _ _ _ _).1 _ _ h).2⟩

/-- C13: when the index artifact is missing, cannot be opened or does not
decode at open, the layer returned by `NewPrevalenceLayer` has no index at
all, whatever records were loaded: no index is registered for any type
identity and field, and `QueryByIndex` returns the empty result for every
type, field and value.  This is what `rebuildIndexes` yields on every
layer: no index, the records unchanged. -/
theorem open_without_index_is_empty (gob : Codec) (os : Faults) (d d' : Disk)
    (filename : String) (pl : PrevalenceLayer)
    (h : NewPrevalenceLayer gob os d filename = some (Except.ok pl, d'))
    (hidx : IndexUnusable gob os d filename) :
    pl.indexes = ∅ ∧ pl.data = loadedData gob d filename ∧
      (∀ ti F, (pl.indexAt ti F).isSome = false) ∧
      (∀ structType F x, pl.QueryByIndex structType F x = []) ∧
      ∀ (pl0 pl1 : PrevalenceLayer) (d0 d1 : Disk),
        pl0.rebuildIndexes gob os d0 = some (pl1, d1) → pl1.indexes = ∅ ∧ pl1.data = pl0.data := by
  obtain ⟨h1, h2⟩ := open_spec h
  have hu : ¬ DataUnreadable gob os d filename := by
    intro hu
    obtain ⟨e, he⟩ := h1 hu
    cases he
  obtain ⟨pl', hpl', hl⟩ := h2 hu
  cases hpl'
  have he : pl.indexes = ∅ := hl.noIndex hidx
  have hi : ∀ ti F, (pl.indexAt ti F).isSome = false := by
    intro ti F
    unfold PrevalenceLayer.indexAt
    rw [he]
    rfl
  refine ⟨he, hl.dataEq, hi, ?_, ?_⟩
  · intro structType F x
    rw [QueryByIndex_eq]
    unfold PrevalenceLayer.bucket PrevalenceLayer.rawBucket
    cases hx : pl.indexAt (getTypeInfo structType) F with
    | none => rfl
    | some i => have := hi (getTypeInfo structType) F; rw [hx] at this; cases this
  · intro pl0 pl1 d0 d1 hr
    exact ⟨(rebuildIndexes_spec hr).1, (rebuildIndexes_spec hr).2.1⟩

theorem open_without_index_is_empty_witness :
    ∃ pl d', NewPrevalenceLayer (readOnlyCodec indexedLayer.data indexedLayer.indexes) noFaults
        dataOnlyDisk "test_artemia.dat" = some (Except.ok pl, d') ∧
      pl.Get "1" = (testStruct 1 "Alice", true) ∧
      pl.indexes = ∅ ∧
      pl.QueryByIndex testStructType "Name" (Scalar.str "Alice") = [] :=
  have hs : (NewPrevalenceLayer (readOnlyCodec indexedLayer.data indexedLayer.indexes) noFaults
      dataOnlyDisk "test_artemia.dat").isSome = true := by decide
  have hr : (Option.get _ hs).1 = Except.ok (loadedLayer "test_artemia.dat" indexedLayer.data ∅) :=
    rfl
  have h : NewPrevalenceLayer (readOnlyCodec indexedLayer.data indexedLayer.indexes) noFaults
      dataOnlyDisk "test_artemia.dat" =
      some (Except.ok (loadedLayer "test_artemia.dat" indexedLayer.data ∅),
        (Option.get _ hs).2) := by
    rw [← hr]
    exact (Option.some_get hs).symm
  have hw := open_without_index_is_empty _ _ _ _ _ _ h (Or.inl rfl)
  ⟨_, _, h, rfl, hw.1, hw.2.2.2.1 testStructType "Name" (Scalar.str "Alice")⟩

/-- C14: first run.  When no data artifact exists at the path (`os.Open`
reports a missing file), `NewPrevalenceLayer` returns a layer and no error,
whatever the state of the index artifact, and the record store of that layer
is empty: `Get` reports not found for every key and `Query` returns no value
for every predicate. -/
theorem first_run_is_empty (gob : Codec) (os : Faults) (d : Disk) (filename : String)
    (hmissing : d filename = none) (hopen : os.open_ filename = false) :
    ∃ pl d', NewPrevalenceLayer gob os d filename = some (Except.ok pl, d') ∧
      pl.data = ∅ ∧ (∀ k, pl.Get k = (Value.nil, false)) ∧ ∀ p, pl.Query p = [] := by
  have hld : loadedData gob d filename = ∅ := by simp [loadedData, hmissing]
  have hu : ¬ DataUnreadable gob os d filename := by
    rintro (h1 | ⟨bytes, h2, _⟩)
    · rw [hopen] at h1; cases h1
    · rw [hmissing] at h2; cases h2
  have hs : (NewPrevalenceLayer gob os d filename).isSome = true :=
    open_isSome (fun k v hv => by rw [hld] at hv; cases hv)
  cases hn : NewPrevalenceLayer gob os d filename with
  | none => rw [hn] at hs; cases hs
  | some q =>
    obtain ⟨r, d'⟩ := q
    obtain ⟨pl, hpl, hl⟩ := (open_spec hn).2 hu
    subst hpl
    have hdata : pl.data = ∅ := hl.dataEq.trans hld
    refine ⟨pl, d', rfl, hdata, ?_, ?_⟩
    · intro k
      unfold PrevalenceLayer.Get
      rw [hdata]
      rfl
    · intro p
      unfold PrevalenceLayer.Query
      rw [hdata]
      rfl

theorem first_run_is_empty_witness :
    ∃ pl d', NewPrevalenceLayer writeOnlyCodec noFaults noFiles "test_artemia.dat" =
        some (Except.ok pl, d') ∧
      pl.data = ∅ ∧ (∀ k, pl.Get k = (Value.nil, false)) ∧ ∀ p, pl.Query p = [] :=
  first_run_is_empty writeOnlyCodec noFaults noFiles "test_artemia.dat" rfl rfl

/-! ## Failure of a snapshot save (C11) -/

theorem saveData_other (gob : Codec) (os : Faults) (pl : PrevalenceLayer) (d : Disk)
    (p q : String) (h : q ≠ p) : (pl.saveData gob os d p).1 q = d q := by
  unfold PrevalenceLayer.saveData
  split
  · rfl
  · split <;> simp [Disk.write, h]

theorem saveIndexes_other (gob : Codec) (os : Faults) (pl : PrevalenceLayer) (d : Disk)
    (p q : String) (h : q ≠ p) : (pl.saveIndexes gob os d p).1 q = d q := by
  unfold PrevalenceLayer.saveIndexes
  split
  · rfl
  · split <;> simp [Disk.write, h]

theorem osRemove_other (os : Faults) (d : Disk) (p q : String) (h : q ≠ p) :
    osRemove os d p q = d q := by
  unfold osRemove
  split
  · rfl
  · simp [Disk.remove, h]

theorem save_failure (gob : Codec) (os : Faults) (pl : PrevalenceLayer) (d : Disk)
    (hfile : pl.indexFile = pl.filename ++ ".index")
    (hfail : (pl.saveData gob os d (pl.filename ++ ".tmp")).2 ≠ none ∨
      (pl.saveIndexes gob os (pl.saveData gob os d (pl.filename ++ ".tmp")).1
        (pl.indexFile ++ ".tmp")).2 ≠ none) :
    (pl.save gob os d).2 ≠ none ∧ (pl.save gob os d).1 pl.filename = d pl.filename ∧
      (pl.save gob os d).1 pl.indexFile = d pl.indexFile := by
  have n1 : pl.filename ≠ pl.filename ++ ".tmp" := fun e =>
    append_ne_self _ _ (by decide) e.symm
  have n2 : pl.indexFile ≠ pl.filename ++ ".tmp" := by
    rw [hfile]
    exact append_ne_append _ _ _ (by decide)
  have n3 : pl.filename ≠ pl.indexFile ++ ".tmp" := by
    rw [hfile, String.append_assoc]
    exact fun e => append_ne_self _ _ (by decide) e.symm
  have n4 : pl.indexFile ≠ pl.indexFile ++ ".tmp" := fun e =>
    append_ne_self _ _ (by decide) e.symm
  unfold PrevalenceLayer.save
  simp only []
  cases h1 : pl.saveData gob os d (pl.filename ++ ".tmp") with
  | mk d1 e1 =>
    have hd1 : ∀ q, q ≠ pl.filename ++ ".tmp" → d1 q = d q := by
      intro q hq
      have := saveData_other gob os pl d (pl.filename ++ ".tmp") q hq
      rw [h1] at this
      exact this
    cases e1 with
    | some err =>
      simp only []
      exact ⟨by simp, hd1 _ n1, hd1 _ n2⟩
    | none =>
      simp only []
      rw [h1] at hfail
      cases h2 : pl.saveIndexes gob os d1 (pl.indexFile ++ ".tmp") with
      | mk d2 e2 =>
        have hd2 : ∀ q, q ≠ pl.indexFile ++ ".tmp" → d2 q = d1 q := by
          intro q hq
          have := saveIndexes_other gob os pl d1 (pl.indexFile ++ ".tmp") q hq
          rw [h2] at this
          exact this
        cases e2 with
        | some err =>
          simp only []
          refine ⟨by simp, ?_, ?_⟩
          · rw [osRemove_other _ _ _ _ n1, hd2 _ n3, hd1 _ n1]
          · rw [osRemove_other _ _ _ _ n2, hd2 _ n4, hd1 _ n2]
        | none =>
          rw [h2] at hfail
          simp at hfail

/-- C11: over an explicit disk state, for a layer whose index file is the
one derived from its file name: if a serialization step of `save` fails,
the writing of the temporary data file or the writing of the temporary index
file, then `save` returns an error and the live data artifact and the live
index artifact have exactly the contents they had before the call; so a live
file differs after the call only if both temporary writes succeeded. -/
theorem save_failure_keeps_live_files (gob : Codec) (os : Faults) (pl : PrevalenceLayer)
    (d : Disk) (hfile : pl.indexFile = pl.filename ++ ".index") :
    (((pl.saveData gob os d (pl.filename ++ ".tmp")).2 ≠ none ∨
        (pl.saveIndexes gob os (pl.saveData gob os d (pl.filename ++ ".tmp")).1
          (pl.indexFile ++ ".tmp")).2 ≠ none) →
      (pl.save gob os d).2 ≠ none ∧ (pl.save gob os d).1 pl.filename = d pl.filename ∧
        (pl.save gob os d).1 pl.indexFile = d pl.indexFile) ∧
      (((pl.save gob os d).1 pl.filename ≠ d pl.filename ∨
          (pl.save gob os d).1 pl.indexFile ≠ d pl.indexFile) →
        (pl.saveData gob os d (pl.filename ++ ".tmp")).2 = none ∧
        (pl.saveIndexes gob os (pl.saveData gob os d (pl.filename ++ ".tmp")).1
          (pl.indexFile ++ ".tmp")).2 = none) := by
  refine ⟨save_failure gob os pl d hfile, ?_⟩
  intro hchanged
  by_contra hn
  have hfail : (pl.saveData gob os d (pl.filename ++ ".tmp")).2 ≠ none ∨
      (pl.saveIndexes gob os (pl.saveData gob os d (pl.filename ++ ".tmp")).1
        (pl.indexFile ++ ".tmp")).2 ≠ none := by
    by_contra hc
    push_neg at hc
    exact hn hc
  obtain ⟨_, h1, h2⟩ := save_failure gob os pl d hfile hfail
  rcases hchanged with h | h
  · exact h h1
  · exact h h2

theorem save_failure_keeps_live_files_witness :
    (indexedLayer.save (readOnlyCodec indexedLayer.data indexedLayer.indexes) noFaults
        bothFilesDisk).2 = some Error.encodeIndexes ∧
      (indexedLayer.save (readOnlyCodec indexedLayer.data indexedLayer.indexes) noFaults
        bothFilesDisk).1 "test_artemia.dat" = some [1] ∧
      (indexedLayer.save (readOnlyCodec indexedLayer.data indexedLayer.indexes) noFaults
        bothFilesDisk).1 "test_artemia.dat.index" = some [2] ∧
      (indexedLayer.save failingCodec noFaults bothFilesDisk).2 = some Error.encodeData ∧
      (indexedLayer.save failingCodec noFaults bothFilesDisk).1 "test_artemia.dat" = some [1] ∧
      (indexedLayer.save failingCodec noFaults bothFilesDisk).1 "test_artemia.dat.index"
        = some [2] :=
  have h1 := (save_failure_keeps_live_files
    (readOnlyCodec indexedLayer.data indexedLayer.indexes) noFaults indexedLayer bothFilesDisk
    (by decide)).1 (Or.inr (by decide))
  have h2 := (save_failure_keeps_live_files failingCodec noFaults indexedLayer bothFilesDisk
    (by decide)).1 (Or.inl (by decide))
  ⟨by decide, h1.2.1.trans (by decide), h1.2.2.trans (by decide),
    by decide, h2.2.1.trans (by decide), h2.2.2.trans (by decide)⟩

/-! ## Effect of `removeFromIndexes` on the indexes (C24) -/

theorem removeFromIndex_fieldName {pl pl' : PrevalenceLayer} {ti : TypeInfo} {f key : String}
    {value : Value} (h : pl.removeFromIndex ti f key value = some pl') (ti' : TypeInfo)
    (F' : String) :
    (pl'.indexAt ti' F').map Index.FieldName = (pl.indexAt ti' F').map Index.FieldName := by
  unfold PrevalenceLayer.removeFromIndex at h
  cases hf : (derefValue value).FieldByName f with
  | none => simp [hf] at h
  | some o =>
    cases o with
    | none =>
      simp only [hf] at h
      cases h
      rfl
    | some fld =>
      simp only [hf] at h
      cases hI : fld.Interface with
      | none => simp [hI] at h
      | some fv =>
      simp only [hI] at h
      cases hi : pl.indexAt ti f with
      | none => simp [hi] at h
      | some index =>
        simp only [hi] at h
        have key1 : ∀ d : GoMap Scalar (List String),
            ((pl.setIndexData ti f d).indexAt ti' F').map Index.FieldName =
              (pl.indexAt ti' F').map Index.FieldName := by
          intro d
          rw [indexAt_setIndexData hi]
          by_cases hc : ti' = ti ∧ F' = f
          · obtain ⟨rfl, rfl⟩ := hc
            simp [hi]
          · simp only [hc, if_false]
        cases hk : index.Data.lookup fv with
        | none =>
          simp only [hk] at h
          cases h
          rfl
        | some keys =>
          simp only [hk] at h
          by_cases hcap : (keys.length : Int) - 1 < 0
          · simp [hcap] at h
          simp only [hcap, if_false] at h
          by_cases hlen : (keys.filter (fun k => k ≠ key)).length > 0
          · simp only [hlen, if_true] at h
            cases h
            exact key1 _
          · simp only [hlen, if_false] at h
            cases h
            exact key1 _

theorem removeFromIndexes_fieldName {pl pl' : PrevalenceLayer} {key : String} {value : Value}
    (h : pl.removeFromIndexes key value = some pl') (ti' : TypeInfo) (F' : String) :
    (pl'.indexAt ti' F').map Index.FieldName = (pl.indexAt ti' F').map Index.FieldName := by
  unfold PrevalenceLayer.removeFromIndexes at h
  cases ht : TypeOf value with
  | none => simp [ht] at h
  | some t =>
    simp only [ht] at h
    cases hm : pl.indexes.lookup (getTypeInfo t) with
    | none =>
      simp only [hm] at h
      cases h
      rfl
    | some indexes =>
      simp only [hm] at h
      have loop : ∀ (fs : List String) (p p' : PrevalenceLayer),
          fs.foldlM (fun acc field => acc.removeFromIndex (getTypeInfo t) field key value) p =
            some p' →
          (p'.indexAt ti' F').map Index.FieldName = (p.indexAt ti' F').map Index.FieldName := by
        intro fs
        induction fs with
        | nil =>
          intro p p' hp
          simp only [List.foldlM_nil] at hp
          cases hp
          rfl
        | cons f rest ih =>
          intro p p' hp
          rw [List.foldlM_cons] at hp
          obtain ⟨p1, h1, h2⟩ := Option.bind_eq_some.mp hp
          exact (ih p1 p' h2).trans (removeFromIndex_fieldName h1 ti' F')
      exact loop indexes.keys pl pl' h

/-- C24: whenever `removeFromIndexes(k, old)` returns, the record store is
unchanged, the same indexes exist with the same field names, and a bucket
differs from before only if it is the bucket of `old`'s value of field `F`
in an index on `(type identity of old, F)`: that bucket then holds its
former keys other than `k` in their former order, or is absent from the
index when no other key remained. -/
theorem removeFromIndexes_effect (pl pl' : PrevalenceLayer) (k : String) (old : Value)
    (h : pl.removeFromIndexes k old = some pl') :
    pl'.data = pl.data ∧
      (∀ ti F, (pl'.indexAt ti F).map Index.FieldName = (pl.indexAt ti F).map Index.FieldName) ∧
      ∀ ti F x, pl'.rawBucket ti F x =
        if typeInfoOf old = some ti ∧ fieldOf old F = some x then
          match pl.rawBucket ti F x with
          | some keys =>
            if keys.filter (fun k' => k' ≠ k) = [] then none
            else some (keys.filter (fun k' => k' ≠ k))
          | none => none
        else pl.rawBucket ti F x := by
  have s := removeFromIndexes_spec h
  refine ⟨s.1.data, fun ti F => removeFromIndexes_fieldName h ti F, ?_⟩
  intro ti F x
  rw [s.2 ti F x]
  by_cases hc : typeInfoOf old = some ti ∧ fieldOf old F = some x
  · simp only [hc, and_self, if_true]
    cases hb : pl.rawBucket ti F x with
    | none => rfl
    | some keys =>
      simp only [dropKey]
      by_cases he : keys.filter (fun k' => k' ≠ k) = []
      · rw [if_pos he, he]
        rfl
      · have : (keys.filter (fun k' => k' ≠ k)).length > 0 := List.length_pos.mpr he
        simp only [this, if_true, he, if_false]
  · simp only [hc, if_false]

theorem removeFromIndexes_effect_witness :
    ∃ pl', indexedLayer.removeFromIndexes "1" (testStruct 1 "Alice") = some pl' ∧
      pl'.data = indexedLayer.data ∧
      indexedLayer.rawBucket { PkgPath := "artemia", Name := "TestStruct" } "Name"
        (Scalar.str "Alice") = some ["1"] ∧
      pl'.rawBucket { PkgPath := "artemia", Name := "TestStruct" } "Name"
        (Scalar.str "Alice") = none :=
  have hs : (indexedLayer.removeFromIndexes "1" (testStruct 1 "Alice")).isSome = true := by
    decide
  have h := (Option.some_get hs).symm
  ⟨Option.get _ hs, h, (removeFromIndexes_effect _ _ _ _ h).1, rfl, rfl⟩

/-! ## Frame of `Set` and `Delete` (C27) -/

theorem get_congr {pl pl' : PrevalenceLayer} {k : String}
    (h : pl'.data.lookup k = pl.data.lookup k) : pl'.Get k = pl.Get k := by
  unfold PrevalenceLayer.Get
  rw [h]

/-- C27: for every layer and keys `k' ≠ k`, when `Set(k, v)` returns, and
likewise when `Delete(k)` returns, `Get(k')` gives what it gave before, the
same `(type identity, field)` pairs have an index, and `k'` is listed in a
bucket after the call exactly if it was listed in that bucket before. -/
theorem set_delete_frame (gob : Codec) (os : Faults) (pl : PrevalenceLayer) (d : Disk)
    (k k' : String) (v : Value) (hne : k' ≠ k) :
    (∀ out, pl.Set gob os d k v = some out →
      out.pl.Get k' = pl.Get k' ∧
      (∀ ti F, (out.pl.indexAt ti F).isSome = (pl.indexAt ti F).isSome) ∧
      ∀ ti F x, k' ∈ out.pl.bucket ti F x ↔ k' ∈ pl.bucket ti F x) ∧
    (∀ out, pl.Delete gob os d k = some out →
      out.pl.Get k' = pl.Get k' ∧
      (∀ ti F, (out.pl.indexAt ti F).isSome = (pl.indexAt ti F).isSome) ∧
      ∀ ti F x, k' ∈ out.pl.bucket ti F x ↔ k' ∈ pl.bucket ti F x) := by
  constructor
  · intro out h
    have e := Set_effect h
    refine ⟨get_congr ?_, e.fields, ?_⟩
    · rw [e.data, lookup_insert_string, if_neg hne]
    · intro ti F x
      unfold PrevalenceLayer.bucket
      rw [e.bucket, mem_addStage, mem_dropStage]
      constructor
      · rintro (⟨hm, _⟩ | ⟨hk, _⟩)
        · exact hm
        · exact absurd hk hne
      · intro hm
        exact Or.inl ⟨hm, fun hk => hne hk.1⟩
  · intro out h
    have e := Delete_effect h
    refine ⟨get_congr ?_, e.fields, ?_⟩
    · rw [e.data, lookup_erase_string, if_neg hne]
    · intro ti F x
      unfold PrevalenceLayer.bucket
      rw [e.bucket, mem_dropStage]
      constructor
      · rintro ⟨hm, _⟩
        exact hm
      · intro hm
        exact ⟨hm, fun hk => hne hk.1⟩

theorem set_delete_frame_witness :
    ∃ out1 out2,
      indexedLayer.Set writeOnlyCodec noFaults noFiles "2" (testStruct 2 "Bob") = some out1 ∧
      indexedLayer.Delete writeOnlyCodec noFaults noFiles "2" = some out2 ∧
      out1.pl.Get "1" = (testStruct 1 "Alice", true) ∧
      out2.pl.Get "1" = (testStruct 1 "Alice", true) ∧
      "1" ∈ out1.pl.bucket { PkgPath := "artemia", Name := "TestStruct" } "Name"
        (Scalar.str "Alice") ∧
      "1" ∈ out2.pl.bucket { PkgPath := "artemia", Name := "TestStruct" } "Name"
        (Scalar.str "Alice") :=
  have hs1 : (indexedLayer.Set writeOnlyCodec noFaults noFiles "2"
      (testStruct 2 "Bob")).isSome = true := by decide
  have hs2 : (indexedLayer.Delete writeOnlyCodec noFaults noFiles "2").isSome = true := by decide
  have h1 := (Option.some_get hs1).symm
  have h2 := (Option.some_get hs2).symm
  have hne : "1" ≠ "2" := by decide
  have t := set_delete_frame writeOnlyCodec noFaults indexedLayer noFiles "2" "1"
    (testStruct 2 "Bob") hne
  ⟨Option.get _ hs1, Option.get _ hs2, h1, h2,
    (t.1 _ h1).1.trans rfl, (t.2 _ h2).1.trans rfl,
    ((t.1 _ h1).2.2 _ _ _).mpr (by decide), ((t.2 _ h2).2.2 _ _ _).mpr (by decide)⟩

/-! ## Panics of `Set` (C22) -/

/-- C22, the code at the failing inputs.  On the layer right after creation
`Set("key1", nil)` panics: `updateIndexes` asks the nil `reflect.Type` for
its package path.  After `CreateIndex(reflect.TypeOf(""), "Name")`, which
returns, `Set("key1", "value1")` panics: `addToIndex` calls `FieldByName`
on a string.  After `CreateIndex(reflect.TypeOf(&TestStruct{}), "Name")`
and `Set("key1", &n)`, which both return, a further `Set("key1", &n)`
panics: `removeFromIndexes` calls `FieldByName` on an int. -/
theorem set_panics :
    (emptyLayer "test_artemia.dat").Set writeOnlyCodec noFaults noFiles "key1" Value.nil = none ∧
    (runCalls writeOnlyCodec [(Call.createIndex stringType "Name", noFaults)]
      { pl := emptyLayer "test_artemia.dat", disk := noFiles }).isSome = true ∧
    runCalls writeOnlyCodec
      [(Call.createIndex stringType "Name", noFaults),
        (Call.set "key1" (stringValue "value1"), noFaults)]
      { pl := emptyLayer "test_artemia.dat", disk := noFiles } = none ∧
    (runCalls writeOnlyCodec
      [(Call.createIndex (GoType.ptr testStructType) "Name", noFaults),
        (Call.set "key1" intPointer, noFaults)]
      { pl := emptyLayer "test_artemia.dat", disk := noFiles }).isSome = true ∧
    runCalls writeOnlyCodec
      [(Call.createIndex (GoType.ptr testStructType) "Name", noFaults),
        (Call.set "key1" intPointer, noFaults),
        (Call.set "key1" intPointer, noFaults)]
      { pl := emptyLayer "test_artemia.dat", disk := noFiles } = none :=
  ⟨rfl, by decide, rfl, by decide, rfl⟩

/-! ## Temporary files after a failed save (C23) -/

/-- C23, the code at the failing inputs, on a disk without files.  When the
encoding of the records fails after the temporary data file was created,
`save` returns that error and the temporary data file exists.  When the
encoding of the indexes fails after the temporary index file was created,
`save` returns that error and has removed the temporary data file, but the
temporary index file exists. -/
theorem save_leaves_temp_file :
    (indexedLayer.save failingCodec noFaults noFiles).2 = some Error.encodeData ∧
    (indexedLayer.save failingCodec noFaults noFiles).1 "test_artemia.dat.tmp" = some [] ∧
    (indexedLayer.save (readOnlyCodec ∅ ∅) noFaults noFiles).2 = some Error.encodeIndexes ∧
    (indexedLayer.save (readOnlyCodec ∅ ∅) noFaults noFiles).1 "test_artemia.dat.tmp" = none ∧
    (indexedLayer.save (readOnlyCodec ∅ ∅) noFaults noFiles).1 "test_artemia.dat.index.tmp" =
      some [] := by
  decide

/-! ## Buckets are never empty lists (C25) -/

theorem addKey_ne_nil {k : String} {b : Option (List String)} {keys : List String}
    (hb : ∀ ks, b = some ks → ks ≠ []) (h : addKey k b = some keys) : keys ≠ [] := by
  cases b with
  | none =>
    simp only [addKey, Option.some.injEq] at h
    subst h
    simp
  | some ks =>
    simp only [addKey] at h
    by_cases hm : k ∈ ks
    · simp only [hm, if_true, Option.some.injEq] at h
      subst h
      exact hb _ rfl
    · simp only [hm, if_false, Option.some.injEq] at h
      subst h
      simp

theorem dropKey_ne_nil {k : String} {b : Option (List String)} {keys : List String}
    (h : dropKey k b = some keys) : keys ≠ [] := by
  cases b with
  | none => simp [dropKey] at h
  | some ks =>
    simp only [dropKey] at h
    by_cases hl : (ks.filter (fun k' => k' ≠ k)).length > 0
    · simp only [hl, if_true, Option.some.injEq] at h
      subst h
      exact List.length_pos.mp hl
    · rw [if_neg hl] at h
      cases h

theorem dropStage_ne_nil {old : Option Value} {k : String} {ti : TypeInfo} {F : String}
    {x : Scalar} {b : Option (List String)} {keys : List String}
    (hb : ∀ ks, b = some ks → ks ≠ []) (h : dropStage old k ti F x b = some keys) :
    keys ≠ [] := by
  unfold dropStage at h
  cases old with
  | none => exact hb _ h
  | some o =>
    simp only at h
    by_cases hc : typeInfoOf o = some ti ∧ fieldOf o F = some x
    · rw [if_pos hc] at h
      exact dropKey_ne_nil h
    · rw [if_neg hc] at h
      exact hb _ h

theorem addStage_ne_nil {v : Value} {k : String} {r : Bool} {ti : TypeInfo} {F : String}
    {x : Scalar} {b : Option (List String)} {keys : List String}
    (hb : ∀ ks, b = some ks → ks ≠ []) (h : addStage v k r ti F x b = some keys) :
    keys ≠ [] := by
  unfold addStage at h
  by_cases hc : typeInfoOf v = some ti ∧ r = true ∧ indexedField ti v F = some x
  · rw [if_pos hc] at h
    exact addKey_ne_nil hb h
  · rw [if_neg hc] at h
    exact hb _ h

theorem SetEffect_nonEmpty {pl pl' : PrevalenceLayer} {key : String} {value : Value}
    (e : SetEffect pl pl' key value) (h : NonEmptyBuckets pl) : NonEmptyBuckets pl' := by
  intro ti F x keys hk
  rw [e.bucket] at hk
  exact addStage_ne_nil (fun ks hks => dropStage_ne_nil (fun ks' h' => h ti F x ks' h') hks) hk

theorem DeleteEffect_nonEmpty {pl pl' : PrevalenceLayer} {key : String}
    (e : DeleteEffect pl pl' key) (h : NonEmptyBuckets pl) : NonEmptyBuckets pl' := by
  intro ti F x keys hk
  rw [e.bucket] at hk
  exact dropStage_ne_nil (fun ks' h' => h ti F x ks' h') hk

theorem CreateIndexEffect_nonEmpty {pl pl' : PrevalenceLayer} {structType : GoType}
    {field : String} (e : CreateIndexEffect pl pl' structType field) (h : NonEmptyBuckets pl) :
    NonEmptyBuckets pl' := by
  intro ti F x keys hk
  rw [e.bucket] at hk
  by_cases hc : ti = getTypeInfo structType ∧ F = field ∧ (pl.indexAt ti F).isSome = false
  · rw [if_pos hc] at hk
    unfold scanBucket at hk
    by_cases hs : scanKeys pl.data structType field x = []
    · simp [hs] at hk
    · simp only [hs, if_false, Option.some.injEq] at hk
      subst hk
      exact hs
  · rw [if_neg hc] at hk
    exact h ti F x keys hk

theorem OpsEffect_nonEmpty : ∀ {ops : List Op} {pl pl' : PrevalenceLayer},
    OpsEffect ops pl pl' → NonEmptyBuckets pl → NonEmptyBuckets pl' := by
  intro ops
  induction ops with
  | nil =>
    intro pl pl' e h
    simp only [OpsEffect] at e
    subst e
    exact h
  | cons op rest ih =>
    intro pl pl' e h
    obtain ⟨pl1, e1, e2⟩ := e
    refine ih e2 ?_
    cases op with
    | set key value => exact SetEffect_nonEmpty e1 h
    | delete key => exact DeleteEffect_nonEmpty e1 h

theorem callEffect_nonEmpty {call : Call} {pl pl' : PrevalenceLayer} (e : CallEffect call pl pl')
    (h : NonEmptyBuckets pl) : NonEmptyBuckets pl' := by
  cases call with
  | createIndex structType field => exact CreateIndexEffect_nonEmpty e h
  | set key value => exact SetEffect_nonEmpty e h
  | delete key => exact DeleteEffect_nonEmpty e h
  | commit tx => exact OpsEffect_nonEmpty e h

theorem nonEmpty_emptyLayer (filename : String) : NonEmptyBuckets (emptyLayer filename) := by
  intro ti F x keys hk
  have : (emptyLayer filename).rawBucket ti F x = none := rfl
  rw [this] at hk
  cases hk

theorem runCalls_nonEmpty (gob : Codec) : ∀ (steps : List (Call × Faults)) (w w' : World),
    runCalls gob steps w = some w' → NonEmptyBuckets w.pl → NonEmptyBuckets w'.pl := by
  intro steps
  induction steps with
  | nil =>
    intro w w' h hn
    simp only [runCalls, Option.some.injEq] at h
    subst h
    exact hn
  | cons step rest ih =>
    intro w w' h hn
    obtain ⟨call, os⟩ := step
    obtain ⟨w1, h1, h2⟩ := runCalls_cons h
    exact ih w1 w' h2 (callEffect_nonEmpty (call_effect h1) hn)

/-- C25: in every state reached from the empty store by calls of
`CreateIndex`, `Set`, `Delete` and `Commit` that return, every bucket present
in an index is a non-empty list of keys, so the capacity `len(keys)-1` that
`removeFromIndexes` computes for it is not negative and the allocation does
not panic. -/
theorem buckets_nonempty (gob : Codec) (steps : List (Call × Faults)) (filename : String)
    (d0 : Disk) (w : World)
    (hrun : runCalls gob steps { pl := emptyLayer filename, disk := d0 } = some w) :
    NonEmptyBuckets w.pl ∧
      ∀ ti F x keys, w.pl.rawBucket ti F x = some keys → ¬ ((keys.length : Int) - 1 < 0) := by
  have hn := runCalls_nonEmpty gob steps _ w hrun (nonEmpty_emptyLayer filename)
  refine ⟨hn, ?_⟩
  intro ti F x keys hk
  have := List.length_pos.mpr (hn ti F x keys hk)
  omega

theorem buckets_nonempty_witness :
    ∃ w,
      runCalls writeOnlyCodec
        [(Call.createIndex testStructType "Name", noFaults),
          (Call.set "1" (testStruct 1 "Alice"), noFaults),
          (Call.set "2" (testStruct 2 "Alice"), noFaults),
          (Call.delete "1", noFaults)]
        { pl := emptyLayer "test_artemia.dat", disk := noFiles } = some w ∧
      w.pl.rawBucket { PkgPath := "artemia", Name := "TestStruct" } "Name"
        (Scalar.str "Alice") = some ["2"] ∧
      NonEmptyBuckets w.pl :=
  have h1 : (runCalls writeOnlyCodec
      [(Call.createIndex testStructType "Name", noFaults),
        (Call.set "1" (testStruct 1 "Alice"), noFaults),
        (Call.set "2" (testStruct 2 "Alice"), noFaults),
        (Call.delete "1", noFaults)]
      { pl := emptyLayer "test_artemia.dat", disk := noFiles }).isSome = true := by decide
  have hrun := (Option.some_get h1).symm
  ⟨Option.get _ h1, hrun, rfl, (buckets_nonempty _ _ _ _ _ hrun).1⟩

/-! ## Replacing a record moves its key between buckets (C21) -/

theorem set_runs_removal {gob : Codec} {os : Faults} {pl : PrevalenceLayer} {d : Disk}
    {key : String} {value old : Value} {out : Outcome} (hold : pl.data.lookup key = some old)
    (h : pl.Set gob os d key value = some out) :
    ∃ pl1, pl.removeFromIndexes key old = some pl1 := by
  have hp := Set_pl gob os pl d key value
  rw [h] at hp
  cases hr : pl.removeFromIndexes key old with
  | some pl1 => exact ⟨pl1, rfl⟩
  | none =>
    have : (Op.set key value).run pl = none := by
      unfold Op.run
      simp only [hold, hr]
    rw [this] at hp
    cases hp

theorem indexAt_of_mem_bucket {pl : PrevalenceLayer} {ti : TypeInfo} {F : String} {x : Scalar}
    {k : String} (h : k ∈ pl.bucket ti F x) : (pl.indexAt ti F).isSome = true := by
  unfold PrevalenceLayer.bucket PrevalenceLayer.rawBucket at h
  cases hi : pl.indexAt ti F with
  | none => simp [hi] at h
  | some index => rfl

/-- C21: in every state reached from the empty store by calls of
`CreateIndex`, `Set`, `Delete` and `Commit` that return, when `Set(key, value)`
returns on a key that held the record `old`, of any type identity and field
values: the removal stage `removeFromIndexes(key, old)` has returned a layer
in which no bucket of any index lists `key`, and after the call `key` is
listed only in indexes registered under the type identity of `value`, and
there only in the bucket of the value of that index's field in `value`. -/
theorem set_replaces_index_entries (gob : Codec) (steps : List (Call × Faults))
    (filename : String) (d0 d : Disk) (w : World) (os : Faults) (key : String)
    (value old : Value) (out : Outcome)
    (hrun : runCalls gob steps { pl := emptyLayer filename, disk := d0 } = some w)
    (hold : w.pl.data.lookup key = some old)
    (hset : w.pl.Set gob os d key value = some out) :
    (∃ pl1, w.pl.removeFromIndexes key old = some pl1 ∧ ∀ ti F x, key ∉ pl1.bucket ti F x) ∧
      ∀ ti F x, key ∈ out.pl.bucket ti F x →
        typeInfoOf value = some ti ∧ (out.pl.indexAt ti F).isSome = true ∧
          indexedField ti value F = some x ∧ fieldOf value F = some x := by
  have hs := (runCalls_sound gob steps _ w hrun
    ⟨sound_emptyLayer filename, noDuplicates_emptyLayer filename⟩).1
  constructor
  · obtain ⟨pl1, hr⟩ := set_runs_removal hold hset
    refine ⟨pl1, hr, ?_⟩
    intro ti F x hm
    have s := (removeFromIndexes_spec hr).2 ti F x
    unfold PrevalenceLayer.bucket at hm
    rw [s] at hm
    by_cases hc : typeInfoOf old = some ti ∧ fieldOf old F = some x
    · rw [if_pos hc] at hm
      exact ((mem_dropKey key key _).mp hm).1 rfl
    · rw [if_neg hc] at hm
      obtain ⟨v, hv, ht, hf⟩ := hs ti F x key hm
      rw [hold] at hv
      cases hv
      exact hc ⟨ht, fieldOf_of_indexedField hf⟩
  · intro ti F x hm
    have e := Set_effect hset
    obtain ⟨v, hv, ht, hf⟩ := SetEffect_sound e hs ti F x key hm
    rw [e.data, AList.lookup_insert] at hv
    cases hv
    exact ⟨ht, indexAt_of_mem_bucket hm, hf, fieldOf_of_indexedField hf⟩

theorem set_replaces_index_entries_witness :
    ∃ w out,
      runCalls writeOnlyCodec
        [(Call.createIndex testStructType "Name", noFaults),
          (Call.createIndex ageType "Age", noFaults),
          (Call.set "1" (testStruct 1 "Alice"), noFaults)]
        { pl := emptyLayer "test_artemia.dat", disk := noFiles } = some w ∧
      w.pl.data.lookup "1" = some (testStruct 1 "Alice") ∧
      w.pl.bucket { PkgPath := "artemia", Name := "TestStruct" } "Name" (Scalar.str "Alice") =
        ["1"] ∧
      w.pl.Set writeOnlyCodec noFaults noFiles "1" age28 = some out ∧
      out.pl.bucket { PkgPath := "artemia", Name := "TestStruct" } "Name" (Scalar.str "Alice") =
        [] ∧
      out.pl.bucket { PkgPath := "", Name := "" } "Age" (Scalar.int 28) = ["1"] ∧
      ∀ ti F x, "1" ∈ out.pl.bucket ti F x →
        typeInfoOf age28 = some ti ∧ (out.pl.indexAt ti F).isSome = true ∧
          indexedField ti age28 F = some x ∧ fieldOf age28 F = some x :=
  have h1 : (runCalls writeOnlyCodec
      [(Call.createIndex testStructType "Name", noFaults),
        (Call.createIndex ageType "Age", noFaults),
        (Call.set "1" (testStruct 1 "Alice"), noFaults)]
      { pl := emptyLayer "test_artemia.dat", disk := noFiles }).isSome = true := by decide
  have hrun := (Option.some_get h1).symm
  have h2 : ((Option.get _ h1).pl.Set writeOnlyCodec noFaults noFiles "1" age28).isSome =
      true := rfl
  have hset := (Option.some_get h2).symm
  have hold : (Option.get _ h1).pl.data.lookup "1" = some (testStruct 1 "Alice") := rfl
  ⟨Option.get _ h1, Option.get _ h2, hrun, hold, rfl, hset, rfl, rfl,
    (set_replaces_index_entries _ _ _ _ noFiles _ noFaults "1" age28 (testStruct 1 "Alice") _
      hrun hold hset).2⟩

/-! ## Committing a transaction twice (C26) -/

theorem opEffect_sound {op : Op} {pl pl' : PrevalenceLayer} (e : OpEffect op pl pl')
    (h : Sound pl) : Sound pl' := by
  cases op with
  | set key value => exact SetEffect_sound e h
  | delete key => exact DeleteEffect_sound e h

theorem opEffect_fields {op : Op} {pl pl' : PrevalenceLayer} (e : OpEffect op pl pl')
    (ti : TypeInfo) (F : String) : (pl'.indexAt ti F).isSome = (pl.indexAt ti F).isSome := by
  cases op with
  | set key value => exact e.fields ti F
  | delete key => exact e.fields ti F

theorem opEffect_other {op : Op} {pl pl' : PrevalenceLayer} (e : OpEffect op pl pl')
    {k : String} (hne : ¬ op.key = k) :
    pl'.data.lookup k = pl.data.lookup k ∧
      ∀ ti F x, (k ∈ pl'.bucket ti F x ↔ k ∈ pl.bucket ti F x) := by
  cases op with
  | set key value =>
    have hk : k ≠ key := fun h => hne h.symm
    have e' : SetEffect pl pl' key value := e
    refine ⟨by rw [e'.data, lookup_insert_string, if_neg hk], ?_⟩
    intro ti F x
    unfold PrevalenceLayer.bucket
    rw [e'.bucket, mem_addStage, mem_dropStage]
    constructor
    · rintro (⟨hm, _⟩ | ⟨h, _⟩)
      · exact hm
      · exact absurd h hk
    · intro hm
      exact Or.inl ⟨hm, fun h => hk h.1⟩
  | delete key =>
    have hk : k ≠ key := fun h => hne h.symm
    have e' : DeleteEffect pl pl' key := e
    refine ⟨by rw [e'.data, lookup_erase_string, if_neg hk], ?_⟩
    intro ti F x
    unfold PrevalenceLayer.bucket
    rw [e'.bucket, mem_dropStage]
    constructor
    · rintro ⟨hm, _⟩
      exact hm
    · intro hm
      exact ⟨hm, fun h => hk h.1⟩

theorem setEffect_own {pl pl' : PrevalenceLayer} {key : String} {value : Value}
    (e : SetEffect pl pl' key value) (h : Sound pl) :
    pl'.data.lookup key = some value ∧
      ∀ ti F x, (key ∈ pl'.bucket ti F x ↔
        (typeInfoOf value = some ti ∧ (pl.indexAt ti F).isSome = true ∧
          indexedField ti value F = some x)) := by
  refine ⟨by rw [e.data, AList.lookup_insert], ?_⟩
  intro ti F x
  unfold PrevalenceLayer.bucket
  rw [e.bucket, mem_addStage, mem_dropStage]
  constructor
  · rintro (⟨hm, hno⟩ | ⟨_, hc⟩)
    · obtain ⟨v, hv, ht, hf⟩ := h ti F x key hm
      exact absurd ⟨rfl, v, hv, ht, fieldOf_of_indexedField hf⟩ hno
    · exact hc
  · intro hc
    exact Or.inr ⟨rfl, hc⟩

theorem deleteEffect_own {pl pl' : PrevalenceLayer} {key : String}
    (e : DeleteEffect pl pl' key) (h : Sound pl) :
    pl'.data.lookup key = none ∧ ∀ ti F x, key ∉ pl'.bucket ti F x := by
  refine ⟨by rw [e.data, AList.lookup_erase], ?_⟩
  intro ti F x hm
  unfold PrevalenceLayer.bucket at hm
  rw [e.bucket, mem_dropStage] at hm
  obtain ⟨hm, hno⟩ := hm
  obtain ⟨v, hv, ht, hf⟩ := h ti F x key hm
  exact hno ⟨rfl, v, hv, ht, fieldOf_of_indexedField hf⟩

theorem opsEffect_settled : ∀ (ops : List Op) (p p' : PrevalenceLayer),
    OpsEffect ops p p' → Sound p → ∀ k, Settled ops p p' k := by
  intro ops
  induction ops with
  | nil =>
    intro p p' e _ k
    simp only [OpsEffect] at e
    subst e
    exact ⟨rfl, fun _ _ _ => Iff.rfl⟩
  | cons op rest ih =>
    intro p p' e hs k
    obtain ⟨p1, e1, e2⟩ := e
    have hs1 := opEffect_sound e1 hs
    have s := ih p1 p' e2 hs1 k
    unfold Settled at s ⊢
    simp only [lastOp]
    cases hl : lastOp rest k with
    | some o =>
      rw [hl] at s
      cases o with
      | set key v =>
        simp only at s ⊢
        refine ⟨s.1, fun ti F x => ?_⟩
        rw [s.2 ti F x, opEffect_fields e1]
      | delete key => exact s
    | none =>
      rw [hl] at s
      simp only at s ⊢
      by_cases hk : op.key = k
      · rw [if_pos hk]
        cases op with
        | set key v =>
          simp only [Op.key] at hk
          subst hk
          have o := setEffect_own e1 hs
          simp only
          exact ⟨s.1.trans o.1, fun ti F x => (s.2 ti F x).trans (o.2 ti F x)⟩
        | delete key =>
          simp only [Op.key] at hk
          subst hk
          have o := deleteEffect_own e1 hs
          simp only
          exact ⟨s.1.trans o.1, fun ti F x hm => o.2 ti F x ((s.2 ti F x).mp hm)⟩
      · rw [if_neg hk]
        have o := opEffect_other e1 hk
        exact ⟨s.1.trans o.1, fun ti F x => (s.2 ti F x).trans (o.2 ti F x)⟩

theorem opsEffect_twice {ops : List Op} {p p1 p2 : PrevalenceLayer} (e1 : OpsEffect ops p p1)
    (e2 : OpsEffect ops p1 p2) (hs : Sound p) (k : String) :
    p2.data.lookup k = p1.data.lookup k ∧
      ∀ ti F x, (k ∈ p2.bucket ti F x ↔ k ∈ p1.bucket ti F x) := by
  have s1 := opsEffect_settled ops p p1 e1 hs k
  have s2 := opsEffect_settled ops p1 p2 e2 (OpsEffect_sound e1 hs) k
  unfold Settled at s1 s2
  cases hl : lastOp ops k with
  | none =>
    rw [hl] at s2
    exact s2
  | some o =>
    rw [hl] at s1 s2
    cases o with
    | set key v =>
      simp only at s1 s2
      refine ⟨s2.1.trans s1.1.symm, fun ti F x => ?_⟩
      rw [s2.2 ti F x, s1.2 ti F x, OpsEffect_fields e1]
    | delete key =>
      simp only at s1 s2
      exact ⟨s2.1.trans s1.1.symm,
        fun ti F x => ⟨fun h => absurd h (s2.2 ti F x), fun h => absurd h (s1.2 ti F x)⟩⟩

theorem recommit_idempotent (gob : Codec) (steps : List (Call × Faults)) (filename : String)
    (d0 d1 d2 : Disk) (w : World) (os1 os2 : Faults) (tx : Transaction) (out1 out2 : Outcome)
    (hrun : runCalls gob steps { pl := emptyLayer filename, disk := d0 } = some w)
    (h1 : w.pl.Commit gob os1 d1 tx = some out1)
    (h2 : out1.pl.Commit gob os2 d2 tx = some out2) :
    (∀ k, out2.pl.Get k = out1.pl.Get k) ∧
      ∀ structType F x v,
        v ∈ out2.pl.QueryByIndex structType F x ↔ v ∈ out1.pl.QueryByIndex structType F x := by
  have hs := (runCalls_sound gob steps _ w hrun
    ⟨sound_emptyLayer filename, noDuplicates_emptyLayer filename⟩).1
  have t := opsEffect_twice (Commit_effect h1) (Commit_effect h2) hs
  refine ⟨fun k => get_congr (t k).1, ?_⟩
  intro structType F x v
  rw [QueryByIndex_eq, QueryByIndex_eq]
  simp only [List.mem_map]
  constructor
  · rintro ⟨k, hk, hv⟩
    exact ⟨k, ((t k).2 _ _ _).mp hk, by rw [← (t k).1]; exact hv⟩
  · rintro ⟨k, hk, hv⟩
    exact ⟨k, ((t k).2 _ _ _).mpr hk, by rw [(t k).1]; exact hv⟩

/-- C26, the code at the failing input.  After
`CreateIndex(reflect.TypeOf(&TestStruct{}), "Name")` on the empty store, the
first `Commit` of the transaction holding `Set("key1", &n)`, `n` an int,
returns and stores the pointer; the second `Commit` of the same transaction
panics, as `removeFromIndexes` calls `FieldByName` on the int that the
stored pointer refers to. -/
theorem recommit_panics :
    ∃ w out1,
      runCalls writeOnlyCodec [(Call.createIndex (GoType.ptr testStructType) "Name", noFaults)]
        { pl := emptyLayer "test_artemia.dat", disk := noFiles } = some w ∧
      w.pl.Commit writeOnlyCodec noFaults noFiles intPointerTx = some out1 ∧
      out1.err = none ∧
      out1.pl.Get "key1" = (intPointer, true) ∧
      out1.pl.Commit writeOnlyCodec noFaults out1.disk intPointerTx = none :=
  have h1 : (runCalls writeOnlyCodec
      [(Call.createIndex (GoType.ptr testStructType) "Name", noFaults)]
      { pl := emptyLayer "test_artemia.dat", disk := noFiles }).isSome = true := by decide
  have h2 : ((Option.get _ h1).pl.Commit writeOnlyCodec noFaults noFiles intPointerTx).isSome =
      true := rfl
  ⟨Option.get _ h1, Option.get _ h2, (Option.some_get h1).symm, (Option.some_get h2).symm,
    rfl, rfl, rfl⟩

end Artemia
